import Mathlib

/-!
# ladish application supervisor: shallow embedding and verified properties

Source: `daemon/app_supervisor.c`.

Conventions of the embedding

* C strings are Lean `String`s; `strcmp(a, b) == 0` is `a = b` and `strlen` is the
  UTF-8 byte size.
* `uint64_t` counters (`version`, `next_id`, `id`) are `Nat` with an explicit
  `% 2 ^ 64` at every increment; `pid_t` and `int` are `Int`.
* The intrusive list `applist` is a `List`; an app handle (a pointer to a list
  node) is the position of the node in the list.
* Everything written to the outside world (D-Bus signals, POSIX signals, calls
  into proxies, the rename callback) is recorded, in program order, in a list of
  `Event`s returned next to the new state.
* Results of external calls (allocation, `uuid_generate`, `loader_execute`,
  `getpgid`, `lash_client_proxy_quit`) are explicit arguments.
* `ASSERT` / `ASSERT_NO_PASS` log and continue; they never change control flow.
-/

namespace Ladish

/-! ## Constants of the missing headers -/

/-- The macros that `app_supervisor.c` takes from headers which are not part of
the sources at hand: the level vocabulary, the size of the `level` buffer, and
whether `ASSERT(expr)` evaluates `expr` (`true`) or is compiled out (`false`).
The functions below take them as a parameter. -/
structure Headers where
  LADISH_APP_LEVEL_0 : String
  LADISH_APP_LEVEL_1 : String
  LADISH_APP_LEVEL_LASH : String
  LADISH_APP_LEVEL_JACKSESSION : String
  MAX_LEVEL_CHARCOUNT : Nat
  ASSERT_evaluates : Bool
  deriving DecidableEq

/-- Modelled from the spec: the macro values of the missing headers.  The spec
fixes the level vocabulary as {0, 1, RichProtocol} and uses the string "0" for
level 0; the rich protocol is LASH.  Used for concrete evaluations only; every
general theorem quantifies over the headers. -/
def stdHeaders : Headers where
  LADISH_APP_LEVEL_0 := "0"
  LADISH_APP_LEVEL_1 := "1"
  LADISH_APP_LEVEL_LASH := "lash"
  LADISH_APP_LEVEL_JACKSESSION := "jacksession"
  MAX_LEVEL_CHARCOUNT := 12
  ASSERT_evaluates := true

/-- Values of `unsigned int state` (`LADISH_APP_STATE_*`). -/
inductive AppState where
  | STOPPED
  | STARTED
  | STOPPING
  | KILL
  deriving DecidableEq

/-- A `uuid_t`, read as a 128-bit number; the null UUID is `0`. -/
abbrev uuid_t := Nat

/-- Counterpart of `uuid_is_null`. -/
def uuid_is_null (u : uuid_t) : Bool := u == 0

/-- Size of the `uint64_t` range. -/
def UINT64_SIZE : Nat := 2 ^ 64

/-- The C expression `x + 1` on `uint64_t`. -/
def u64_inc (x : Nat) : Nat := (x + 1) % UINT64_SIZE

/-! ## Data model -/

/-- Counterpart of `struct ladish_app` (without the list links and the back
pointer to the supervisor). -/
structure App where
  id : Nat
  uuid : uuid_t
  name : String
  commandline : String
  terminal : Bool
  level : String
  pid : Int
  pgrp : Int
  firstborn_pid : Int
  firstborn_pgrp : Int
  firstborn_refcount : Int
  zombie : Bool
  autorun : Bool
  state : AppState
  dbus_name : Option String
  deriving DecidableEq

/-- Counterpart of `struct ladish_app_supervisor` (without the rename callback,
whose invocations are recorded as events). -/
structure Supervisor where
  name : String
  opath : String
  dir : Option String
  project_name : Option String
  version : Nat
  next_id : Nat
  applist : List App
  deriving DecidableEq

/-- Everything the supervisor sends to the outside world. -/
inductive Event where
  | AppAdded (new_list_version id : Nat) (name : String) (running terminal : Bool) (level : Nat)
  | AppAdded2 (new_list_version id : Nat) (name : String) (running terminal : Bool) (level : String)
  | AppRemoved (new_list_version id : Nat)
  | AppStateChanged (new_list_version id : Nat) (name : String) (running terminal : Bool)
      (level : Nat)
  | AppStateChanged2 (new_list_version id : Nat) (name : String) (running terminal : Bool)
      (level : String)
  | killpg (pgrp : Int) (sig : Int)
  | kill (pid : Int) (sig : Int)
  | lash_quit (dbus_name : String)
  | lash_save (dbus_name : String) (base_dir : Option String) (uuid : uuid_t)
  | notify_high (message : String) (name : String)
  | on_app_renamed (uuid : uuid_t) (old_name new_name : String)
  deriving DecidableEq

/-! ## Level validation -/

/-- Counterpart of `ladish_check_app_level_validity`.  `none` is the result
`false`; `some len` is the result `true` together with the value stored through
`len_ptr`. -/
def ladish_check_app_level_validity (h : Headers) (level : String) : Option Nat :=
  let len := level.utf8ByteSize
  if len ≥ h.MAX_LEVEL_CHARCOUNT then
    none
  else if level ≠ h.LADISH_APP_LEVEL_0 ∧
      level ≠ h.LADISH_APP_LEVEL_1 ∧
      level ≠ h.LADISH_APP_LEVEL_LASH then
    none
  else
    some len

/-- Counterpart of `ladish_level_string_to_integer`. -/
def ladish_level_string_to_integer (h : Headers) (level : String) : Nat :=
  if level = h.LADISH_APP_LEVEL_0 then
    0
  else if level = h.LADISH_APP_LEVEL_1 then
    1
  else if level = h.LADISH_APP_LEVEL_LASH ∨ level = h.LADISH_APP_LEVEL_JACKSESSION then
    2
  else
    255

/-! ## Creation, lookups, removal, notifications -/

/-- Counterpart of `ladish_app_supervisor_create`.  `alloc_ok` tells whether the
three allocations (`malloc`, two `strdup`) succeed; `none` is the result `false`. -/
def ladish_app_supervisor_create (alloc_ok : Bool) (opath name : String) : Option Supervisor :=
  if alloc_ok then
    some { name := name, opath := opath, dir := none, project_name := none,
           version := 0, next_id := 1, applist := [] }
  else
    none

/-- The loop `list_for_each(node_ptr, &applist) { if (cond) return app_ptr; }
return NULL;` shared by the lookups: the handle of the first node that satisfies
`cond`, if any. -/
def list_for_each_find (cond : App → Bool) : List App → Option Nat
  | [] => none
  | app :: rest =>
    if cond app then some 0 else (list_for_each_find cond rest).map (· + 1)

/-- Counterpart of `ladish_app_supervisor_find_app_by_id_internal`. -/
def ladish_app_supervisor_find_app_by_id_internal (s : Supervisor) (id : Nat) : Option Nat :=
  list_for_each_find (fun app => app.id == id) s.applist

/-- Counterpart of `ladish_app_supervisor_find_app_by_name`. -/
def ladish_app_supervisor_find_app_by_name (s : Supervisor) (name : String) : Option Nat :=
  list_for_each_find (fun app => app.name == name) s.applist

/-- Counterpart of `ladish_app_supervisor_find_app_by_id`. -/
def ladish_app_supervisor_find_app_by_id (s : Supervisor) (id : Nat) : Option Nat :=
  ladish_app_supervisor_find_app_by_id_internal s id

/-- Counterpart of `ladish_app_supervisor_find_app_by_pid`. -/
def ladish_app_supervisor_find_app_by_pid (s : Supervisor) (pid : Int) : Option Nat :=
  list_for_each_find (fun app => app.pid == pid) s.applist

/-- Counterpart of `ladish_app_supervisor_find_app_by_uuid`. -/
def ladish_app_supervisor_find_app_by_uuid (s : Supervisor) (uuid : uuid_t) : Option Nat :=
  list_for_each_find (fun app => app.uuid == uuid) s.applist

/-- Counterpart of `remove_app_internal`: unlink the node, bump the version, emit
`AppRemoved`.  (The `ASSERT(app_ptr->pid == 0)` does not change control flow.) -/
def remove_app_internal (s : Supervisor) (app_handle : Nat) : Supervisor × List Event :=
  match s.applist[app_handle]? with
  | none => (s, [])
  | some app =>
    let version := u64_inc s.version
    ({ s with applist := s.applist.eraseIdx app_handle, version := version },
     [Event.AppRemoved version app.id])

/-- Counterpart of `emit_app_state_changed`: bump the version, then emit the two
`AppStateChanged` signals for the app. -/
def emit_app_state_changed (h : Headers) (s : Supervisor) (app : App) :
    Supervisor × List Event :=
  let running := app.pid != 0
  let terminal := app.terminal
  let level_str := app.level
  let level_byte := ladish_level_string_to_integer h app.level
  let version := u64_inc s.version
  ({ s with version := version },
   [Event.AppStateChanged version app.id app.name running terminal level_byte,
    Event.AppStateChanged2 version app.id app.name running terminal level_str])

/-! ## Adding an app -/

/-- The `uuid == NULL || uuid_is_null(uuid)` branch of
`ladish_app_supervisor_add`: the UUID stored in the new app is the generated one
when the argument is `NULL` (`none`) or the null UUID, else a copy of the
argument. -/
def effective_uuid (uuid : Option uuid_t) (generated : uuid_t) : uuid_t :=
  match uuid with
  | none => generated
  | some u => if uuid_is_null u then generated else u

/-- Counterpart of `ladish_app_supervisor_add`.  `alloc_ok` tells whether the
allocations (`malloc`, two `strdup`) succeed; `uuid` is `none` for a `NULL`
argument; `generated` is what `uuid_generate` produces if it is called.  The
first component is the returned handle (`none` for `NULL`). -/
def ladish_app_supervisor_add (h : Headers) (s : Supervisor) (alloc_ok : Bool)
    (name : String) (uuid : Option uuid_t) (generated : uuid_t) (autorun : Bool)
    (command : String) (terminal : Bool) (level : String) :
    Option Nat × Supervisor × List Event :=
  match ladish_check_app_level_validity h level with
  | none => (none, s, [])
  | some _len =>
    if !alloc_ok then
      (none, s, [])
    else
      let app : App :=
        { id := s.next_id
          uuid := effective_uuid uuid generated
          name := name
          commandline := command
          terminal := terminal
          level := level
          pid := 0
          pgrp := 0
          firstborn_pid := 0
          firstborn_pgrp := 0
          firstborn_refcount := 0
          zombie := false
          autorun := autorun
          state := AppState.STOPPED
          dbus_name := none }
      let version := u64_inc s.version
      let running := false
      let level_byte := ladish_level_string_to_integer h app.level
      (some s.applist.length,
       { s with next_id := u64_inc s.next_id
                applist := s.applist ++ [app]
                version := version },
       [Event.AppAdded version app.id app.name running terminal level_byte,
        Event.AppAdded2 version app.id app.name running terminal app.level])

/-! ## Signal delivery -/

/-- Signal numbers of `<signal.h>` (Linux). -/
def SIGKILL : Int := 9

/-- See `SIGKILL`. -/
def SIGUSR1 : Int := 10

/-- See `SIGKILL`. -/
def SIGTERM : Int := 15

/-- Results of the system and proxy calls made while signalling or stopping apps:
`getpgid pid` is the return value of `getpgid(pid)` (`-1` on failure) and
`lash_client_proxy_quit name` the return value of that call. -/
structure Env where
  getpgid : Int → Int
  lash_client_proxy_quit : String → Bool

/-- The `default:` arm of the second `switch` of `ladish_app_send_signal`
(also reached by falling through from the `SIGKILL`/`SIGTERM` arm). -/
def send_signal_to_pid (app : App) (sig : Int) (prefer_firstborn : Bool) : List Event :=
  if app.pid ≤ 1 then
    []
  else
    let pid := if prefer_firstborn && app.firstborn_pid != 0 then app.firstborn_pid else app.pid
    if pid ≤ 1 then [] else [Event.kill pid sig]

/-- The two `getpgid` blocks at the head of the `SIGKILL`/`SIGTERM` arm of
`ladish_app_send_signal`: resolve the primary process group if it is not known
yet, and the process group of the firstborn if one is tracked; a failed
`getpgid` (`-1`) stores `0`. -/
def resolve_process_groups (env : Env) (app : App) : App :=
  let pgrp :=
    if app.pgrp = 0 then
      (if env.getpgid app.pid = -1 then 0 else env.getpgid app.pid)
    else app.pgrp
  let firstborn_pgrp :=
    if app.firstborn_pid ≠ 0 then
      (if env.getpgid app.firstborn_pid = -1 then 0 else env.getpgid app.firstborn_pid)
    else app.firstborn_pgrp
  { app with pgrp := pgrp, firstborn_pgrp := firstborn_pgrp }

/-- The rest of the `SIGKILL`/`SIGTERM` arm of `ladish_app_send_signal`, after
the process groups have been resolved: signal the groups, or fall through to the
`default:` arm. -/
def signal_process_groups (app : App) (sig : Int) (prefer_firstborn : Bool) : List Event :=
  if app.pgrp ≠ 0 then
    if app.pgrp ≤ 1 then
      []
    else if app.firstborn_pid ≠ 0 then
      if app.firstborn_pgrp ≠ 0 then
        if app.firstborn_pgrp ≤ 1 then
          [Event.killpg app.pgrp sig]
        else if app.firstborn_pgrp ≠ app.pgrp then
          [Event.killpg app.pgrp sig, Event.killpg app.firstborn_pgrp sig]
        else
          [Event.killpg app.pgrp sig]
      else
        Event.killpg app.pgrp sig :: send_signal_to_pid app sig prefer_firstborn
    else
      [Event.killpg app.pgrp sig]
  else
    send_signal_to_pid app sig prefer_firstborn

/-- The first statement of `ladish_app_send_signal`,
`ASSERT(app_ptr->state = LADISH_APP_STATE_STARTED)`: an assignment, performed
when `ASSERT` evaluates its argument. -/
def assert_state_assignment (h : Headers) (app : App) : App :=
  if h.ASSERT_evaluates then { app with state := AppState.STARTED } else app

/-- Counterpart of `ladish_app_send_signal`. -/
def ladish_app_send_signal (h : Headers) (env : Env) (app : App) (sig : Int)
    (prefer_firstborn : Bool) : App × List Event :=
  let app := assert_state_assignment h app
  if app.pid = 0 then
    (app, [])
  else if sig = SIGKILL ∨ sig = SIGTERM then
    let app := resolve_process_groups env app
    (app, signal_process_groups app sig prefer_firstborn)
  else
    (app, send_signal_to_pid app sig prefer_firstborn)

/-- Counterpart of `ladish_app_initiate_stop`. -/
def ladish_app_initiate_stop (h : Headers) (env : Env) (app : App) : App × List Event :=
  let quit : Option String :=
    if app.level = h.LADISH_APP_LEVEL_LASH then app.dbus_name else none
  match quit with
  | some dbus_name =>
    if env.lash_client_proxy_quit dbus_name then
      ({ app with state := AppState.STOPPING }, [Event.lash_quit dbus_name])
    else
      let (app, evs) := ladish_app_send_signal h env app SIGTERM false
      ({ app with state := AppState.STOPPING }, Event.lash_quit dbus_name :: evs)
  | none =>
    let (app, evs) := ladish_app_send_signal h env app SIGTERM false
    ({ app with state := AppState.STOPPING }, evs)

/-! ## Lifecycle operations -/

/-- The body of the `list_for_each_safe` loop of `ladish_app_supervisor_clear`,
run over the remaining nodes with the current version: running apps get their
stop initiated and are flagged zombie, stopped apps are removed as by
`remove_app_internal`.  Returns the remaining nodes, the version, the events and
the flag `lifeless`. -/
def clear_loop (h : Headers) (env : Env) : List App → Nat → List App × Nat × List Event × Bool
  | [], version => ([], version, [], true)
  | app :: rest, version =>
    if app.pid ≠ 0 then
      let (app, evs) := ladish_app_initiate_stop h env app
      let app := { app with zombie := true }
      let (rest, version, evs_rest, _) := clear_loop h env rest version
      (app :: rest, version, evs ++ evs_rest, false)
    else
      let version := u64_inc version
      let (rest, version_end, evs_rest, lifeless) := clear_loop h env rest version
      (rest, version_end, Event.AppRemoved version app.id :: evs_rest, lifeless)

/-- Counterpart of `ladish_app_supervisor_clear`; the first component is the
returned `lifeless`. -/
def ladish_app_supervisor_clear (h : Headers) (env : Env) (s : Supervisor) :
    Bool × Supervisor × List Event :=
  let (apps, version, evs, lifeless) := clear_loop h env s.applist s.version
  (lifeless,
   { s with dir := none, project_name := none, applist := apps, version := version },
   evs)

/-- Counterpart of `ladish_app_supervisor_child_exit`. -/
def ladish_app_supervisor_child_exit (h : Headers) (s : Supervisor) (pid : Int) :
    Bool × Supervisor × List Event :=
  match list_for_each_find (fun app => app.pid == pid) s.applist with
  | none => (false, s, [])
  | some app_handle =>
    match s.applist[app_handle]? with
    | none => (false, s, [])
    | some app =>
      let app := { app with pid := 0, pgrp := 0 }
      if app.zombie then
        let (s, evs) := remove_app_internal { s with applist := s.applist.set app_handle app }
          app_handle
        (true, s, evs)
      else
        let notify :=
          if app.state = AppState.STARTED then
            [Event.notify_high "App terminated unexpectedly" app.name]
          else []
        let app := { app with state := AppState.STOPPED }
        let (s, evs) := emit_app_state_changed h
          { s with applist := s.applist.set app_handle app } app
        (true, s, notify ++ evs)

/-- Modelled from the spec: the outcome of a call of `loader_execute`, whose
source (`loader.c`) is missing.  `none` is the result `false`: the spawn failed
and `*pid_ptr` was left alone ("on failure leaves the entry untouched");
`some pid` is the result `true` after the pid of the child was stored. -/
abbrev LoaderOutcome := Option Int

/-- Counterpart of `ladish_app_supervisor_start_app`; `loader_execute` is the
outcome of the call of the external loader. -/
def ladish_app_supervisor_start_app (h : Headers) (s : Supervisor) (app_handle : Nat)
    (loader_execute : LoaderOutcome) : Bool × Supervisor × List Event :=
  match s.applist[app_handle]? with
  | none => (false, s, [])
  | some app =>
    let app := { app with zombie := false }
    match loader_execute with
    | none => (false, { s with applist := s.applist.set app_handle app }, [])
    | some pid =>
      let app := { app with pid := pid, state := AppState.STARTED }
      let (s, evs) := emit_app_state_changed h
        { s with applist := s.applist.set app_handle app } app
      (true, s, evs)

/-- Counterpart of `ladish_app_supervisor_remove_app`. -/
def ladish_app_supervisor_remove_app (s : Supervisor) (app_handle : Nat) :
    Supervisor × List Event :=
  remove_app_internal s app_handle

/-- Counterpart of `ladish_app_stop`. -/
def ladish_app_stop (h : Headers) (env : Env) (app : App) : App × List Event :=
  ladish_app_initiate_stop h env app

/-- Counterpart of `ladish_app_kill`. -/
def ladish_app_kill (h : Headers) (env : Env) (app : App) : App × List Event :=
  let (app, evs) := ladish_app_send_signal h env app SIGKILL false
  ({ app with state := AppState.KILL }, evs)

/-- Apply a function that works on an app record (`ladish_app_stop`,
`ladish_app_kill`) to the app behind a handle of the supervisor. -/
def on_app (s : Supervisor) (app_handle : Nat) (f : App → App × List Event) :
    Supervisor × List Event :=
  match s.applist[app_handle]? with
  | none => (s, [])
  | some app =>
    let (app, evs) := f app
    ({ s with applist := s.applist.set app_handle app }, evs)

/-! ## Property mutation over D-Bus -/

/-- The level argument of `SetAppProperties` (a byte, interface version 1) or
`SetAppProperties2` (a string, interface version 2). -/
inductive LevelArg where
  | byte (level_byte : Nat)
  | str (level_str : String)
  deriving DecidableEq

/-- Outcome of a D-Bus method: a void return or one of the two error kinds. -/
inductive MethodReply where
  | method_return_void
  | LASH_DBUS_ERROR_INVALID_ARGS
  | LASH_DBUS_ERROR_GENERIC
  deriving DecidableEq

/-- The tail of `set_app_properties_multiversion` that commits the new values:
the name and the commandline are replaced when they differ from the stored ones
(`name_buffer != NULL`, `commandline_buffer != NULL`), the level and the
terminal flag are always stored. -/
def store_properties (app : App) (name commandline : String) (terminal : Bool)
    (level_str : String) : App :=
  let app := if name ≠ app.name then { app with name := name } else app
  let app :=
    if commandline ≠ app.commandline then { app with commandline := commandline } else app
  { app with level := level_str, terminal := terminal }

/-- Counterpart of `set_app_properties_multiversion`, after the arguments have
been unmarshalled.  `strdup_commandline_ok` and `strdup_name_ok` tell whether the
respective `strdup` succeeds if it is called. -/
def set_app_properties_multiversion (h : Headers) (s : Supervisor) (id : Nat)
    (name commandline : String) (terminal : Bool) (level : LevelArg)
    (strdup_commandline_ok strdup_name_ok : Bool) :
    MethodReply × Supervisor × List Event :=
  let level_checked : Option String :=
    match level with
    | LevelArg.byte level_byte =>
      if level_byte > 1 then none
      else some (if level_byte = 0 then h.LADISH_APP_LEVEL_0 else h.LADISH_APP_LEVEL_1)
    | LevelArg.str level_str =>
      (ladish_check_app_level_validity h level_str).map (fun _ => level_str)
  match level_checked with
  | none => (MethodReply.LASH_DBUS_ERROR_INVALID_ARGS, s, [])
  | some level_str =>
    match ladish_app_supervisor_find_app_by_id_internal s id with
    | none => (MethodReply.LASH_DBUS_ERROR_INVALID_ARGS, s, [])
    | some app_handle =>
      match s.applist[app_handle]? with
      | none => (MethodReply.LASH_DBUS_ERROR_INVALID_ARGS, s, [])
      | some app =>
        if app.pid ≠ 0 ∧ commandline ≠ app.commandline then
          (MethodReply.LASH_DBUS_ERROR_GENERIC, s, [])
        else if app.pid ≠ 0 ∧
            ((app.terminal = true ∧ terminal = false) ∨
             (app.terminal = false ∧ terminal = true)) then
          (MethodReply.LASH_DBUS_ERROR_GENERIC, s, [])
        else if app.pid ≠ 0 ∧ app.level ≠ level_str then
          (MethodReply.LASH_DBUS_ERROR_GENERIC, s, [])
        else if commandline ≠ app.commandline ∧ strdup_commandline_ok = false then
          (MethodReply.LASH_DBUS_ERROR_GENERIC, s, [])
        else if name ≠ app.name ∧ strdup_name_ok = false then
          (MethodReply.LASH_DBUS_ERROR_GENERIC, s, [])
        else
          let renamed :=
            if name ≠ app.name then [Event.on_app_renamed app.uuid app.name name] else []
          let app := store_properties app name commandline terminal level_str
          let (s, evs) := emit_app_state_changed h
            { s with applist := s.applist.set app_handle app } app
          (MethodReply.method_return_void, s, renamed ++ evs)

/-! ## Operation sequences -/

/-- One call of a mutating operation of the supervisor, with the outcomes of the
external calls it makes. -/
inductive Op where
  | add (alloc_ok : Bool) (name : String) (uuid : Option uuid_t) (generated : uuid_t)
      (autorun : Bool) (command : String) (terminal : Bool) (level : String)
  | remove (app_handle : Nat)
  | start (app_handle : Nat) (loader_execute : LoaderOutcome)
  | stop (app_handle : Nat) (env : Env)
  | kill (app_handle : Nat) (env : Env)
  | child_exit (pid : Int)
  | clear (env : Env)
  | set_properties (id : Nat) (name commandline : String) (terminal : Bool)
      (level : LevelArg) (strdup_commandline_ok strdup_name_ok : Bool)

/-- Perform one operation: the new supervisor and the events it emits. -/
def step (h : Headers) (s : Supervisor) : Op → Supervisor × List Event
  | Op.add alloc_ok name uuid generated autorun command terminal level =>
    (ladish_app_supervisor_add h s alloc_ok name uuid generated autorun command terminal level).2
  | Op.remove app_handle => ladish_app_supervisor_remove_app s app_handle
  | Op.start app_handle loader_execute =>
    (ladish_app_supervisor_start_app h s app_handle loader_execute).2
  | Op.stop app_handle env => on_app s app_handle (ladish_app_stop h env)
  | Op.kill app_handle env => on_app s app_handle (ladish_app_kill h env)
  | Op.child_exit pid => (ladish_app_supervisor_child_exit h s pid).2
  | Op.clear env => (ladish_app_supervisor_clear h env s).2
  | Op.set_properties id name commandline terminal level ok_commandline ok_name =>
    (set_app_properties_multiversion h s id name commandline terminal level
      ok_commandline ok_name).2

/-- Perform a sequence of operations, first to last. -/
def run (h : Headers) (s : Supervisor) : List Op → Supervisor
  | [] => s
  | op :: ops => run h (step h s op).1 ops

/-- The events emitted by a sequence of operations, in order. -/
def run_events (h : Headers) (s : Supervisor) : List Op → List Event
  | [] => []
  | op :: ops => (step h s op).2 ++ run_events h (step h s op).1 ops

/-! ## Observations on events and operation sequences -/

/-- The list version carried by a D-Bus signal of the supervisor interface
(its first argument, `new_list_version`); `none` for every other event. -/
def Event.carried_version : Event → Option Nat
  | Event.AppAdded v _ _ _ _ _ => some v
  | Event.AppAdded2 v _ _ _ _ _ => some v
  | Event.AppRemoved v _ => some v
  | Event.AppStateChanged v _ _ _ _ _ => some v
  | Event.AppStateChanged2 v _ _ _ _ _ => some v
  | _ => none

/-- Whether the event is one of the notifications `AppAdded`, `AppRemoved`,
`AppStateChanged` (each of the first and the last is followed by its twin
`AppAdded2` / `AppStateChanged2`, which is not counted again). -/
def Event.is_notification : Event → Bool
  | Event.AppAdded _ _ _ _ _ _ => true
  | Event.AppRemoved _ _ => true
  | Event.AppStateChanged _ _ _ _ _ _ => true
  | _ => false

/-- No event of the list is a D-Bus signal of the supervisor interface. -/
def silent (evs : List Event) : Prop :=
  ∀ e ∈ evs, e.carried_version = none

/-- How a single operation treats the version: it either leaves the version as
it is and emits no D-Bus signal of the supervisor interface, or it increments
the version once and then emits exactly one notification (plus possibly its
twin), every such signal carrying the incremented version. -/
def VersionDiscipline (s s' : Supervisor) (evs : List Event) : Prop :=
  (s'.version = s.version ∧ silent evs) ∨
  (s'.version = u64_inc s.version ∧
    (evs.filter Event.is_notification).length = 1 ∧
    ∀ e ∈ evs, ∀ v, e.carried_version = some v → v = u64_inc s.version)

/-- Whether the operation is `clear` (the only operation that may remove several
apps, hence notify several times, in one call). -/
def Op.is_clear : Op → Bool
  | Op.clear _ => true
  | _ => false

/-- Number of operations of the sequence that change the state of the
supervisor (any field of the supervisor or of one of its apps). -/
def state_changing_count (h : Headers) (s : Supervisor) : List Op → Nat
  | [] => 0
  | op :: ops =>
    (if (step h s op).1 ≠ s then 1 else 0) + state_changing_count h (step h s op).1 ops

/-- Number of operations of the sequence that emit a notification. -/
def notifying_count (h : Headers) (s : Supervisor) : List Op → Nat
  | [] => 0
  | op :: ops =>
    (if (step h s op).2.any Event.is_notification then 1 else 0) +
      notifying_count h (step h s op).1 ops

/-- The identity of an app: its numeric id and its UUID. -/
def app_key (app : App) : Nat × uuid_t := (app.id, app.uuid)

/-- Whether the operation is an add that is accepted (valid level, successful
allocations), in which case the UUID of the new app. -/
def Op.added_uuid (h : Headers) : Op → Option uuid_t
  | Op.add alloc_ok _ uuid generated _ _ _ level =>
    if (ladish_check_app_level_validity h level).isSome && alloc_ok then
      some (effective_uuid uuid generated)
    else none
  | _ => none

/-- Number of accepted additions in a sequence of operations. -/
def additions (h : Headers) (ops : List Op) : Nat :=
  ops.countP (fun op => (op.added_uuid h).isSome)

/-- No app of the list is flagged zombie while stopped (pid 0). -/
def NoStoppedZombie (apps : List App) : Prop :=
  ∀ app ∈ apps, app.zombie = true → app.pid ≠ 0

/-- What it means for a lookup result to be the first match in list order:
`none` when no app of the list satisfies the condition, `some i` when the app at
position `i` satisfies it and no app at an earlier position does. -/
def FirstMatch (cond : App → Bool) (apps : List App) : Option Nat → Prop
  | none => ∀ app ∈ apps, cond app = false
  | some i =>
    ∃ app, apps[i]? = some app ∧ cond app = true ∧
      ∀ j, j < i → ∀ other, apps[j]? = some other → cond other = false

/-- The list of the ids of the apps of a supervisor, in list order. -/
def app_ids (s : Supervisor) : List Nat := s.applist.map App.id

/-- Whether every accepted add of the sequence gives the new app a UUID that no
app in the list at that moment carries. -/
def fresh_uuids (h : Headers) (s : Supervisor) : List Op → Bool
  | [] => true
  | op :: ops =>
    (match op.added_uuid h with
      | some u => s.applist.all (fun app => app.uuid != u)
      | none => true) &&
    fresh_uuids h (step h s op).1 ops

/-- The state of the ids after `n` accepted additions (for `n < 2^64`): `next_id`
is `n + 1` as `uint64_t`, the ids increase along the list, and every id lies
between 1 and `n`. -/
def IdInvariant (n : Nat) (s : Supervisor) : Prop :=
  s.next_id = (n + 1) % UINT64_SIZE ∧
  List.Pairwise (fun a b : Nat × uuid_t => a.1 < b.1) (s.applist.map app_key) ∧
  ∀ k ∈ s.applist.map app_key, 1 ≤ k.1 ∧ k.1 ≤ n

/-- An environment in which no process group can be resolved and LASH quit
requests fail. -/
def sample_env : Env where
  getpgid := fun _ => -1
  lash_client_proxy_quit := fun _ => false

/-- The supervisor made by `ladish_app_supervisor_create` for the studio. -/
def fresh_supervisor : Supervisor where
  name := "studio"
  opath := "/org/ladish/Studio"
  dir := none
  project_name := none
  version := 0
  next_id := 1
  applist := []

/-- Add app "foo", start it (the loader reports pid 1234), then stop it. -/
def add_start_stop : List Op :=
  [Op.add true "foo" none 77 false "/bin/foo" false "0",
   Op.start 0 (some 1234),
   Op.stop 0 sample_env]

/-- One accepted add of the app "foo" of level "0". -/
def add_foo : Op := Op.add true "foo" none 77 false "/bin/foo" false "0"

/-- As many additions as it takes to wrap `next_id` around: 2^64 - 1. -/
def wrapping_additions : List Op := List.replicate (UINT64_SIZE - 1) add_foo

/-- Two accepted adds that supply the same UUID 5. -/
def add_same_uuid_twice : List Op :=
  [Op.add true "a" (some 5) 77 false "/bin/a" false "0",
   Op.add true "b" (some 5) 78 false "/bin/b" false "1"]

/-- Two accepted adds, the first with a generated UUID (77), the second with the
supplied UUID 5. -/
def add_distinct_uuids : List Op :=
  [Op.add true "a" none 77 false "/bin/a" false "0",
   Op.add true "b" (some 5) 78 false "/bin/b" false "1"]

/-! ## Sample data for concrete evaluations -/

/-- A stopped app of level "0". -/
def sample_app : App where
  id := 2
  uuid := 11
  name := "a"
  commandline := "/bin/a"
  terminal := false
  level := "0"
  pid := 0
  pgrp := 0
  firstborn_pid := 0
  firstborn_pgrp := 0
  firstborn_refcount := 0
  zombie := false
  autorun := false
  state := AppState.STOPPED
  dbus_name := none

/-- A supervisor that holds `sample_app`. -/
def sample_supervisor : Supervisor where
  name := "studio"
  opath := "/org/ladish/Studio"
  dir := none
  project_name := none
  version := 7
  next_id := 4
  applist := [sample_app]

/-! ## Firstborn tracking -/

/-- Counterpart of `ladish_app_add_pid`.  The `int` reference count is
incremented exactly. -/
def ladish_app_add_pid (app : App) (pid : Int) : App :=
  if app.pid = 0 then
    app
  else if pid ≤ 1 then
    app
  else if app.pid = pid then
    app
  else if app.firstborn_pid ≠ 0 then
    if app.firstborn_pid = pid then
      { app with firstborn_refcount := app.firstborn_refcount + 1 }
    else app
  else
    { app with firstborn_pid := pid, firstborn_refcount := 1 }

/-- Counterpart of `ladish_app_del_pid`. -/
def ladish_app_del_pid (app : App) (pid : Int) : App :=
  if app.firstborn_pid ≠ 0 ∧ app.firstborn_pid = pid then
    let app := { app with firstborn_refcount := app.firstborn_refcount - 1 }
    if app.firstborn_refcount > 0 then
      app
    else
      { app with firstborn_pid := 0, firstborn_pgrp := 0, firstborn_refcount := 0 }
  else
    app

/-! ## The start-studio command

Source: `daemon/cmd_start_studio.c`. -/

/-- Modelled from the spec: the values of `cmd_ptr->state`
(`LADISH_COMMAND_STATE_*`; the header `cmd.h` is missing): Pending, Waiting,
Done, Failed. -/
inductive CommandState where
  | PENDING
  | WAITING
  | DONE
  | FAILED
  deriving DecidableEq

/-- Results of the external calls that `run` of the start-studio command may
make: `studio_is_started()`, `loader_get_app_count()`,
`jack_proxy_start_server()` and `ladish_environment_consume_change(...)` for the
JACK-server-started state (`none` when it returns false: no change to consume;
`some v` when it returns true, consuming the change and storing `v` in
`jack_server_started`). -/
structure StudioCalls where
  studio_is_started : Bool
  loader_get_app_count : Nat
  jack_proxy_start_server : Bool
  consume_change : Option Bool
  deriving DecidableEq

/-- The external calls made by `run` of the start-studio command, recorded in
program order.  (Logging and the side-effect free query inside `ASSERT` are not
recorded.) -/
inductive StudioCall where
  | studio_is_started
  | loader_get_app_count
  | ladish_graph_dump
  | jack_proxy_start_server
  | consume_change (consumed : Bool)
  | on_event_jack_started
  deriving DecidableEq

/-- The `case LADISH_COMMAND_STATE_WAITING:` arm of `run`, which the Pending arm
falls through to after it has set the state to Waiting. -/
def cmd_start_studio.waiting (calls : StudioCalls) : Bool × CommandState × List StudioCall :=
  match calls.consume_change with
  | none => (true, CommandState.WAITING, [StudioCall.consume_change false])
  | some _jack_server_started =>
    (true, CommandState.DONE,
     [StudioCall.consume_change true, StudioCall.on_event_jack_started])

/-- Counterpart of `run` in `cmd_start_studio.c`: the returned flag, the new
`cmd_ptr->state` and the external calls made. -/
def cmd_start_studio.run (calls : StudioCalls) (state : CommandState) :
    Bool × CommandState × List StudioCall :=
  match state with
  | CommandState.PENDING =>
    if calls.studio_is_started then
      (true, CommandState.DONE, [StudioCall.studio_is_started])
    else if calls.loader_get_app_count ≠ 0 then
      (false, CommandState.PENDING,
       [StudioCall.studio_is_started, StudioCall.loader_get_app_count])
    else if !calls.jack_proxy_start_server then
      (false, CommandState.PENDING,
       [StudioCall.studio_is_started, StudioCall.loader_get_app_count,
        StudioCall.ladish_graph_dump, StudioCall.jack_proxy_start_server])
    else
      let (result, state, made) := cmd_start_studio.waiting calls
      (result, state,
       [StudioCall.studio_is_started, StudioCall.loader_get_app_count,
        StudioCall.ladish_graph_dump, StudioCall.jack_proxy_start_server] ++ made)
  | CommandState.WAITING => cmd_start_studio.waiting calls
  | CommandState.DONE => (false, CommandState.DONE, [])
  | CommandState.FAILED => (false, CommandState.FAILED, [])

/-- The studio is started while three apps are reported running and a
server-started change is pending. -/
def calls_studio_started : StudioCalls where
  studio_is_started := true
  loader_get_app_count := 3
  jack_proxy_start_server := true
  consume_change := some true

/-- The studio is not started and two apps are reported running. -/
def calls_stale_apps : StudioCalls where
  studio_is_started := false
  loader_get_app_count := 2
  jack_proxy_start_server := true
  consume_change := some true

/-! ## Observations on signals -/

/-- The pid or process-group id that a `kill` or `killpg` event is aimed at. -/
def Event.target : Event → Option Int
  | Event.kill pid _ => some pid
  | Event.killpg pgrp _ => some pgrp
  | _ => none

/-- Whether the event is the delivery of the signal `sig`, by `kill` or by
`killpg`. -/
def Event.is_signal (sig : Int) : Event → Bool
  | Event.kill _ s => s == sig
  | Event.killpg _ s => s == sig
  | _ => false

/-- The level string that `set_app_properties_multiversion` derives from its
level argument: `none` when the argument is rejected (a byte above 1, a string
that `ladish_check_app_level_validity` rejects). -/
def requested_level (h : Headers) : LevelArg → Option String
  | LevelArg.byte level_byte =>
    if level_byte > 1 then none
    else some (if level_byte = 0 then h.LADISH_APP_LEVEL_0 else h.LADISH_APP_LEVEL_1)
  | LevelArg.str level_str =>
    (ladish_check_app_level_validity h level_str).map (fun _ => level_str)

/-- Add app "foo" and start it (the loader reports pid 1234). -/
def add_start : List Op :=
  [Op.add true "foo" none 77 false "/bin/foo" false "0",
   Op.start 0 (some 1234)]

/-- A running LASH-level app that has registered the D-Bus name ":1.42". -/
def sample_lash_app : App where
  id := 3
  uuid := 12
  name := "l"
  commandline := "/bin/l"
  terminal := false
  level := "lash"
  pid := 1234
  pgrp := 0
  firstborn_pid := 0
  firstborn_pgrp := 0
  firstborn_refcount := 0
  zombie := false
  autorun := false
  state := AppState.STARTED
  dbus_name := some ":1.42"

/-- The app "foo" as it is after `add_start`: started with pid 1234. -/
def started_foo : App where
  id := 1
  uuid := 77
  name := "foo"
  commandline := "/bin/foo"
  terminal := false
  level := "0"
  pid := 1234
  pgrp := 0
  firstborn_pid := 0
  firstborn_pgrp := 0
  firstborn_refcount := 0
  zombie := false
  autorun := false
  state := AppState.STARTED
  dbus_name := none

/-! ## Reading the properties of an app over D-Bus -/

/-- The values of the reply of `GetAppProperties` / `GetAppProperties2`. -/
structure AppProperties where
  name : String
  commandline : String
  running : Bool
  terminal : Bool
  level : LevelArg
  deriving DecidableEq

/-- Counterpart of `get_app_properties_multiversion`, after the id has been
unmarshalled and provided that the reply can be allocated.  `none` is the error
reply for an unknown id. -/
def get_app_properties_multiversion (h : Headers) (s : Supervisor) (version : Nat)
    (id : Nat) : Option AppProperties :=
  match ladish_app_supervisor_find_app_by_id_internal s id with
  | none => none
  | some app_handle =>
    match s.applist[app_handle]? with
    | none => none
    | some app =>
      some { name := app.name
             commandline := app.commandline
             running := app.pid != 0
             terminal := app.terminal
             level :=
               if version = 1 then
                 LevelArg.byte (ladish_level_string_to_integer h app.level)
               else
                 LevelArg.str app.level }

/-- A supervisor that holds the running LASH-level app `sample_lash_app`. -/
def lash_supervisor : Supervisor where
  name := "studio"
  opath := "/org/ladish/Studio"
  dir := none
  project_name := none
  version := 5
  next_id := 4
  applist := [sample_lash_app]

/-- The scenario of the spec: add app "foo" with commandline "/bin/foo", no
terminal, level "0"; start it with a loader that reports pid 1234; then the
child with pid 1234 exits. -/
def scenario_add : Op := Op.add true "foo" none 77 false "/bin/foo" false "0"

/-- See `scenario_add`. -/
def scenario_start : Op := Op.start 0 (some 1234)

/-- See `scenario_add`. -/
def scenario_exit : Op := Op.child_exit 1234

/-- An environment in which only the process group of pid 1234 can be resolved
(it is 1234) and LASH quit requests fail. -/
def env_primary_only : Env where
  getpgid := fun pid => if pid = 1234 then 1234 else -1
  lash_client_proxy_quit := fun _ => false

/-- The running app `started_foo` with the tracked firstborn pid 2000. -/
def foo_with_firstborn : App :=
  { started_foo with firstborn_pid := 2000, firstborn_refcount := 1 }

/-- The studio is not started, no app is running, the server start succeeds
and a server-started change is already there to be consumed. -/
def calls_change_pending : StudioCalls where
  studio_is_started := false
  loader_get_app_count := 0
  jack_proxy_start_server := true
  consume_change := some true

/-- The studio is not started, no app is running, the server start succeeds
and there is no server-started change yet. -/
def calls_no_change_yet : StudioCalls where
  studio_is_started := false
  loader_get_app_count := 0
  jack_proxy_start_server := true
  consume_change := none

/-! ## Saving -/

/-- Results of the calls made while a LASH save is initiated: the global
`g_base_dir` (`none` for `NULL`), whether `catdup3` succeeds and the result of
`ensure_dir_exist`. -/
structure SaveEnv where
  g_base_dir : Option String
  catdup3_ok : Bool
  ensure_dir_exist : Bool

/-- Counterpart of `ladish_app_initiate_lash_save`: the call of
`lash_client_proxy_save`, if it is reached.  The app record is not written. -/
def ladish_app_initiate_lash_save (senv : SaveEnv) (app : App) (dbus_name : String)
    (base_dir : Option String) : List Event :=
  match base_dir with
  | none => []
  | some dir =>
    if !senv.catdup3_ok then
      []
    else if !senv.ensure_dir_exist then
      []
    else
      [Event.lash_save dbus_name (some dir) app.uuid]

/-- Counterpart of `ladish_app_initiate_save`; `supervisor_dir` is
`app_ptr->supervisor->dir`. -/
def ladish_app_initiate_save (h : Headers) (env : Env) (senv : SaveEnv)
    (supervisor_dir : Option String) (app : App) : App × List Event :=
  let lash : Option String :=
    if app.level = h.LADISH_APP_LEVEL_LASH then app.dbus_name else none
  match lash with
  | some dbus_name =>
    (app, ladish_app_initiate_lash_save senv app dbus_name
      (match supervisor_dir with
        | some dir => some dir
        | none => senv.g_base_dir))
  | none =>
    if app.level = h.LADISH_APP_LEVEL_1 then
      ladish_app_send_signal h env app SIGUSR1 true
    else
      (app, [])

/-- Counterpart of `ladish_app_save`. -/
def ladish_app_save (h : Headers) (env : Env) (senv : SaveEnv)
    (supervisor_dir : Option String) (app : App) : App × List Event :=
  ladish_app_initiate_save h env senv supervisor_dir app

/-- The loop of `ladish_app_supervisor_save` over the remaining nodes: apps that
are not in state Started, or have pid 0, are skipped. -/
def save_loop (h : Headers) (env : Env) (senv : SaveEnv) (supervisor_dir : Option String) :
    List App → List App × List Event
  | [] => ([], [])
  | app :: rest =>
    let (rest', evs_rest) := save_loop h env senv supervisor_dir rest
    if app.state ≠ AppState.STARTED then
      (app :: rest', evs_rest)
    else if app.pid = 0 then
      (app :: rest', evs_rest)
    else
      let (app', evs) := ladish_app_initiate_save h env senv supervisor_dir app
      (app' :: rest', evs ++ evs_rest)

/-- Counterpart of `ladish_app_supervisor_save`. -/
def ladish_app_supervisor_save (h : Headers) (env : Env) (senv : SaveEnv)
    (s : Supervisor) : Supervisor × List Event :=
  let (apps, evs) := save_loop h env senv s.dir s.applist
  ({ s with applist := apps }, evs)

/-- A save environment with a base directory in which everything succeeds. -/
def sample_save_env : SaveEnv where
  g_base_dir := some "/home/user/.ladish"
  catdup3_ok := true
  ensure_dir_exist := true

/-- A running app (pid 1234) of level "1" whose stop has been initiated. -/
def stopping_level1_app : App where
  id := 4
  uuid := 13
  name := "s"
  commandline := "/bin/s"
  terminal := false
  level := "1"
  pid := 1234
  pgrp := 0
  firstborn_pid := 0
  firstborn_pgrp := 0
  firstborn_refcount := 0
  zombie := false
  autorun := false
  state := AppState.STOPPING
  dbus_name := none

/-! ## The pid and the state of an app -/

/-- Every app of the list in state Stopped has pid 0. -/
def StoppedHasNoPid (apps : List App) : Prop :=
  ∀ app ∈ apps, app.state = AppState.STOPPED → app.pid = 0

/-- Every app of the list with pid 0 is in state Stopped. -/
def NoPidIsStopped (apps : List App) : Prop :=
  ∀ app ∈ apps, app.pid = 0 → app.state = AppState.STOPPED

/-- Whether an operation respects the assertions of the source on the pid: a
stop or kill is applied to an app with a pid other than 0 (with pid 0,
`ladish_app_send_signal` runs into `ASSERT_NO_PASS`), and a successful start
stores a pid other than 0 (`ASSERT(app_ptr->pid != 0)` in
`ladish_app_supervisor_start_app`). -/
def Op.on_running (s : Supervisor) : Op → Bool
  | Op.stop app_handle _ =>
    match s.applist[app_handle]? with
    | some app => app.pid != 0
    | none => true
  | Op.kill app_handle _ =>
    match s.applist[app_handle]? with
    | some app => app.pid != 0
    | none => true
  | Op.start _ (some pid) => pid != 0
  | _ => true

/-- Whether every operation of a sequence respects these assertions, in the
state it is applied to. -/
def ops_on_running (h : Headers) (s : Supervisor) : List Op → Bool
  | [] => true
  | op :: ops => op.on_running s && ops_on_running h (step h s op).1 ops

/-! ## Autorun -/

/-- The `list_for_each` loop of `ladish_app_supervisor_autorun` from position
`i` on, with `remaining` nodes left to visit; `loader_execute i` is the outcome
of the loader for the app at position `i`.  An app that is not flagged autorun
is skipped; a flagged app has its flag cleared and is started, and the function
returns when the start fails. -/
def autorun_loop (h : Headers) (loader_execute : Nat → LoaderOutcome) :
    Nat → Nat → Supervisor → Supervisor × List Event
  | 0, _, s => (s, [])
  | remaining + 1, i, s =>
    match s.applist[i]? with
    | none => (s, [])
    | some app =>
      if !app.autorun then
        autorun_loop h loader_execute remaining (i + 1) s
      else
        let s := { s with applist := s.applist.set i { app with autorun := false } }
        match ladish_app_supervisor_start_app h s i (loader_execute i) with
        | (false, s, evs) => (s, evs)
        | (true, s, evs) =>
          let (s, evs_rest) := autorun_loop h loader_execute remaining (i + 1) s
          (s, evs ++ evs_rest)

/-- Counterpart of `ladish_app_supervisor_autorun`. -/
def ladish_app_supervisor_autorun (h : Headers) (s : Supervisor)
    (loader_execute : Nat → LoaderOutcome) : Supervisor × List Event :=
  autorun_loop h loader_execute s.applist.length 0 s

/-- The record of an app after a successful start from autorun. -/
def autorun_started (app : App) (pid : Int) : App :=
  { app with autorun := false, zombie := false, pid := pid, state := AppState.STARTED }

/-- A stopped app "a" flagged autorun. -/
def autorun_app_a : App :=
  { sample_app with id := 1, uuid := 21, name := "a", autorun := true }

/-- A stopped app "b" flagged autorun. -/
def autorun_app_b : App :=
  { sample_app with id := 2, uuid := 22, name := "b", autorun := true }

/-- A supervisor with the two apps "a" and "b", both flagged autorun. -/
def autorun_supervisor : Supervisor where
  name := "studio"
  opath := "/org/ladish/Studio"
  dir := none
  project_name := none
  version := 2
  next_id := 3
  applist := [autorun_app_a, autorun_app_b]

/-- A loader whose every spawn fails. -/
def loader_fails : Nat → LoaderOutcome := fun _ => none

/-- A loader whose spawn for the app at position `i` yields the pid `1000 + i`. -/
def loader_succeeds : Nat → LoaderOutcome := fun i => some (1000 + (i : Int))

/-! ## The JACK dispatcher -/

/-- The constants of `dbus_constants.h` used by `port_appeared`; the header is
not part of the sources, so they are parameters. -/
structure JackConstants where
  JACKDBUS_PORT_FLAG_INPUT : Nat
  JACKDBUS_PORT_FLAG_OUTPUT : Nat
  JACKDBUS_PORT_FLAG_TERMINAL : Nat
  JACKDBUS_PORT_TYPE_AUDIO : Nat
  JACKDBUS_PORT_TYPE_MIDI : Nat
  deriving DecidableEq, Repr

/-- The values of the constants in the jackdbus interface. -/
def stdJackConstants : JackConstants where
  JACKDBUS_PORT_FLAG_INPUT := 0x1
  JACKDBUS_PORT_FLAG_OUTPUT := 0x2
  JACKDBUS_PORT_FLAG_TERMINAL := 0x10
  JACKDBUS_PORT_TYPE_AUDIO := 0
  JACKDBUS_PORT_TYPE_MIDI := 1

/-- The three port flags are non-empty bit sets without a common bit. -/
@[reducible] def JackConstants.flags_disjoint (c : JackConstants) : Prop :=
  c.JACKDBUS_PORT_FLAG_INPUT ≠ 0 ∧
  c.JACKDBUS_PORT_FLAG_OUTPUT ≠ 0 ∧
  c.JACKDBUS_PORT_FLAG_TERMINAL ≠ 0 ∧
  c.JACKDBUS_PORT_FLAG_INPUT &&& c.JACKDBUS_PORT_FLAG_OUTPUT = 0 ∧
  c.JACKDBUS_PORT_FLAG_INPUT &&& c.JACKDBUS_PORT_FLAG_TERMINAL = 0 ∧
  c.JACKDBUS_PORT_FLAG_OUTPUT &&& c.JACKDBUS_PORT_FLAG_TERMINAL = 0

/-- Whether a flags word contains all bits of a flag. -/
def flags_contain (flags flag : Nat) : Bool := flags &&& flag == flag

/-- The uuid `g_system_capture_guid`, 47c1cd18-7b21-4389-bec4-6e0658e1d6b1. -/
def g_system_capture_guid : uuid_t := 0x47C1CD187B214389BEC46E0658E1D6B1

/-- The uuid `g_system_playback_guid`, b2a0bb06-28d8-4bfe-956e-eb24378f9629. -/
def g_system_playback_guid : uuid_t := 0xB2A0BB0628D84BFE956EEB24378F9629

/-- Counterpart of `struct jack_dispatcher`; client handles are numbers, `none`
is `NULL`. -/
structure jack_dispatcher where
  jack_graph : Nat
  studio_graph : Nat
  system_client_id : Nat
  system_capture_client : Option Nat
  system_playback_client : Option Nat
  deriving DecidableEq, Repr

/-- Modelled from the spec: the results of the calls that one `port_appeared`
makes into the client, port and graph modules, whose sources are missing.
`ladish_client_create` and `ladish_port_create` yield the new handle, or `none`
when they return false, in which case the handle variable is left alone. -/
structure GraphCalls where
  ladish_client_create : Option Nat
  ladish_graph_add_client : Bool
  ladish_port_create : Option Nat
  ladish_graph_add_port : Bool

/-- A call made by the dispatcher on the studio graph, with its result. -/
inductive JackCall where
  | ladish_client_create (uuid : uuid_t) (result : Option Nat)
  | ladish_graph_add_client (client : Nat) (name : String) (result : Bool)
  | ladish_graph_remove_client (client : Nat)
  | ladish_port_create (result : Option Nat)
  | ladish_graph_add_port (client port : Nat) (name : String) (type flags : Nat)
      (result : Bool)
  deriving DecidableEq, Repr

/-- The statement `type = is_midi ? JACKDBUS_PORT_TYPE_MIDI :
JACKDBUS_PORT_TYPE_AUDIO` of `port_appeared`. -/
def port_type (c : JackConstants) (is_midi : Bool) : Nat :=
  if is_midi then c.JACKDBUS_PORT_TYPE_MIDI else c.JACKDBUS_PORT_TYPE_AUDIO

/-- The statements of `port_appeared` that compute `flags`. -/
def port_flags (c : JackConstants) (is_input is_terminal : Bool) : Nat :=
  let flags := if is_input then c.JACKDBUS_PORT_FLAG_INPUT else c.JACKDBUS_PORT_FLAG_OUTPUT
  if is_terminal then flags ||| c.JACKDBUS_PORT_FLAG_TERMINAL else flags

/-- The end of `port_appeared`, once `client` is known: create the port and add
it to the client in the studio graph. -/
def port_appeared_add_port (c : JackConstants) (o : GraphCalls) (client : Nat)
    (port_name : String) (is_input is_terminal is_midi : Bool) : List JackCall :=
  let type := port_type c is_midi
  let flags := port_flags c is_input is_terminal
  match o.ladish_port_create with
  | none => [JackCall.ladish_port_create none]
  | some port =>
    [JackCall.ladish_port_create (some port),
     JackCall.ladish_graph_add_port client port port_name type flags o.ladish_graph_add_port]

/-- Counterpart of `port_appeared`: the dispatcher afterwards and the calls made
on the studio graph. -/
def port_appeared (c : JackConstants) (o : GraphCalls) (d : jack_dispatcher)
    (client_id _port_id : Nat) (port_name : String) (is_input is_terminal is_midi : Bool) :
    jack_dispatcher × List JackCall :=
  if client_id = d.system_client_id then
    if !is_input then
      match d.system_capture_client with
      | some client =>
        (d, port_appeared_add_port c o client port_name is_input is_terminal is_midi)
      | none =>
        match o.ladish_client_create with
        | none => (d, [JackCall.ladish_client_create g_system_capture_guid none])
        | some client =>
          if !o.ladish_graph_add_client then
            ({ d with system_capture_client := none },
             [JackCall.ladish_client_create g_system_capture_guid (some client),
              JackCall.ladish_graph_add_client client "Hardware Capture" false,
              JackCall.ladish_graph_remove_client client])
          else
            ({ d with system_capture_client := some client },
             [JackCall.ladish_client_create g_system_capture_guid (some client),
              JackCall.ladish_graph_add_client client "Hardware Capture" true] ++
             port_appeared_add_port c o client port_name is_input is_terminal is_midi)
    else
      match d.system_playback_client with
      | some client =>
        (d, port_appeared_add_port c o client port_name is_input is_terminal is_midi)
      | none =>
        match o.ladish_client_create with
        | none => (d, [JackCall.ladish_client_create g_system_playback_guid none])
        | some client =>
          if !o.ladish_graph_add_client then
            ({ d with system_playback_client := none },
             [JackCall.ladish_client_create g_system_playback_guid (some client),
              JackCall.ladish_graph_add_client client "Hardware Playback" false,
              JackCall.ladish_graph_remove_client client])
          else
            ({ d with system_playback_client := some client },
             [JackCall.ladish_client_create g_system_playback_guid (some client),
              JackCall.ladish_graph_add_client client "Hardware Playback" true] ++
             port_appeared_add_port c o client port_name is_input is_terminal is_midi)
  else
    (d, [])

/-- One notification that a port appeared, with the results of the calls made
while it is handled. -/
structure PortAppeared where
  calls : GraphCalls
  client_id : Nat
  port_id : Nat
  port_name : String
  is_input : Bool
  is_terminal : Bool
  is_midi : Bool

/-- Handle a sequence of notifications, first to last. -/
def ports_appeared (c : JackConstants) (d : jack_dispatcher) :
    List PortAppeared → jack_dispatcher × List JackCall
  | [] => (d, [])
  | p :: ps =>
    let (d, calls) := port_appeared c p.calls d p.client_id p.port_id p.port_name
      p.is_input p.is_terminal p.is_midi
    let (d, calls_rest) := ports_appeared c d ps
    (d, calls ++ calls_rest)

/-- The pseudo-client that takes a port of the system client: the playback
client for an input port, the capture client for an output port. -/
def jack_dispatcher.pseudo_client (d : jack_dispatcher) (is_input : Bool) : Option Nat :=
  if is_input then d.system_playback_client else d.system_capture_client

/-- The uuid of the pseudo-client that takes a port of the system client. -/
def pseudo_client_guid (is_input : Bool) : uuid_t :=
  if is_input then g_system_playback_guid else g_system_capture_guid

/-- Whether a call creates a client with the given uuid. -/
def JackCall.creates (uuid : uuid_t) : JackCall → Bool
  | JackCall.ladish_client_create u _ => u == uuid
  | _ => false

/-- Whether a call adds a port to a client of the graph. -/
def JackCall.adds_port : JackCall → Bool
  | JackCall.ladish_graph_add_port _ _ _ _ _ _ => true
  | _ => false

/-- A dispatcher as `ladish_jack_dispatcher_create` leaves it, after the client
"system" appeared with id 1. -/
def sample_dispatcher : jack_dispatcher where
  jack_graph := 1
  studio_graph := 2
  system_client_id := 1
  system_capture_client := none
  system_playback_client := none

/-- Every call succeeds; the new client has handle 100, the new port 200. -/
def graph_calls_succeed : GraphCalls where
  ladish_client_create := some 100
  ladish_graph_add_client := true
  ladish_port_create := some 200
  ladish_graph_add_port := true

/-! ## The graph

`graph.c` is not part of the sources; `graph.h` only declares the operations.
The definitions of this section follow the description of the graph in the
specification. -/

/-- Modelled from the spec: a port of a graph, "Port (id, name, type, flags,
hidden flag)"; the id stands for the port handle. -/
structure GraphPort where
  id : Nat
  name : String
  type : Nat
  flags : Nat
  hidden : Bool
  deriving DecidableEq, Repr

/-- Modelled from the spec: a client of a graph, "Client (id, name, hidden
flag), each owning an ordered Port list"; the id stands for the client handle. -/
structure GraphClient where
  id : Nat
  name : String
  hidden : Bool
  ports : List GraphPort
  deriving DecidableEq, Repr

/-- Modelled from the spec: a connection of a graph, "Connection (synthetic id,
two port references, hidden flag)". -/
structure GraphConnection where
  id : Nat
  port1 : Nat
  port2 : Nat
  hidden : Bool
  deriving DecidableEq, Repr

/-- Modelled from the spec: a graph, "identifying path, set of Client", each
owning its ports, and the connections. -/
structure Graph where
  opath : String
  clients : List GraphClient
  connections : List GraphConnection
  deriving DecidableEq, Repr

/-- Modelled from the spec: whether a port is registered in the graph, that is,
owned by one of its clients (hidden or not). -/
def Graph.port_registered (g : Graph) (port : Nat) : Bool :=
  g.clients.any (fun c => c.ports.any (fun q => q.id == port))

/-- Modelled from the spec: whether a connection references a port. -/
def GraphConnection.references (conn : GraphConnection) (port : Nat) : Bool :=
  conn.port1 == port || conn.port2 == port

/-- Modelled from the spec: whether a port is one of the ports of the client
with the given handle. -/
def Graph.client_owns (g : Graph) (client port : Nat) : Bool :=
  g.clients.any (fun c => c.id == client && c.ports.any (fun q => q.id == port))

/-- Modelled from the spec: the invariant "every Connection's endpoints
reference ports currently registered in that Graph". -/
@[reducible] def Graph.ConnectionsRegistered (g : Graph) : Prop :=
  ∀ conn ∈ g.connections,
    g.port_registered conn.port1 = true ∧ g.port_registered conn.port2 = true

/-- Modelled from the spec: `ladish_graph_remove_port`, "Removing a Port removes
every Connection referencing it".  The port leaves the port list of its client;
the result is the handle of the client that owned it, `none` (`NULL`) when the
port is not in the graph. -/
def ladish_graph_remove_port (g : Graph) (port : Nat) : Option Nat × Graph :=
  ((g.clients.find? (fun c => c.ports.any (fun q => q.id == port))).map GraphClient.id,
   { g with
     clients := g.clients.map
       (fun c => { c with ports := c.ports.filter (fun q => q.id != port) }),
     connections := g.connections.filter (fun conn => !conn.references port) })

/-- Modelled from the spec: `ladish_graph_remove_client`, "removing a Client
removes all its Ports and their Connections". -/
def ladish_graph_remove_client (g : Graph) (client : Nat) : Graph :=
  { g with
    clients := g.clients.filter (fun c => c.id != client),
    connections := g.connections.filter
      (fun conn => !(g.client_owns client conn.port1 || g.client_owns client conn.port2)) }

/-- A graph with the clients 1 (ports 10, 11) and 2 (port 20), and the
connections 10-20 and 11-20. -/
def sample_graph : Graph where
  opath := "/org/ladish/Studio"
  clients :=
    [{ id := 1, name := "Hardware Capture", hidden := false,
       ports := [{ id := 10, name := "capture_1", type := 0, flags := 0x12, hidden := false },
                 { id := 11, name := "capture_2", type := 0, flags := 0x12, hidden := false }] },
     { id := 2, name := "synth", hidden := false,
       ports := [{ id := 20, name := "in", type := 0, flags := 0x1, hidden := false }] }]
  connections :=
    [{ id := 1, port1 := 10, port2 := 20, hidden := false },
     { id := 2, port1 := 11, port2 := 20, hidden := false }]

/-- Add the apps "a" and "b", start "a" (the loader reports pid 1234) and stop
it again; "b" is never started. -/
def two_apps_one_running : List Op :=
  [Op.add true "a" none 77 false "/bin/a" false "0",
   Op.add true "b" (some 5) 78 false "/bin/b" false "1",
   Op.start 0 (some 1234),
   Op.stop 0 sample_env]

/-! ## The remove-app command -/

/-- The record of app "foo" while it is stopped: as `started_foo`, with pid 0
and state Stopped. -/
def stopped_foo : App :=
  { started_foo with pid := 0, state := AppState.STOPPED }

/-! ## Theorems -/

/-- C1: `ladish_check_app_level_validity` accepts a string exactly when it is
shorter than `MAX_LEVEL_CHARCOUNT` and equal to one of `LADISH_APP_LEVEL_0`,
`LADISH_APP_LEVEL_1`, `LADISH_APP_LEVEL_LASH`; every other string is rejected;
on acceptance the reported length is the length of the string. -/
theorem check_app_level_validity_iff (h : Headers) (level : String) :
    ((ladish_check_app_level_validity h level).isSome = true ↔
      level.utf8ByteSize < h.MAX_LEVEL_CHARCOUNT ∧
        (level = h.LADISH_APP_LEVEL_0 ∨ level = h.LADISH_APP_LEVEL_1 ∨
          level = h.LADISH_APP_LEVEL_LASH)) ∧
    (ladish_check_app_level_validity h level = none ↔
      ¬ (level.utf8ByteSize < h.MAX_LEVEL_CHARCOUNT ∧
        (level = h.LADISH_APP_LEVEL_0 ∨ level = h.LADISH_APP_LEVEL_1 ∨
          level = h.LADISH_APP_LEVEL_LASH))) ∧
    (∀ len, ladish_check_app_level_validity h level = some len →
      len = level.utf8ByteSize) := by
  unfold ladish_check_app_level_validity
  by_cases hlen : level.utf8ByteSize ≥ h.MAX_LEVEL_CHARCOUNT
  · simp only [hlen, if_true]
    refine ⟨?_, ?_, ?_⟩
    · simp; omega
    · simp; omega
    · simp
  · by_cases hv : level ≠ h.LADISH_APP_LEVEL_0 ∧ level ≠ h.LADISH_APP_LEVEL_1 ∧
        level ≠ h.LADISH_APP_LEVEL_LASH
    · simp only [hlen, hv, if_true, if_false]
      obtain ⟨h0, h1, h2⟩ := hv
      refine ⟨?_, ?_, ?_⟩
      · simp [h0, h1, h2]
      · simp [h0, h1, h2]
      · simp
    · simp only [hlen, hv, if_false]
      have hlt : level.utf8ByteSize < h.MAX_LEVEL_CHARCOUNT := by omega
      have hor : level = h.LADISH_APP_LEVEL_0 ∨ level = h.LADISH_APP_LEVEL_1 ∨
          level = h.LADISH_APP_LEVEL_LASH := by
        by_contra hc
        apply hv
        simp only [not_or] at hc
        exact hc
      refine ⟨?_, ?_, ?_⟩
      · simp [hlt, hor]
      · simp [hlt, hor]
      · intro len hl
        simpa using hl.symm

/-- C2: when the level string is rejected by `ladish_check_app_level_validity`,
`ladish_app_supervisor_add` returns no app, leaves the supervisor (app list,
version, `next_id` and all other fields) as it was and emits nothing. -/
theorem add_rejected_level_unchanged (h : Headers) (s : Supervisor) (alloc_ok : Bool)
    (name : String) (uuid : Option uuid_t) (generated : uuid_t) (autorun : Bool)
    (command : String) (terminal : Bool) (level : String)
    (hrej : ladish_check_app_level_validity h level = none) :
    ladish_app_supervisor_add h s alloc_ok name uuid generated autorun command terminal level
      = (none, s, []) := by
  unfold ladish_app_supervisor_add
  rw [hrej]

/-- Witness for C2: the level "2" is not in the vocabulary. -/
theorem add_rejected_level_unchanged_witness :
    ladish_check_app_level_validity stdHeaders "2" = none ∧
    ladish_app_supervisor_add stdHeaders
      { name := "studio", opath := "/org/ladish/Studio", dir := none, project_name := none,
        version := 7, next_id := 4, applist := [] }
      true "foo" none 99 false "/bin/foo" false "2"
      = (none,
         { name := "studio", opath := "/org/ladish/Studio", dir := none, project_name := none,
           version := 7, next_id := 4, applist := [] },
         []) :=
  ⟨by decide, add_rejected_level_unchanged stdHeaders _ true "foo" none 99 false "/bin/foo"
    false "2" (by decide)⟩

/-- The increment of a `uint64_t` below its maximum is the ordinary successor. -/
theorem u64_inc_of_lt {x : Nat} (hx : x + 1 < UINT64_SIZE) : u64_inc x = x + 1 := by
  unfold u64_inc
  exact Nat.mod_eq_of_lt hx

/-- C3: for a valid level (and successful allocations) `ladish_app_supervisor_add`
appends exactly one app at the end of the list and leaves the existing apps and
their order alone; the new app has the previous `next_id` as id, pid 0, pgrp 0,
state Stopped, zombie false, firstborn pid/pgrp/refcount 0 and the given name,
commandline, terminal flag, autorun flag and level; `next_id` and `version` are
incremented once (as `uint64_t`, hence by exactly one below the maximum); a
supplied non-null UUID is stored unchanged. -/
theorem add_valid_level_appends (h : Headers) (s : Supervisor)
    (name : String) (uuid : Option uuid_t) (generated : uuid_t) (autorun : Bool)
    (command : String) (terminal : Bool) (level : String)
    (hvalid : (ladish_check_app_level_validity h level).isSome = true) :
    (ladish_app_supervisor_add h s true name uuid generated autorun command terminal
        level).1 = some s.applist.length ∧
    (ladish_app_supervisor_add h s true name uuid generated autorun command terminal
        level).2.1 =
      { s with
        next_id := u64_inc s.next_id
        version := u64_inc s.version
        applist := s.applist ++
          [{ id := s.next_id, uuid := effective_uuid uuid generated, name := name,
             commandline := command,
             terminal := terminal, level := level, pid := 0, pgrp := 0,
             firstborn_pid := 0, firstborn_pgrp := 0, firstborn_refcount := 0,
             zombie := false, autorun := autorun, state := AppState.STOPPED,
             dbus_name := none }] } ∧
    (∀ u, uuid = some u → u ≠ 0 → effective_uuid uuid generated = u) ∧
    (s.next_id + 1 < UINT64_SIZE → u64_inc s.next_id = s.next_id + 1) ∧
    (s.version + 1 < UINT64_SIZE → u64_inc s.version = s.version + 1) := by
  obtain ⟨len, hlen⟩ := Option.isSome_iff_exists.mp hvalid
  refine ⟨?_, ?_, ?_, ?_, ?_⟩
  · simp [ladish_app_supervisor_add, hlen]
  · simp [ladish_app_supervisor_add, hlen]
  · intro u hu hne
    subst hu
    simp [effective_uuid, uuid_is_null, hne]
  · exact u64_inc_of_lt
  · exact u64_inc_of_lt

/-- Witness for C3: adding an app of level "1" with the supplied UUID 42 to a
supervisor that already holds one app. -/
theorem add_valid_level_appends_witness :
    (ladish_check_app_level_validity stdHeaders "1").isSome = true ∧
    (ladish_app_supervisor_add stdHeaders sample_supervisor
        true "foo" (some 42) 99 true "/bin/foo" false "1").1 =
      some sample_supervisor.applist.length ∧
    (ladish_app_supervisor_add stdHeaders sample_supervisor
        true "foo" (some 42) 99 true "/bin/foo" false "1").2.1 =
      { sample_supervisor with
        next_id := u64_inc sample_supervisor.next_id
        version := u64_inc sample_supervisor.version
        applist := sample_supervisor.applist ++
          [{ id := sample_supervisor.next_id, uuid := effective_uuid (some 42) 99,
             name := "foo", commandline := "/bin/foo",
             terminal := false, level := "1", pid := 0, pgrp := 0,
             firstborn_pid := 0, firstborn_pgrp := 0, firstborn_refcount := 0,
             zombie := false, autorun := true, state := AppState.STOPPED,
             dbus_name := none }] } ∧
    effective_uuid (some 42) 99 = 42 :=
  ⟨by decide,
   (add_valid_level_appends stdHeaders sample_supervisor
     "foo" (some 42) 99 true "/bin/foo" false "1" (by decide)).1,
   (add_valid_level_appends stdHeaders sample_supervisor
     "foo" (some 42) 99 true "/bin/foo" false "1" (by decide)).2.1,
   (add_valid_level_appends stdHeaders sample_supervisor
     "foo" (some 42) 99 true "/bin/foo" false "1" (by decide)).2.2.1 42 rfl (by decide)⟩

/-! ### The version counter and the notifications -/

@[simp] theorem silent_nil : silent [] := by
  intro e he
  cases he

@[simp] theorem silent_cons (e : Event) (evs : List Event) :
    silent (e :: evs) ↔ e.carried_version = none ∧ silent evs := by
  simp [silent]

@[simp] theorem silent_append (evs₁ evs₂ : List Event) :
    silent (evs₁ ++ evs₂) ↔ silent evs₁ ∧ silent evs₂ := by
  simp only [silent, List.mem_append]
  constructor
  · intro hs
    exact ⟨fun e he => hs e (Or.inl he), fun e he => hs e (Or.inr he)⟩
  · rintro ⟨h1, h2⟩ e (he | he)
    · exact h1 e he
    · exact h2 e he

theorem silent_not_notification {evs : List Event} (hs : silent evs) :
    evs.any Event.is_notification = false := by
  rw [List.any_eq_false]
  intro e he
  have := hs e he
  cases e <;> simp_all [Event.carried_version, Event.is_notification]

theorem send_signal_to_pid_silent (app : App) (sig : Int) (pf : Bool) :
    silent (send_signal_to_pid app sig pf) := by
  unfold send_signal_to_pid
  split_ifs <;> simp only [silent_nil] <;> split_ifs <;> simp [Event.carried_version]

theorem signal_process_groups_silent (app : App) (sig : Int) (pf : Bool) :
    silent (signal_process_groups app sig pf) := by
  unfold signal_process_groups
  split_ifs <;> simp [Event.carried_version, send_signal_to_pid_silent]

theorem send_signal_silent (h : Headers) (env : Env) (app : App) (sig : Int) (pf : Bool) :
    silent (ladish_app_send_signal h env app sig pf).2 := by
  unfold ladish_app_send_signal
  simp only
  split_ifs <;> simp [signal_process_groups_silent, send_signal_to_pid_silent]

theorem initiate_stop_silent (h : Headers) (env : Env) (app : App) :
    silent (ladish_app_initiate_stop h env app).2 := by
  unfold ladish_app_initiate_stop
  simp only
  split
  · split_ifs <;> simp [Event.carried_version, send_signal_silent]
  · simp [send_signal_silent]

theorem kill_silent (h : Headers) (env : Env) (app : App) :
    silent (ladish_app_kill h env app).2 := by
  unfold ladish_app_kill
  simp [send_signal_silent]

theorem discipline_unchanged (s : Supervisor) : VersionDiscipline s s [] :=
  Or.inl ⟨rfl, silent_nil⟩

theorem emit_discipline (h : Headers) (s s₀ : Supervisor) (app : App)
    (hv : s₀.version = s.version) :
    VersionDiscipline s (emit_app_state_changed h s₀ app).1
      (emit_app_state_changed h s₀ app).2 := by
  right
  simp [emit_app_state_changed, hv, Event.is_notification, Event.carried_version]

theorem remove_internal_discipline (s s₀ : Supervisor) (app_handle : Nat)
    (hv : s₀.version = s.version) :
    VersionDiscipline s (remove_app_internal s₀ app_handle).1
      (remove_app_internal s₀ app_handle).2 := by
  unfold remove_app_internal
  split
  · exact Or.inl ⟨hv, silent_nil⟩
  · right
    simp [hv, Event.is_notification, Event.carried_version]

theorem add_discipline (h : Headers) (s : Supervisor) (alloc_ok : Bool)
    (name : String) (uuid : Option uuid_t) (generated : uuid_t) (autorun : Bool)
    (command : String) (terminal : Bool) (level : String) :
    VersionDiscipline s
      (ladish_app_supervisor_add h s alloc_ok name uuid generated autorun command terminal
        level).2.1
      (ladish_app_supervisor_add h s alloc_ok name uuid generated autorun command terminal
        level).2.2 := by
  unfold ladish_app_supervisor_add
  split
  · exact discipline_unchanged s
  · split
    · exact discipline_unchanged s
    · right
      simp [Event.is_notification, Event.carried_version]

theorem start_discipline (h : Headers) (s : Supervisor) (app_handle : Nat)
    (loader_execute : Option Int) :
    VersionDiscipline s
      (ladish_app_supervisor_start_app h s app_handle loader_execute).2.1
      (ladish_app_supervisor_start_app h s app_handle loader_execute).2.2 := by
  unfold ladish_app_supervisor_start_app
  split
  · exact discipline_unchanged s
  · split
    · exact Or.inl ⟨rfl, silent_nil⟩
    · exact emit_discipline h s _ _ rfl

theorem discipline_prepend_silent {s s' : Supervisor} {evs : List Event}
    (pre : List Event) (hs : silent pre) (hd : VersionDiscipline s s' evs) :
    VersionDiscipline s s' (pre ++ evs) := by
  rcases hd with ⟨hver, hsil⟩ | ⟨hver, hone, hall⟩
  · exact Or.inl ⟨hver, (silent_append _ _).mpr ⟨hs, hsil⟩⟩
  · right
    refine ⟨hver, ?_, ?_⟩
    · have hnone : pre.filter Event.is_notification = [] := by
        rw [List.filter_eq_nil_iff]
        intro e he
        have := hs e he
        cases e <;> simp_all [Event.carried_version, Event.is_notification]
      simpa [List.filter_append, hnone] using hone
    · intro e he v hc
      rcases List.mem_append.mp he with he | he
      · rw [hs e he] at hc
        cases hc
      · exact hall e he v hc

theorem child_exit_discipline (h : Headers) (s : Supervisor) (pid : Int) :
    VersionDiscipline s
      (ladish_app_supervisor_child_exit h s pid).2.1
      (ladish_app_supervisor_child_exit h s pid).2.2 := by
  unfold ladish_app_supervisor_child_exit
  split
  · exact discipline_unchanged s
  · split
    · exact discipline_unchanged s
    · simp only
      split
      · exact remove_internal_discipline s _ _ rfl
      · apply discipline_prepend_silent
        · split_ifs <;> simp [Event.carried_version]
        · exact emit_discipline h s _ _ rfl

theorem set_properties_discipline (h : Headers) (s : Supervisor) (id : Nat)
    (name commandline : String) (terminal : Bool) (level : LevelArg)
    (ok_commandline ok_name : Bool) :
    VersionDiscipline s
      (set_app_properties_multiversion h s id name commandline terminal level
        ok_commandline ok_name).2.1
      (set_app_properties_multiversion h s id name commandline terminal level
        ok_commandline ok_name).2.2 := by
  unfold set_app_properties_multiversion
  simp only
  split
  · exact discipline_unchanged s
  · split
    · exact discipline_unchanged s
    · split
      · exact discipline_unchanged s
      · split_ifs
        any_goals exact discipline_unchanged s
        all_goals
          apply discipline_prepend_silent
          · first
            | exact silent_nil
            | simp [Event.carried_version]
          · exact emit_discipline h s _ _ rfl

theorem on_app_discipline (s : Supervisor) (app_handle : Nat) (f : App → App × List Event)
    (hf : ∀ app, silent (f app).2) :
    VersionDiscipline s (on_app s app_handle f).1 (on_app s app_handle f).2 := by
  unfold on_app
  split
  · exact discipline_unchanged s
  · exact Or.inl ⟨rfl, hf _⟩

theorem step_discipline (h : Headers) (s : Supervisor) (op : Op) (hop : op.is_clear = false) :
    VersionDiscipline s (step h s op).1 (step h s op).2 := by
  cases op with
  | add alloc_ok name uuid generated autorun command terminal level =>
    exact add_discipline h s alloc_ok name uuid generated autorun command terminal level
  | remove app_handle => exact remove_internal_discipline s s app_handle rfl
  | start app_handle loader_execute => exact start_discipline h s app_handle loader_execute
  | stop app_handle env =>
    exact on_app_discipline s app_handle _ (fun app => initiate_stop_silent h env app)
  | kill app_handle env =>
    exact on_app_discipline s app_handle _ (fun app => kill_silent h env app)
  | child_exit pid => exact child_exit_discipline h s pid
  | clear env => simp [Op.is_clear] at hop
  | set_properties id name commandline terminal level ok_commandline ok_name =>
    exact set_properties_discipline h s id name commandline terminal level ok_commandline
      ok_name

theorem u64_inc_lt (x : Nat) : u64_inc x < UINT64_SIZE := by
  unfold u64_inc
  exact Nat.mod_lt _ (by decide)

theorem discipline_version_cases {s s' : Supervisor} {evs : List Event}
    (hd : VersionDiscipline s s' evs) :
    (s'.version = s.version ∧ evs.any Event.is_notification = false) ∨
    (s'.version = u64_inc s.version ∧ evs.any Event.is_notification = true) := by
  rcases hd with ⟨hver, hsil⟩ | ⟨hver, hone, _⟩
  · exact Or.inl ⟨hver, silent_not_notification hsil⟩
  · right
    refine ⟨hver, ?_⟩
    have hne : evs.filter Event.is_notification ≠ [] := by
      intro hnil
      rw [hnil] at hone
      cases hone
    obtain ⟨e, he⟩ := List.exists_mem_of_ne_nil _ hne
    rw [List.mem_filter] at he
    exact List.any_eq_true.mpr ⟨e, he.1, he.2⟩

theorem run_version_count (h : Headers) (ops : List Op) :
    ∀ s : Supervisor, (∀ op ∈ ops, op.is_clear = false) →
      (run h s ops).version % UINT64_SIZE =
        (s.version + notifying_count h s ops) % UINT64_SIZE := by
  induction ops with
  | nil => intro s _; simp [run, notifying_count]
  | cons op ops ih =>
    intro s hops
    have hop : op.is_clear = false := hops op (List.mem_cons_self _ _)
    have hrest : ∀ op' ∈ ops, op'.is_clear = false :=
      fun op' hmem => hops op' (List.mem_cons_of_mem _ hmem)
    have hstep := discipline_version_cases (step_discipline h s op hop)
    simp only [run, notifying_count]
    rw [ih (step h s op).1 hrest]
    rcases hstep with ⟨hver, hany⟩ | ⟨hver, hany⟩
    · rw [hver, hany]
      simp
    · rw [hver, hany]
      simp only [if_true, u64_inc]
      rw [Nat.mod_add_mod]
      congr 1
      omega

theorem run_version_lt (h : Headers) (ops : List Op) :
    ∀ s : Supervisor, (∀ op ∈ ops, op.is_clear = false) → s.version < UINT64_SIZE →
      (run h s ops).version < UINT64_SIZE := by
  induction ops with
  | nil => intro s _ hs; simpa [run] using hs
  | cons op ops ih =>
    intro s hops hs
    have hop : op.is_clear = false := hops op (List.mem_cons_self _ _)
    have hrest : ∀ op' ∈ ops, op'.is_clear = false :=
      fun op' hmem => hops op' (List.mem_cons_of_mem _ hmem)
    simp only [run]
    apply ih _ hrest
    rcases discipline_version_cases (step_discipline h s op hop) with ⟨hver, _⟩ | ⟨hver, _⟩
    · rw [hver]; exact hs
    · rw [hver]; exact u64_inc_lt _

/-- C4 (counterexample): on a fresh supervisor, add an app, start it and stop it.
All three operations change the state (the stop moves the app from Started to
Stopping), yet the version is 2 afterwards, not 3: the stop does not advance
it. -/
theorem version_differs_from_state_changing_count :
    ladish_app_supervisor_create true "/org/ladish/Studio" "studio" = some fresh_supervisor ∧
    (run stdHeaders fresh_supervisor add_start_stop).version = 2 ∧
    state_changing_count stdHeaders fresh_supervisor add_start_stop = 3 ∧
    ((run stdHeaders fresh_supervisor add_start_stop).applist.map App.state
      = [AppState.STOPPING]) ∧
    ¬ ((run stdHeaders fresh_supervisor add_start_stop).version =
        state_changing_count stdHeaders fresh_supervisor add_start_stop) := by
  decide

/-- C4 (amended): from a freshly created supervisor (version 0), after any
sequence of add, remove, start, stop, kill, child-exit and property-set
operations, the version equals, modulo 2^64, the number of operations of the
sequence that emitted a notification (AppAdded, AppRemoved or AppStateChanged);
stop and kill never advance the version, although they change the state of an
app; every operation leaves the version alone or increments it once, so below
the `uint64_t` maximum no operation decreases it. -/
theorem version_counts_notifying_operations (h : Headers) (opath name : String)
    (s₀ : Supervisor) (hcreate : ladish_app_supervisor_create true opath name = some s₀)
    (ops : List Op) (hops : ∀ op ∈ ops, op.is_clear = false) :
    s₀.version = 0 ∧
    (run h s₀ ops).version = notifying_count h s₀ ops % UINT64_SIZE ∧
    (∀ s app_handle env, (step h s (Op.stop app_handle env)).1.version = s.version ∧
      (step h s (Op.kill app_handle env)).1.version = s.version) ∧
    (∀ s op, op.is_clear = false →
      ((step h s op).1.version = s.version ∨ (step h s op).1.version = u64_inc s.version) ∧
      (s.version + 1 < UINT64_SIZE → s.version ≤ (step h s op).1.version)) := by
  have hs₀ : s₀.version = 0 := by
    simp only [ladish_app_supervisor_create, if_true, Option.some.injEq] at hcreate
    rw [← hcreate]
  refine ⟨hs₀, ?_, ?_, ?_⟩
  · have hlt := run_version_lt h ops s₀ hops (by rw [hs₀]; decide)
    have hcount := run_version_count h ops s₀ hops
    rw [Nat.mod_eq_of_lt hlt, hs₀, Nat.zero_add] at hcount
    exact hcount
  · intro s app_handle env
    constructor
    · rcases on_app_discipline s app_handle (ladish_app_stop h env)
        (fun app => initiate_stop_silent h env app) with ⟨hver, _⟩ | ⟨_, hone, _⟩
      · exact hver
      · exfalso
        have hsil : silent (on_app s app_handle (ladish_app_stop h env)).2 := by
          unfold on_app
          split
          · exact silent_nil
          · exact initiate_stop_silent h env _
        have hany := silent_not_notification hsil
        rw [List.any_eq_false] at hany
        have hne : (on_app s app_handle (ladish_app_stop h env)).2.filter
            Event.is_notification ≠ [] := by
          intro hnil
          rw [hnil] at hone
          cases hone
        obtain ⟨e, he⟩ := List.exists_mem_of_ne_nil _ hne
        rw [List.mem_filter] at he
        exact hany e he.1 he.2
    · show (on_app s app_handle (ladish_app_kill h env)).1.version = s.version
      unfold on_app
      split <;> rfl
  · intro s op hop
    have hcases := discipline_version_cases (step_discipline h s op hop)
    constructor
    · rcases hcases with ⟨hver, _⟩ | ⟨hver, _⟩
      · exact Or.inl hver
      · exact Or.inr hver
    · intro hlt
      rcases hcases with ⟨hver, _⟩ | ⟨hver, _⟩
      · rw [hver]
      · rw [hver, u64_inc_of_lt hlt]
        omega

/-- Witness for C4 (amended): the add/start/stop sequence on the fresh
supervisor. -/
theorem version_counts_notifying_operations_witness :
    ladish_app_supervisor_create true "/org/ladish/Studio" "studio" = some fresh_supervisor ∧
    (∀ op ∈ add_start_stop, op.is_clear = false) ∧
    (run stdHeaders fresh_supervisor add_start_stop).version =
      notifying_count stdHeaders fresh_supervisor add_start_stop % UINT64_SIZE :=
  ⟨by decide, by decide,
   (version_counts_notifying_operations stdHeaders "/org/ladish/Studio" "studio"
      fresh_supervisor (by decide) add_start_stop (by decide)).2.1⟩

/-- C5: in add, remove, start, child-exit and property-set the version is
incremented at most once per call and before the notification is built: either
the version is left alone and no D-Bus signal of the supervisor interface is
emitted, or the version is incremented once (as `uint64_t`, hence by exactly one
below the maximum), exactly one notification is emitted, and every signal
emitted (the notification and its twin) carries the incremented version. -/
theorem version_incremented_before_notification (h : Headers) (s : Supervisor) :
    (∀ alloc_ok name uuid generated autorun command terminal level,
      VersionDiscipline s
        (ladish_app_supervisor_add h s alloc_ok name uuid generated autorun command
          terminal level).2.1
        (ladish_app_supervisor_add h s alloc_ok name uuid generated autorun command
          terminal level).2.2) ∧
    (∀ app_handle,
      VersionDiscipline s (ladish_app_supervisor_remove_app s app_handle).1
        (ladish_app_supervisor_remove_app s app_handle).2) ∧
    (∀ app_handle loader_execute,
      VersionDiscipline s
        (ladish_app_supervisor_start_app h s app_handle loader_execute).2.1
        (ladish_app_supervisor_start_app h s app_handle loader_execute).2.2) ∧
    (∀ pid,
      VersionDiscipline s (ladish_app_supervisor_child_exit h s pid).2.1
        (ladish_app_supervisor_child_exit h s pid).2.2) ∧
    (∀ id name commandline terminal level ok_commandline ok_name,
      VersionDiscipline s
        (set_app_properties_multiversion h s id name commandline terminal level
          ok_commandline ok_name).2.1
        (set_app_properties_multiversion h s id name commandline terminal level
          ok_commandline ok_name).2.2) ∧
    (s.version + 1 < UINT64_SIZE → u64_inc s.version = s.version + 1) :=
  ⟨fun alloc_ok name uuid generated autorun command terminal level =>
      add_discipline h s alloc_ok name uuid generated autorun command terminal level,
   fun app_handle => remove_internal_discipline s s app_handle rfl,
   fun app_handle loader_execute => start_discipline h s app_handle loader_execute,
   fun pid => child_exit_discipline h s pid,
   fun id name commandline terminal level ok_commandline ok_name =>
      set_properties_discipline h s id name commandline terminal level ok_commandline ok_name,
   u64_inc_of_lt⟩

/-! ### Starting an app -/

/-- C6: for an app with pid 0, when the loader succeeds and reports a non-zero
pid, `ladish_app_supervisor_start_app` returns true, the pid of the app becomes
the reported pid, its state becomes Started (the only other field written is the
zombie flag, which is cleared), every other app is as before, the version is
incremented once (as `uint64_t`, hence by exactly one below the maximum), and
exactly one AppStateChanged notification (with its twin AppStateChanged2) is
emitted, reporting the app as running. -/
theorem start_app_success (h : Headers) (s : Supervisor) (app_handle : Nat) (app : App)
    (pid : Int) (happ : s.applist[app_handle]? = some app) (_hstopped : app.pid = 0)
    (hpid : pid ≠ 0) :
    ladish_app_supervisor_start_app h s app_handle (some pid) =
      (true,
       { s with
         version := u64_inc s.version
         applist := s.applist.set app_handle
           { app with zombie := false, pid := pid, state := AppState.STARTED } },
       [Event.AppStateChanged (u64_inc s.version) app.id app.name true app.terminal
          (ladish_level_string_to_integer h app.level),
        Event.AppStateChanged2 (u64_inc s.version) app.id app.name true app.terminal
          app.level]) ∧
    ((ladish_app_supervisor_start_app h s app_handle (some pid)).2.2.filter
      Event.is_notification).length = 1 ∧
    (s.version + 1 < UINT64_SIZE → u64_inc s.version = s.version + 1) := by
  have hres : ladish_app_supervisor_start_app h s app_handle (some pid) =
      (true,
       { s with
         version := u64_inc s.version
         applist := s.applist.set app_handle
           { app with zombie := false, pid := pid, state := AppState.STARTED } },
       [Event.AppStateChanged (u64_inc s.version) app.id app.name true app.terminal
          (ladish_level_string_to_integer h app.level),
        Event.AppStateChanged2 (u64_inc s.version) app.id app.name true app.terminal
          app.level]) := by
    simp [ladish_app_supervisor_start_app, happ, emit_app_state_changed, hpid]
  refine ⟨hres, ?_, u64_inc_of_lt⟩
  rw [hres]
  simp [Event.is_notification]

/-- Witness for C6: starting `sample_app` with a loader that reports pid 1234. -/
theorem start_app_success_witness :
    sample_supervisor.applist[0]? = some sample_app ∧ sample_app.pid = 0 ∧
    (1234 : Int) ≠ 0 ∧
    (ladish_app_supervisor_start_app stdHeaders sample_supervisor 0 (some 1234)).1 = true ∧
    ((ladish_app_supervisor_start_app stdHeaders sample_supervisor 0 (some 1234)).2.2.filter
      Event.is_notification).length = 1 :=
  ⟨by decide, by decide, by decide,
   congrArg Prod.fst
     (start_app_success stdHeaders sample_supervisor 0 sample_app 1234 (by decide)
       (by decide) (by decide)).1,
   (start_app_success stdHeaders sample_supervisor 0 sample_app 1234 (by decide)
       (by decide) (by decide)).2.1⟩

/-! ### How operations change the list of apps -/

theorem map_set_same {β : Type} (f : App → β) (l : List App) (i : Nat) (a a' : App)
    (hget : l[i]? = some a) (hf : f a' = f a) : (l.set i a').map f = l.map f := by
  induction l generalizing i with
  | nil => simp
  | cons x xs ih =>
    cases i with
    | zero =>
      simp only [List.getElem?_cons_zero, Option.some.injEq] at hget
      subst hget
      simp [hf]
    | succ n =>
      simp only [List.getElem?_cons_succ] at hget
      simp [ih n hget]

theorem eraseIdx_set_self (l : List App) (i : Nat) (a : App) :
    (l.set i a).eraseIdx i = l.eraseIdx i := by
  induction l generalizing i with
  | nil => simp
  | cons x xs ih =>
    cases i with
    | zero => simp
    | succ n => simp [ih n]

theorem send_signal_app (h : Headers) (env : Env) (app : App) (sig : Int) (pf : Bool) :
    ∃ state pgrp firstborn_pgrp,
      (ladish_app_send_signal h env app sig pf).1 =
        { app with state := state, pgrp := pgrp, firstborn_pgrp := firstborn_pgrp } := by
  unfold ladish_app_send_signal assert_state_assignment resolve_process_groups
  simp only
  split_ifs <;> exact ⟨_, _, _, rfl⟩

theorem initiate_stop_app (h : Headers) (env : Env) (app : App) :
    ∃ pgrp firstborn_pgrp,
      (ladish_app_initiate_stop h env app).1 =
        { app with state := AppState.STOPPING, pgrp := pgrp,
                   firstborn_pgrp := firstborn_pgrp } := by
  unfold ladish_app_initiate_stop
  simp only
  split
  · split_ifs
    · exact ⟨_, _, rfl⟩
    · obtain ⟨st, pg, fpg, heq⟩ := send_signal_app h env app SIGTERM false
      rw [heq]
      exact ⟨_, _, rfl⟩
  · obtain ⟨st, pg, fpg, heq⟩ := send_signal_app h env app SIGTERM false
    rw [heq]
    exact ⟨_, _, rfl⟩

theorem kill_app (h : Headers) (env : Env) (app : App) :
    ∃ pgrp firstborn_pgrp,
      (ladish_app_kill h env app).1 =
        { app with state := AppState.KILL, pgrp := pgrp,
                   firstborn_pgrp := firstborn_pgrp } := by
  unfold ladish_app_kill
  obtain ⟨st, pg, fpg, heq⟩ := send_signal_app h env app SIGKILL false
  simp only [heq]
  exact ⟨_, _, rfl⟩

theorem on_app_keys (s : Supervisor) (app_handle : Nat) (f : App → App × List Event)
    (hf : ∀ app, app_key (f app).1 = app_key app) :
    (on_app s app_handle f).1.next_id = s.next_id ∧
    (on_app s app_handle f).1.applist.map app_key = s.applist.map app_key := by
  unfold on_app
  split
  · exact ⟨rfl, rfl⟩
  · next app happ =>
    exact ⟨rfl, map_set_same app_key s.applist app_handle app _ happ (hf app)⟩

theorem initiate_stop_key (h : Headers) (env : Env) (app : App) :
    app_key (ladish_app_initiate_stop h env app).1 = app_key app := by
  obtain ⟨pg, fpg, heq⟩ := initiate_stop_app h env app
  rw [heq]
  rfl

theorem kill_key (h : Headers) (env : Env) (app : App) :
    app_key (ladish_app_kill h env app).1 = app_key app := by
  obtain ⟨pg, fpg, heq⟩ := kill_app h env app
  rw [heq]
  rfl

theorem clear_loop_keys (h : Headers) (env : Env) (l : List App) :
    ∀ version, ((clear_loop h env l version).1.map app_key).Sublist (l.map app_key) := by
  induction l with
  | nil => intro version; simp [clear_loop]
  | cons app rest ih =>
    intro version
    unfold clear_loop
    split_ifs with hpid
    · simp only [List.map_cons]
      have hk : app_key { (ladish_app_initiate_stop h env app).1 with zombie := true } =
          app_key app := by
        have := initiate_stop_key h env app
        simpa [app_key] using this
      rw [hk]
      exact List.Sublist.cons₂ _ (ih version)
    · simp only [List.map_cons]
      exact List.Sublist.cons _ (ih (u64_inc version))

theorem remove_internal_keys (s : Supervisor) (app_handle : Nat) :
    (remove_app_internal s app_handle).1.next_id = s.next_id ∧
    ((remove_app_internal s app_handle).1.applist.map app_key).Sublist
      (s.applist.map app_key) := by
  unfold remove_app_internal
  split
  · exact ⟨rfl, List.Sublist.refl _⟩
  · exact ⟨rfl, List.Sublist.map _ (List.eraseIdx_sublist _ _)⟩

theorem emit_fields (h : Headers) (s : Supervisor) (app : App) :
    (emit_app_state_changed h s app).1 = { s with version := u64_inc s.version } := rfl

theorem set_keys_sublist (l : List App) (i : Nat) (a a' : App)
    (hget : l[i]? = some a) (hk : app_key a' = app_key a) :
    ((l.set i a').map app_key).Sublist (l.map app_key) := by
  rw [map_set_same app_key l i a a' hget hk]

theorem store_properties_eq (app : App) (name commandline : String) (terminal : Bool)
    (level_str : String) :
    store_properties app name commandline terminal level_str =
      { app with name := name, commandline := commandline, level := level_str,
                 terminal := terminal } := by
  unfold store_properties
  by_cases hn : name = app.name <;> by_cases hc : commandline = app.commandline <;>
    simp [hn, hc]

theorem step_keys (h : Headers) (s : Supervisor) (op : Op) :
    (∃ u, op.added_uuid h = some u ∧
      (step h s op).1.next_id = u64_inc s.next_id ∧
      (step h s op).1.applist.map app_key = s.applist.map app_key ++ [(s.next_id, u)]) ∨
    (op.added_uuid h = none ∧
      (step h s op).1.next_id = s.next_id ∧
      ((step h s op).1.applist.map app_key).Sublist (s.applist.map app_key)) := by
  cases op with
  | add alloc_ok name uuid generated autorun command terminal level =>
    simp only [step, Op.added_uuid, ladish_app_supervisor_add]
    cases hval : ladish_check_app_level_validity h level with
    | none => right; simp
    | some len =>
      cases alloc_ok with
      | false => right; simp
      | true =>
        left
        refine ⟨effective_uuid uuid generated, by simp, by simp, ?_⟩
        simp [app_key, effective_uuid]
  | remove app_handle =>
    right
    exact ⟨rfl, remove_internal_keys s app_handle⟩
  | start app_handle loader_execute =>
    right
    refine ⟨rfl, ?_⟩
    simp only [step, ladish_app_supervisor_start_app]
    split
    · exact ⟨rfl, List.Sublist.refl _⟩
    · next app happ =>
      split
      · exact ⟨rfl, set_keys_sublist _ _ _ _ happ rfl⟩
      · exact ⟨rfl, set_keys_sublist _ _ _ _ happ rfl⟩
  | stop app_handle env =>
    right
    have := on_app_keys s app_handle (ladish_app_stop h env) (initiate_stop_key h env)
    exact ⟨rfl, this.1, by simp only [step]; rw [this.2]⟩
  | kill app_handle env =>
    right
    have := on_app_keys s app_handle (ladish_app_kill h env) (kill_key h env)
    exact ⟨rfl, this.1, by simp only [step]; rw [this.2]⟩
  | child_exit pid =>
    right
    refine ⟨rfl, ?_⟩
    simp only [step, ladish_app_supervisor_child_exit]
    split
    · exact ⟨rfl, List.Sublist.refl _⟩
    · split
      · exact ⟨rfl, List.Sublist.refl _⟩
      · next app_handle _ _ app happ =>
        split
        · have hk := remove_internal_keys
            { s with applist := s.applist.set app_handle { app with pid := 0, pgrp := 0 } }
            app_handle
          exact ⟨hk.1, hk.2.trans (set_keys_sublist _ _ _ _ happ rfl)⟩
        · exact ⟨rfl, set_keys_sublist _ _ _ _ happ rfl⟩
  | clear env =>
    right
    refine ⟨rfl, rfl, ?_⟩
    simp only [step, ladish_app_supervisor_clear]
    exact clear_loop_keys h env s.applist s.version
  | set_properties id name commandline terminal level ok_commandline ok_name =>
    right
    refine ⟨rfl, ?_⟩
    simp only [step, set_app_properties_multiversion]
    split
    · exact ⟨rfl, List.Sublist.refl _⟩
    · split
      · exact ⟨rfl, List.Sublist.refl _⟩
      · split
        · exact ⟨rfl, List.Sublist.refl _⟩
        · next app happ =>
          have hstore : ((s.applist.set ‹Nat›
              (store_properties app name commandline terminal ‹String›)).map app_key).Sublist
              (s.applist.map app_key) :=
            set_keys_sublist _ _ _ _ happ (by rw [store_properties_eq]; rfl)
          split_ifs
          all_goals
            first
            | exact ⟨rfl, hstore⟩
            | exact ⟨rfl, List.Sublist.refl _⟩

/-! ### Zombies are running -/

theorem set_same (l : List App) (i : Nat) (a : App) (hget : l[i]? = some a) :
    l.set i a = l := by
  have := map_set_same (fun x => x) l i a a hget rfl
  simpa using this

theorem remove_internal_applist (s : Supervisor) (app_handle : Nat) :
    (remove_app_internal s app_handle).1.applist = s.applist.eraseIdx app_handle := by
  unfold remove_app_internal
  split
  · next hnone =>
    simp only
    rw [List.getElem?_eq_none_iff] at hnone
    rw [List.eraseIdx_of_length_le hnone]
  · rfl

theorem clear_loop_no_stopped_zombie (h : Headers) (env : Env) (l : List App) :
    ∀ version, NoStoppedZombie (clear_loop h env l version).1 := by
  induction l with
  | nil => intro version a ha; simp [clear_loop] at ha
  | cons app rest ih =>
    intro version
    unfold clear_loop
    split_ifs with hpid
    · intro a ha _
      simp only [List.mem_cons] at ha
      rcases ha with ha | ha
      · obtain ⟨pg, fpg, heq⟩ := initiate_stop_app h env app
        rw [ha, heq]
        exact hpid
      · exact ih version a ha ‹_›
    · exact ih (u64_inc version)

theorem step_no_stopped_zombie (h : Headers) (s : Supervisor) (op : Op)
    (hinv : NoStoppedZombie s.applist) : NoStoppedZombie (step h s op).1.applist := by
  cases op with
  | add alloc_ok name uuid generated autorun command terminal level =>
    simp only [step, ladish_app_supervisor_add]
    split
    · exact hinv
    · split
      · exact hinv
      · intro a ha hz
        simp only [List.mem_append, List.mem_singleton] at ha
        rcases ha with ha | ha
        · exact hinv a ha hz
        · subst ha
          simp at hz
  | remove app_handle =>
    simp only [step, ladish_app_supervisor_remove_app, remove_app_internal]
    split
    · exact hinv
    · intro a ha hz
      exact hinv a (List.mem_of_mem_eraseIdx ha) hz
  | start app_handle loader_execute =>
    simp only [step, ladish_app_supervisor_start_app]
    split
    · exact hinv
    · split
      · intro a ha hz
        rcases List.mem_or_eq_of_mem_set ha with ha | ha
        · exact hinv a ha hz
        · subst ha
          simp at hz
      · intro a ha hz
        rcases List.mem_or_eq_of_mem_set ha with ha | ha
        · exact hinv a ha hz
        · subst ha
          simp at hz
  | stop app_handle env =>
    simp only [step, on_app]
    split
    · exact hinv
    · next app happ =>
      intro a ha hz
      rcases List.mem_or_eq_of_mem_set ha with ha | ha
      · exact hinv a ha hz
      · obtain ⟨pg, fpg, heq⟩ := initiate_stop_app h env app
        simp only [ladish_app_stop, heq] at ha
        subst ha
        exact hinv app (List.getElem?_mem happ) hz
  | kill app_handle env =>
    simp only [step, on_app]
    split
    · exact hinv
    · next app happ =>
      intro a ha hz
      rcases List.mem_or_eq_of_mem_set ha with ha | ha
      · exact hinv a ha hz
      · obtain ⟨pg, fpg, heq⟩ := kill_app h env app
        simp only [heq] at ha
        subst ha
        exact hinv app (List.getElem?_mem happ) hz
  | child_exit pid =>
    simp only [step, ladish_app_supervisor_child_exit]
    split
    · exact hinv
    · split
      · exact hinv
      · next app_handle _ _ app happ =>
        split
        · intro a ha hz
          rw [remove_internal_applist] at ha
          simp only [eraseIdx_set_self] at ha
          exact hinv a (List.mem_of_mem_eraseIdx ha) hz
        · next hnz =>
          intro a ha hz
          simp only [emit_fields] at ha
          rcases List.mem_or_eq_of_mem_set ha with ha | ha
          · exact hinv a ha hz
          · subst ha
            simp at hnz
            simp [hnz] at hz
  | clear env =>
    simp only [step, ladish_app_supervisor_clear]
    exact clear_loop_no_stopped_zombie h env s.applist s.version
  | set_properties id name commandline terminal level ok_commandline ok_name =>
    simp only [step, set_app_properties_multiversion]
    split
    · exact hinv
    · split
      · exact hinv
      · split
        · exact hinv
        · next app happ =>
          have hstore : NoStoppedZombie (s.applist.set ‹Nat›
              (store_properties app name commandline terminal ‹String›)) := by
            intro a ha hz
            rcases List.mem_or_eq_of_mem_set ha with ha | ha
            · exact hinv a ha hz
            · rw [store_properties_eq] at ha
              subst ha
              exact hinv app (List.getElem?_mem happ) hz
          split_ifs
          all_goals
            first
            | exact hstore
            | exact hinv

theorem run_no_stopped_zombie (h : Headers) (ops : List Op) :
    ∀ s : Supervisor, NoStoppedZombie s.applist → NoStoppedZombie (run h s ops).applist := by
  induction ops with
  | nil => intro s hs; exact hs
  | cons op ops ih =>
    intro s hs
    exact ih _ (step_no_stopped_zombie h s op hs)

theorem created_fields {opath name : String} {s₀ : Supervisor}
    (hcreate : ladish_app_supervisor_create true opath name = some s₀) :
    s₀.version = 0 ∧ s₀.next_id = 1 ∧ s₀.applist = [] := by
  simp only [ladish_app_supervisor_create, if_true, Option.some.injEq] at hcreate
  subst hcreate
  exact ⟨rfl, rfl, rfl⟩

/-- The result of a start whose loader fails: false, no event, and the zombie
flag of the app cleared, which leaves the supervisor as it was when the app was
not flagged zombie. -/
theorem failed_start_result (h : Headers) (s : Supervisor) (app_handle : Nat)
    (app : App) (happ : s.applist[app_handle]? = some app) :
    ladish_app_supervisor_start_app h s app_handle none =
      (false, { s with applist := s.applist.set app_handle { app with zombie := false } },
       []) ∧
    (app.zombie = false →
      ladish_app_supervisor_start_app h s app_handle none = (false, s, [])) := by
  have hres : ladish_app_supervisor_start_app h s app_handle none =
      (false, { s with applist := s.applist.set app_handle { app with zombie := false } },
       []) := by
    simp [ladish_app_supervisor_start_app, happ]
  refine ⟨hres, ?_⟩
  intro hz
  rw [hres]
  have happ' : ({ app with zombie := false } : App) = app := by
    cases app
    simp_all
  rw [happ', set_same s.applist app_handle app happ]

/-- C7: when the external loader fails, `ladish_app_supervisor_start_app`,
called on an app with pid 0 (which the function asserts) in a supervisor reached
from creation by any sequence of operations, returns false and leaves the app
untouched: the supervisor, with its version, its list and every field of the
app record, is the same as before the call, and no notification is emitted. -/
theorem failed_start_leaves_app_untouched (h : Headers) (opath name : String)
    (s₀ : Supervisor) (hcreate : ladish_app_supervisor_create true opath name = some s₀)
    (ops : List Op) (app_handle : Nat) (app : App)
    (happ : (run h s₀ ops).applist[app_handle]? = some app) (hpid : app.pid = 0) :
    ladish_app_supervisor_start_app h (run h s₀ ops) app_handle none =
      (false, run h s₀ ops, []) ∧
    (ladish_app_supervisor_start_app h (run h s₀ ops) app_handle none).2.1.applist[app_handle]?
      = some app ∧
    (ladish_app_supervisor_start_app h (run h s₀ ops) app_handle none).2.1.version
      = (run h s₀ ops).version := by
  have hinv : NoStoppedZombie (run h s₀ ops).applist := by
    apply run_no_stopped_zombie
    rw [(created_fields hcreate).2.2]
    intro a ha
    cases ha
  have hz : app.zombie = false := by
    cases hz : app.zombie with
    | false => rfl
    | true => exact absurd hpid (hinv app (List.getElem?_mem happ) hz)
  have hres := (failed_start_result h (run h s₀ ops) app_handle app happ).2 hz
  rw [hres]
  exact ⟨rfl, happ, rfl⟩

/-- Witness for C7: app "foo" is added, started and exits; a start of the
stopped app whose loader fails leaves the supervisor as it was. -/
theorem failed_start_leaves_app_untouched_witness :
    ladish_app_supervisor_create true "/org/ladish/Studio" "studio" = some fresh_supervisor ∧
    (run stdHeaders fresh_supervisor
      [scenario_add, scenario_start, scenario_exit]).applist[0]? = some stopped_foo ∧
    stopped_foo.pid = 0 ∧
    ladish_app_supervisor_start_app stdHeaders
        (run stdHeaders fresh_supervisor [scenario_add, scenario_start, scenario_exit]) 0 none
      = (false, run stdHeaders fresh_supervisor [scenario_add, scenario_start, scenario_exit],
         []) :=
  ⟨by decide, by decide, by decide,
   (failed_start_leaves_app_untouched stdHeaders "/org/ladish/Studio" "studio"
      fresh_supervisor (by decide) [scenario_add, scenario_start, scenario_exit] 0
      stopped_foo (by decide) (by decide)).1⟩

/-! ### Lookups -/

theorem list_for_each_find_first (cond : App → Bool) (l : List App) :
    FirstMatch cond l (list_for_each_find cond l) := by
  induction l with
  | nil =>
    intro app happ
    cases happ
  | cons x xs ih =>
    unfold list_for_each_find
    by_cases hx : cond x = true
    · simp only [hx, if_true]
      refine ⟨x, by simp, hx, ?_⟩
      intro j hj
      omega
    · simp only [hx]
      cases hfind : list_for_each_find cond xs with
      | none =>
        rw [hfind] at ih
        intro app happ
        simp only [List.mem_cons] at happ
        rcases happ with happ | happ
        · subst happ
          simpa using hx
        · exact ih app happ
      | some i =>
        rw [hfind] at ih
        obtain ⟨app, hget, hc, hbefore⟩ := ih
        show FirstMatch cond (x :: xs) (some (i + 1))
        refine ⟨app, by simpa using hget, hc, ?_⟩
        intro j hj other hother
        cases j with
        | zero =>
          simp only [List.getElem?_cons_zero, Option.some.injEq] at hother
          subst hother
          simpa using hx
        | succ n =>
          simp only [List.getElem?_cons_succ] at hother
          exact hbefore n (by omega) other hother

theorem list_for_each_find_none {cond : App → Bool} {l : List App}
    (hall : ∀ app ∈ l, cond app = false) : list_for_each_find cond l = none := by
  have hfirst := list_for_each_find_first cond l
  cases hfind : list_for_each_find cond l with
  | none => rfl
  | some i =>
    rw [hfind] at hfirst
    obtain ⟨app, hget, hc, _⟩ := hfirst
    rw [hall app (List.getElem?_mem hget)] at hc
    cases hc

/-! ### Ids -/

theorem additions_cons (h : Headers) (op : Op) (ops : List Op) :
    additions h (op :: ops) =
      (if (op.added_uuid h).isSome then 1 else 0) + additions h ops := by
  unfold additions
  rw [List.countP_cons]
  omega

theorem additions_append (h : Headers) (ops₁ ops₂ : List Op) :
    additions h (ops₁ ++ ops₂) = additions h ops₁ + additions h ops₂ := by
  unfold additions
  exact List.countP_append _ _ _

theorem run_append (h : Headers) (ops₁ ops₂ : List Op) :
    ∀ s, run h s (ops₁ ++ ops₂) = run h (run h s ops₁) ops₂ := by
  induction ops₁ with
  | nil => intro s; rfl
  | cons op ops ih => intro s; exact ih _

theorem step_id_invariant (h : Headers) (s : Supervisor) (op : Op) (n : Nat)
    (hinv : IdInvariant n s)
    (hn : n + (if (op.added_uuid h).isSome then 1 else 0) < UINT64_SIZE) :
    IdInvariant (n + (if (op.added_uuid h).isSome then 1 else 0)) (step h s op).1 ∧
    ∀ k ∈ (step h s op).1.applist.map app_key, k ∈ s.applist.map app_key ∨ n < k.1 := by
  obtain ⟨hnext, hsorted, hbound⟩ := hinv
  rcases step_keys h s op with ⟨u, hu, hnext', hkeys⟩ | ⟨hu, hnext', hkeys⟩
  · simp only [hu, Option.isSome_some, if_true] at hn ⊢
    have hid : s.next_id = n + 1 := by
      rw [hnext]
      exact Nat.mod_eq_of_lt hn
    refine ⟨⟨?_, ?_, ?_⟩, ?_⟩
    · rw [hnext', hid]
      rfl
    · rw [hkeys, List.pairwise_append]
      refine ⟨hsorted, List.pairwise_singleton _ _, ?_⟩
      intro a ha b hb
      simp only [List.mem_singleton] at hb
      subst hb
      have := (hbound a ha).2
      simp only [hid]
      omega
    · intro k hk
      rw [hkeys, List.mem_append, List.mem_singleton] at hk
      rcases hk with hk | hk
      · have := hbound k hk
        omega
      · subst hk
        simp only [hid]
        omega
    · intro k hk
      rw [hkeys, List.mem_append, List.mem_singleton] at hk
      rcases hk with hk | hk
      · exact Or.inl hk
      · right
        subst hk
        simp only [hid]
        omega
  · simp only [hu, Option.isSome_none, Bool.false_eq_true, if_false, Nat.add_zero] at hn ⊢
    refine ⟨⟨?_, ?_, ?_⟩, ?_⟩
    · rw [hnext', hnext]
    · exact List.Pairwise.sublist hkeys hsorted
    · intro k hk
      exact hbound k (hkeys.subset hk)
    · intro k hk
      exact Or.inl (hkeys.subset hk)

theorem run_id_invariant (h : Headers) (ops : List Op) :
    ∀ (s : Supervisor) (n : Nat), IdInvariant n s → n + additions h ops < UINT64_SIZE →
      IdInvariant (n + additions h ops) (run h s ops) ∧
      ∀ k ∈ (run h s ops).applist.map app_key, k ∈ s.applist.map app_key ∨ n < k.1 := by
  induction ops with
  | nil =>
    intro s n hinv _
    simp only [run, additions, List.countP_nil, Nat.add_zero]
    exact ⟨hinv, fun k hk => Or.inl hk⟩
  | cons op ops ih =>
    intro s n hinv hn
    rw [additions_cons] at hn
    have hstep := step_id_invariant h s op n hinv (by omega)
    have hrest := ih (step h s op).1 _ hstep.1 (by omega)
    rw [additions_cons]
    simp only [run]
    refine ⟨by rw [← Nat.add_assoc]; exact hrest.1, ?_⟩
    intro k hk
    rcases hrest.2 k hk with hk' | hk'
    · exact hstep.2 k hk'
    · right
      omega

theorem created_id_invariant {opath name : String} {s₀ : Supervisor}
    (hcreate : ladish_app_supervisor_create true opath name = some s₀) :
    IdInvariant 0 s₀ := by
  obtain ⟨_, hnext, hlist⟩ := created_fields hcreate
  refine ⟨by rw [hnext]; rfl, ?_, ?_⟩
  · rw [hlist]
    exact List.Pairwise.nil
  · rw [hlist]
    intro k hk
    cases hk

theorem additions_replicate_add_foo (n : Nat) :
    additions stdHeaders (List.replicate n add_foo) = n := by
  induction n with
  | zero => rfl
  | succ n ih =>
    rw [List.replicate_succ, additions_cons, ih]
    have : (add_foo.added_uuid stdHeaders).isSome = true := by decide
    rw [this]
    simp only [if_true]
    omega

theorem run_replicate_add_foo_length (n : Nat) :
    ∀ s, (run stdHeaders s (List.replicate n add_foo)).applist.length =
      s.applist.length + n := by
  induction n with
  | zero => intro s; rfl
  | succ n ih =>
    intro s
    rw [List.replicate_succ]
    simp only [run]
    rw [ih]
    have hvalid : ladish_check_app_level_validity stdHeaders "0" = some 1 := by decide
    simp only [step, add_foo, ladish_app_supervisor_add, hvalid]
    simp only [Bool.not_true, Bool.false_eq_true, if_false, List.length_append,
      List.length_singleton]
    omega

/-- C9 (counterexample): after 2^64 - 1 accepted additions on a fresh
supervisor, a number of additions below 2^64, `next_id` has wrapped around to 0
while the list holds apps, so there is an app whose id is not smaller than
`next_id`. -/
theorem id_not_below_next_id_at_wrap :
    ladish_app_supervisor_create true "/org/ladish/Studio" "studio" = some fresh_supervisor ∧
    additions stdHeaders wrapping_additions < UINT64_SIZE ∧
    (run stdHeaders fresh_supervisor wrapping_additions).next_id = 0 ∧
    ∃ app ∈ (run stdHeaders fresh_supervisor wrapping_additions).applist,
      ¬ app.id < (run stdHeaders fresh_supervisor wrapping_additions).next_id := by
  have hadd : additions stdHeaders wrapping_additions = UINT64_SIZE - 1 :=
    additions_replicate_add_foo _
  have hlt : additions stdHeaders wrapping_additions < UINT64_SIZE := by
    rw [hadd]
    exact Nat.sub_lt (by decide) (by decide)
  have hcreate : ladish_app_supervisor_create true "/org/ladish/Studio" "studio" =
      some fresh_supervisor := by decide
  have hinv := (run_id_invariant stdHeaders wrapping_additions fresh_supervisor 0
    (created_id_invariant hcreate) (by rw [Nat.zero_add]; exact hlt)).1
  have hnext : (run stdHeaders fresh_supervisor wrapping_additions).next_id = 0 := by
    rw [hinv.1, Nat.zero_add, hadd]
    rw [Nat.sub_add_cancel (by decide : 1 ≤ UINT64_SIZE)]
    exact Nat.mod_self _
  have hlen : (run stdHeaders fresh_supervisor wrapping_additions).applist.length =
      UINT64_SIZE - 1 := by
    have := run_replicate_add_foo_length (UINT64_SIZE - 1) fresh_supervisor
    simpa [wrapping_additions, fresh_supervisor] using this
  refine ⟨hcreate, hlt, hnext, ?_⟩
  have hne : (run stdHeaders fresh_supervisor wrapping_additions).applist ≠ [] := by
    intro hnil
    rw [hnil] at hlen
    revert hlen
    decide
  obtain ⟨app, happ⟩ := List.exists_mem_of_ne_nil _ hne
  exact ⟨app, happ, by rw [hnext]; exact Nat.not_lt_zero _⟩

/-- C9 (amended): in every supervisor state reached from creation by a sequence
of operations (add, remove, start, stop, kill, child-exit, clear, and also
property-set) with fewer than 2^64 accepted additions, the ids increase along
the list, which is in insertion order, hence are pairwise distinct; every id is
at least 1; an id that was in the list and has left it is never in the list
again; and every id is smaller than `next_id` as long as there were fewer than
2^64 - 1 additions (the addition number 2^64 - 1 wraps `next_id` to 0). -/
theorem ids_monotonic_and_unique (h : Headers) (opath name : String) (s₀ : Supervisor)
    (hcreate : ladish_app_supervisor_create true opath name = some s₀)
    (ops : List Op) (hbound : additions h ops < UINT64_SIZE) :
    List.Pairwise (fun a b : App => a.id < b.id) (run h s₀ ops).applist ∧
    (app_ids (run h s₀ ops)).Nodup ∧
    (∀ app ∈ (run h s₀ ops).applist, 1 ≤ app.id) ∧
    (additions h ops + 1 < UINT64_SIZE →
      ∀ app ∈ (run h s₀ ops).applist, app.id < (run h s₀ ops).next_id) ∧
    (∀ ops₁ ops₂ ops₃, ops = ops₁ ++ ops₂ ++ ops₃ →
      ∀ id, id ∈ app_ids (run h s₀ ops₁) → id ∉ app_ids (run h s₀ (ops₁ ++ ops₂)) →
        id ∉ app_ids (run h s₀ ops)) := by
  have hinv := (run_id_invariant h ops s₀ 0 (created_id_invariant hcreate)
    (by rw [Nat.zero_add]; exact hbound)).1
  rw [Nat.zero_add] at hinv
  obtain ⟨hnext, hsorted, hrange⟩ := hinv
  have hsorted' : List.Pairwise (fun a b : App => a.id < b.id) (run h s₀ ops).applist :=
    (List.pairwise_map (f := app_key) (R := fun a b => a.1 < b.1)).mp hsorted
  refine ⟨hsorted', ?_, ?_, ?_, ?_⟩
  · unfold app_ids List.Nodup
    rw [List.pairwise_map]
    exact hsorted'.imp (fun hlt => Nat.ne_of_lt hlt)
  · intro app happ
    exact (hrange (app_key app) (List.mem_map_of_mem _ happ)).1
  · intro hlt app happ
    rw [hnext, Nat.mod_eq_of_lt hlt]
    have := (hrange (app_key app) (List.mem_map_of_mem _ happ)).2
    simp only [app_key] at this
    omega
  · intro ops₁ ops₂ ops₃ hsplit id hin hout hagain
    subst hsplit
    rw [additions_append, additions_append] at hbound
    have h₁ := (run_id_invariant h ops₁ s₀ 0 (created_id_invariant hcreate)
      (by omega)).1
    have h₂ := (run_id_invariant h (ops₁ ++ ops₂) s₀ 0 (created_id_invariant hcreate)
      (by rw [additions_append]; omega)).1
    have h₃ := (run_id_invariant h ops₃ (run h s₀ (ops₁ ++ ops₂)) _ h₂
      (by rw [additions_append]; omega)).2
    rw [← run_append] at h₃
    simp only [app_ids, List.mem_map] at hin hout hagain
    obtain ⟨a, ha, haid⟩ := hin
    obtain ⟨c, hc, hcid⟩ := hagain
    have hle := (h₁.2.2 (app_key a) (List.mem_map_of_mem _ ha)).2
    rcases h₃ (app_key c) (List.mem_map_of_mem _ hc) with hmem | hgt
    · rw [List.mem_map] at hmem
      obtain ⟨b, hb, hbk⟩ := hmem
      apply hout
      refine ⟨b, hb, ?_⟩
      have : (app_key b).1 = (app_key c).1 := by rw [hbk]
      simp only [app_key] at this
      omega
    · rw [additions_append] at hgt
      simp only [app_key] at hle hgt
      omega

/-- Witness for C9 (amended): the add/start/stop sequence on the fresh
supervisor. -/
theorem ids_monotonic_and_unique_witness :
    ladish_app_supervisor_create true "/org/ladish/Studio" "studio" = some fresh_supervisor ∧
    additions stdHeaders add_start_stop < UINT64_SIZE ∧
    (app_ids (run stdHeaders fresh_supervisor add_start_stop)).Nodup ∧
    (∀ app ∈ (run stdHeaders fresh_supervisor add_start_stop).applist, 1 ≤ app.id) :=
  ⟨by decide, by decide,
   (ids_monotonic_and_unique stdHeaders "/org/ladish/Studio" "studio" fresh_supervisor
      (by decide) add_start_stop (by decide)).2.1,
   (ids_monotonic_and_unique stdHeaders "/org/ladish/Studio" "studio" fresh_supervisor
      (by decide) add_start_stop (by decide)).2.2.1⟩

theorem eraseIdx_ids_ne (l : List App) :
    ∀ (i : Nat) (app : App), List.Pairwise (fun a b : App => a.id < b.id) l →
      l[i]? = some app → ∀ other ∈ l.eraseIdx i, other.id ≠ app.id := by
  induction l with
  | nil => intro i app _ hget; simp at hget
  | cons x xs ih =>
    intro i app hsorted hget other hother
    rw [List.pairwise_cons] at hsorted
    cases i with
    | zero =>
      simp only [List.getElem?_cons_zero, Option.some.injEq] at hget
      subst hget
      simp only [List.eraseIdx_cons_zero] at hother
      exact Nat.ne_of_gt (hsorted.1 other hother)
    | succ n =>
      simp only [List.getElem?_cons_succ] at hget
      simp only [List.eraseIdx_cons_succ, List.mem_cons] at hother
      rcases hother with hother | hother
      · subst hother
        exact Nat.ne_of_lt (hsorted.1 app (List.getElem?_mem hget))
      · exact ih n app hsorted.2 hget other hother

/-- C8 (counterexample): two apps are added with the same supplied UUID 5 and
the first one (id 1) is removed; the lookup by the UUID of the removed app does
not return nothing, it returns the remaining app (id 2). -/
theorem lookup_by_uuid_after_remove_finds_twin :
    (run stdHeaders fresh_supervisor add_same_uuid_twice).applist.map App.uuid = [5, 5] ∧
    (run stdHeaders fresh_supervisor add_same_uuid_twice).applist.map App.id = [1, 2] ∧
    (ladish_app_supervisor_remove_app
      (run stdHeaders fresh_supervisor add_same_uuid_twice) 0).1.applist.map App.id = [2] ∧
    ladish_app_supervisor_find_app_by_uuid
      (ladish_app_supervisor_remove_app
        (run stdHeaders fresh_supervisor add_same_uuid_twice) 0).1 5 = some 0 ∧
    ladish_app_supervisor_find_app_by_uuid
      (ladish_app_supervisor_remove_app
        (run stdHeaders fresh_supervisor add_same_uuid_twice) 0).1 5 ≠ none := by
  decide

/-- C8 (amended): each of the four lookups (by id, name, pid, UUID) returns at
most one app, the first match in list order.  After an app of a supervisor
reached from creation (with fewer than 2^64 accepted additions) is removed,
lookup by its id returns nothing; lookup by its UUID returns nothing provided no
remaining app carries the same UUID (the supervisor does not enforce unique
UUIDs); and whatever a lookup by its name, its former pid or its UUID returns is
an app of the remaining list with another id, never the removed app. -/
theorem lookups_first_match_and_removed (h : Headers) (opath name : String)
    (s₀ : Supervisor) (hcreate : ladish_app_supervisor_create true opath name = some s₀)
    (ops : List Op) (hbound : additions h ops < UINT64_SIZE)
    (app_handle : Nat) (app : App)
    (happ : (run h s₀ ops).applist[app_handle]? = some app) :
    (∀ (s : Supervisor) (id : Nat),
      FirstMatch (fun a => a.id == id) s.applist (ladish_app_supervisor_find_app_by_id s id)) ∧
    (∀ (s : Supervisor) (name : String),
      FirstMatch (fun a => a.name == name) s.applist
        (ladish_app_supervisor_find_app_by_name s name)) ∧
    (∀ (s : Supervisor) (pid : Int),
      FirstMatch (fun a => a.pid == pid) s.applist
        (ladish_app_supervisor_find_app_by_pid s pid)) ∧
    (∀ (s : Supervisor) (uuid : uuid_t),
      FirstMatch (fun a => a.uuid == uuid) s.applist
        (ladish_app_supervisor_find_app_by_uuid s uuid)) ∧
    ladish_app_supervisor_find_app_by_id
      (ladish_app_supervisor_remove_app (run h s₀ ops) app_handle).1 app.id = none ∧
    ((∀ other ∈ (ladish_app_supervisor_remove_app (run h s₀ ops) app_handle).1.applist,
        other.uuid ≠ app.uuid) →
      ladish_app_supervisor_find_app_by_uuid
        (ladish_app_supervisor_remove_app (run h s₀ ops) app_handle).1 app.uuid = none) ∧
    (∀ j,
      (ladish_app_supervisor_find_app_by_name
          (ladish_app_supervisor_remove_app (run h s₀ ops) app_handle).1 app.name = some j ∨
        ladish_app_supervisor_find_app_by_pid
          (ladish_app_supervisor_remove_app (run h s₀ ops) app_handle).1 app.pid = some j ∨
        ladish_app_supervisor_find_app_by_uuid
          (ladish_app_supervisor_remove_app (run h s₀ ops) app_handle).1 app.uuid = some j) →
      ∃ other,
        (ladish_app_supervisor_remove_app (run h s₀ ops) app_handle).1.applist[j]? =
          some other ∧
        other ∈ (ladish_app_supervisor_remove_app (run h s₀ ops) app_handle).1.applist ∧
        other.id ≠ app.id) := by
  have hinv := (run_id_invariant h ops s₀ 0 (created_id_invariant hcreate)
    (by rw [Nat.zero_add]; exact hbound)).1
  have hsorted : List.Pairwise (fun a b : App => a.id < b.id) (run h s₀ ops).applist :=
    (List.pairwise_map (f := app_key) (R := fun a b => a.1 < b.1)).mp hinv.2.1
  have hlist : (ladish_app_supervisor_remove_app (run h s₀ ops) app_handle).1.applist =
      (run h s₀ ops).applist.eraseIdx app_handle :=
    remove_internal_applist _ _
  have hne : ∀ other ∈ (ladish_app_supervisor_remove_app (run h s₀ ops) app_handle).1.applist,
      other.id ≠ app.id := by
    rw [hlist]
    exact eraseIdx_ids_ne _ app_handle app hsorted happ
  refine ⟨fun s id => list_for_each_find_first _ _, fun s name => list_for_each_find_first _ _,
    fun s pid => list_for_each_find_first _ _, fun s uuid => list_for_each_find_first _ _,
    ?_, ?_, ?_⟩
  · apply list_for_each_find_none
    intro other hother
    simpa using hne other hother
  · intro huuid
    apply list_for_each_find_none
    intro other hother
    simpa using huuid other hother
  · intro j hj
    have hfound : ∀ (cond : App → Bool),
        list_for_each_find cond
          (ladish_app_supervisor_remove_app (run h s₀ ops) app_handle).1.applist = some j →
        ∃ other,
          (ladish_app_supervisor_remove_app (run h s₀ ops) app_handle).1.applist[j]? =
            some other := by
      intro cond hfind
      have hfirst := list_for_each_find_first cond
        (ladish_app_supervisor_remove_app (run h s₀ ops) app_handle).1.applist
      rw [hfind] at hfirst
      obtain ⟨other, hget, _⟩ := hfirst
      exact ⟨other, hget⟩
    have hget : ∃ other,
        (ladish_app_supervisor_remove_app (run h s₀ ops) app_handle).1.applist[j]? =
          some other := by
      rcases hj with hj | hj | hj
      · exact hfound _ hj
      · exact hfound _ hj
      · exact hfound _ hj
    obtain ⟨other, hother⟩ := hget
    exact ⟨other, hother, List.getElem?_mem hother, hne other (List.getElem?_mem hother)⟩

/-- Witness for C8 (amended): two apps are added to the fresh supervisor and the
second one (id 2) is removed; lookup by id 2 then finds nothing. -/
theorem lookups_first_match_and_removed_witness :
    ladish_app_supervisor_create true "/org/ladish/Studio" "studio" = some fresh_supervisor ∧
    additions stdHeaders add_same_uuid_twice < UINT64_SIZE ∧
    ((run stdHeaders fresh_supervisor add_same_uuid_twice).applist[1]?).isSome = true ∧
    ladish_app_supervisor_find_app_by_id
      (ladish_app_supervisor_remove_app
        (run stdHeaders fresh_supervisor add_same_uuid_twice) 1).1 2 = none :=
  ⟨by decide, by decide, by decide,
   (lookups_first_match_and_removed stdHeaders "/org/ladish/Studio" "studio"
      fresh_supervisor (by decide) add_same_uuid_twice (by decide) 1
      { id := 2, uuid := 5, name := "b", commandline := "/bin/b", terminal := false,
        level := "1", pid := 0, pgrp := 0, firstborn_pid := 0, firstborn_pgrp := 0,
        firstborn_refcount := 0, zombie := false, autorun := false,
        state := AppState.STOPPED, dbus_name := none }
      (by decide)).2.2.2.2.1⟩

/-! ### UUIDs -/

theorem step_uuids_nodup (h : Headers) (s : Supervisor) (op : Op)
    (hnodup : (s.applist.map App.uuid).Nodup)
    (hfresh : ∀ u, op.added_uuid h = some u → ∀ app ∈ s.applist, app.uuid ≠ u) :
    ((step h s op).1.applist.map App.uuid).Nodup := by
  have hmap : ∀ l : List App, l.map App.uuid = (l.map app_key).map Prod.snd := by
    intro l
    rw [List.map_map]
    rfl
  rw [hmap] at hnodup ⊢
  rcases step_keys h s op with ⟨u, hu, _, hkeys⟩ | ⟨_, _, hkeys⟩
  · rw [hkeys, List.map_append, List.map_singleton]
    refine List.Nodup.append hnodup (List.nodup_singleton _) ?_
    intro x hx hx'
    simp only [List.mem_singleton] at hx'
    subst hx'
    rw [← hmap, List.mem_map] at hx
    obtain ⟨app, happ, hux⟩ := hx
    exact hfresh _ hu app happ hux
  · exact List.Nodup.sublist (List.Sublist.map _ hkeys) hnodup

theorem run_uuids_nodup (h : Headers) (ops : List Op) :
    ∀ s : Supervisor, (s.applist.map App.uuid).Nodup → fresh_uuids h s ops = true →
      ((run h s ops).applist.map App.uuid).Nodup := by
  induction ops with
  | nil => intro s hs _; exact hs
  | cons op ops ih =>
    intro s hs hfresh
    simp only [fresh_uuids, Bool.and_eq_true] at hfresh
    apply ih _ _ hfresh.2
    apply step_uuids_nodup h s op hs
    intro u hu app happ
    have hall := hfresh.1
    rw [hu] at hall
    simp only [List.all_eq_true] at hall
    simpa using hall app happ

/-- C10 (counterexample): two adds that supply the same UUID 5 are both
accepted; the list then holds two apps with the same UUID. -/
theorem supplied_uuid_duplicated :
    ladish_app_supervisor_create true "/org/ladish/Studio" "studio" = some fresh_supervisor ∧
    (run stdHeaders fresh_supervisor add_same_uuid_twice).applist.map App.uuid = [5, 5] ∧
    ¬ ((run stdHeaders fresh_supervisor add_same_uuid_twice).applist.map App.uuid).Nodup := by
  refine ⟨by decide, by decide, ?_⟩
  have hlist : (run stdHeaders fresh_supervisor add_same_uuid_twice).applist.map App.uuid
      = [5, 5] := by decide
  rw [hlist]
  decide

/-- C10 (amended): in every supervisor state reached from creation by a sequence
of operations in which every accepted add gives the new app a UUID (the supplied
one if it is non-null, else the generated one) that no app in the list carries
at that moment, no two apps in the list have the same UUID.  The supervisor does
not check a supplied or generated UUID against the list itself. -/
theorem uuids_unique_when_fresh (h : Headers) (opath name : String) (s₀ : Supervisor)
    (hcreate : ladish_app_supervisor_create true opath name = some s₀)
    (ops : List Op) (hfresh : fresh_uuids h s₀ ops = true) :
    ((run h s₀ ops).applist.map App.uuid).Nodup ∧
    List.Pairwise (fun a b : App => a.uuid ≠ b.uuid) (run h s₀ ops).applist := by
  have hnodup : ((run h s₀ ops).applist.map App.uuid).Nodup := by
    apply run_uuids_nodup h ops s₀ _ hfresh
    rw [(created_fields hcreate).2.2]
    exact List.nodup_nil
  refine ⟨hnodup, ?_⟩
  unfold List.Nodup at hnodup
  exact (List.pairwise_map (f := App.uuid) (R := fun a b => a ≠ b)).mp hnodup

/-- Witness for C10 (amended): one add with a generated UUID and one with a
different supplied UUID. -/
theorem uuids_unique_when_fresh_witness :
    ladish_app_supervisor_create true "/org/ladish/Studio" "studio" = some fresh_supervisor ∧
    fresh_uuids stdHeaders fresh_supervisor add_distinct_uuids = true ∧
    ((run stdHeaders fresh_supervisor add_distinct_uuids).applist.map App.uuid).Nodup :=
  ⟨by decide, by decide,
   (uuids_unique_when_fresh stdHeaders "/org/ladish/Studio" "studio" fresh_supervisor
      (by decide) add_distinct_uuids (by decide)).1⟩

/-! ### Removing an app -/

theorem send_signal_to_pid_eq (app : App) (sig : Int) (pf : Bool) :
    send_signal_to_pid app sig pf =
      if app.pid ≤ 1 then []
      else if (if pf && app.firstborn_pid != 0 then app.firstborn_pid else app.pid) ≤ 1 then []
      else [Event.kill (if pf && app.firstborn_pid != 0 then app.firstborn_pid else app.pid)
        sig] := rfl

theorem send_signal_to_pid_targets (app : App) (sig : Int) (pf : Bool) :
    ∀ e ∈ send_signal_to_pid app sig pf, ∀ t, e.target = some t → 1 < t := by
  intro e he t ht
  rw [send_signal_to_pid_eq] at he
  generalize (if (pf && app.firstborn_pid != 0) = true then app.firstborn_pid else app.pid)
    = pid at he
  split_ifs at he
  · cases he
  · cases he
  · simp only [List.mem_singleton] at he
    subst he
    simp only [Event.target, Option.some.injEq] at ht
    omega

theorem signal_process_groups_targets (app : App) (sig : Int) (pf : Bool) :
    ∀ e ∈ signal_process_groups app sig pf, ∀ t, e.target = some t → 1 < t := by
  have hgroup : ∀ (g : Int) (e : Event) (t : Int), ¬ g ≤ 1 → e = Event.killpg g sig →
      e.target = some t → 1 < t := by
    intro g e t hg he ht
    subst he
    simp only [Event.target, Option.some.injEq] at ht
    omega
  unfold signal_process_groups
  intro e he t ht
  split_ifs at he with h1 h2 h3 h4 h5 h6
  · cases he
  · simp only [List.mem_singleton] at he
    exact hgroup _ e t h2 he ht
  · simp only [List.mem_cons, List.mem_singleton, List.not_mem_nil, or_false] at he
    rcases he with he | he
    · exact hgroup _ e t h2 he ht
    · exact hgroup _ e t h5 he ht
  · simp only [List.mem_singleton] at he
    exact hgroup _ e t h2 he ht
  · simp only [List.mem_cons] at he
    rcases he with he | he
    · exact hgroup _ e t h2 he ht
    · exact send_signal_to_pid_targets app sig pf e he t ht
  · simp only [List.mem_singleton] at he
    exact hgroup _ e t h2 he ht
  · exact send_signal_to_pid_targets app sig pf e he t ht

/-- C13: whatever the app record, the signal number, the `prefer_firstborn` flag
and the results of `getpgid` (failures included), every `kill` and every
`killpg` that `ladish_app_send_signal` performs is aimed at a pid or
process-group id greater than 1. -/
theorem send_signal_targets_above_one (h : Headers) (env : Env) (app : App) (sig : Int)
    (prefer_firstborn : Bool) :
    ∀ e ∈ (ladish_app_send_signal h env app sig prefer_firstborn).2,
      ∀ t, e.target = some t → 1 < t := by
  unfold ladish_app_send_signal
  simp only
  split_ifs
  · intro e he
    cases he
  · exact signal_process_groups_targets _ sig prefer_firstborn
  · exact send_signal_to_pid_targets _ sig prefer_firstborn

/-- Witness for C13: SIGTERM for `started_foo` (pid 1234) when no process group
can be resolved is delivered by `kill` to pid 1234. -/
theorem send_signal_targets_above_one_witness :
    Event.kill 1234 SIGTERM ∈
      (ladish_app_send_signal stdHeaders sample_env started_foo SIGTERM false).2 ∧
    (Event.kill 1234 SIGTERM).target = some 1234 ∧
    (1 : Int) < 1234 :=
  ⟨by decide, rfl,
   send_signal_targets_above_one stdHeaders sample_env started_foo SIGTERM false
     (Event.kill 1234 SIGTERM) (by decide) 1234 rfl⟩

/-! ### Stopping an app -/

theorem assert_state_assignment_fields (h : Headers) (app : App) :
    ∃ state, assert_state_assignment h app = { app with state := state } := by
  unfold assert_state_assignment
  split_ifs
  · exact ⟨_, rfl⟩
  · exact ⟨app.state, rfl⟩

theorem send_signal_delivers (h : Headers) (env : Env) (app : App) (sig : Int)
    (hsig : sig = SIGKILL ∨ sig = SIGTERM) (hpid : 1 < app.pid)
    (hgroup : (resolve_process_groups env app).pgrp = 0 ∨
      1 < (resolve_process_groups env app).pgrp) :
    (ladish_app_send_signal h env app sig false).2.any (Event.is_signal sig) = true := by
  obtain ⟨st, hst⟩ := assert_state_assignment_fields h app
  have hne : app.pid ≠ 0 := by omega
  unfold ladish_app_send_signal
  simp only [hst, hne, hsig, if_true, if_false]
  have hres : (resolve_process_groups env { app with state := st }).pgrp =
      (resolve_process_groups env app).pgrp := rfl
  have hrpid : (resolve_process_groups env { app with state := st }).pid = app.pid := rfl
  unfold signal_process_groups
  rw [hres]
  rcases hgroup with hzero | hbig
  · simp only [hzero, ne_eq, not_true_eq_false, if_false]
    rw [send_signal_to_pid_eq, hrpid]
    have h1 : ¬ app.pid ≤ 1 := by omega
    simp [h1, Event.is_signal]
  · have h0 : (resolve_process_groups env app).pgrp ≠ 0 := by omega
    have h1 : ¬ (resolve_process_groups env app).pgrp ≤ 1 := by omega
    simp only [h0, h1, ne_eq, not_false_eq_true, if_true, if_false]
    split_ifs <;> simp [Event.is_signal]

theorem send_signal_to_pid_only_sig (app : App) (sig : Int) (pf : Bool) :
    ∀ e ∈ send_signal_to_pid app sig pf, e.is_signal sig = true := by
  intro e he
  rw [send_signal_to_pid_eq] at he
  generalize (if (pf && app.firstborn_pid != 0) = true then app.firstborn_pid else app.pid)
    = pid at he
  split_ifs at he
  · cases he
  · cases he
  · simp only [List.mem_singleton] at he
    subst he
    simp [Event.is_signal]

theorem send_signal_only_sig (h : Headers) (env : Env) (app : App) (sig : Int) (pf : Bool) :
    ∀ e ∈ (ladish_app_send_signal h env app sig pf).2, e.is_signal sig = true := by
  have hcons : ∀ (g : Int) (evs : List Event), (∀ e ∈ evs, e.is_signal sig = true) →
      ∀ e ∈ Event.killpg g sig :: evs, e.is_signal sig = true := by
    intro g evs hevs e he
    simp only [List.mem_cons] at he
    rcases he with he | he
    · subst he
      simp [Event.is_signal]
    · exact hevs e he
  have hnil : ∀ e ∈ ([] : List Event), e.is_signal sig = true := by
    intro e he
    cases he
  unfold ladish_app_send_signal
  simp only
  split_ifs
  · exact hnil
  · unfold signal_process_groups
    split_ifs
    · exact hnil
    · exact hcons _ _ hnil
    · exact hcons _ _ (hcons _ _ hnil)
    · exact hcons _ _ hnil
    · exact hcons _ _ (send_signal_to_pid_only_sig _ sig pf)
    · exact hcons _ _ hnil
    · exact send_signal_to_pid_only_sig _ sig pf
  · exact send_signal_to_pid_only_sig _ sig pf

/-- C12 (counterexample): a running LASH-level app with the registered D-Bus name
":1.42" is stopped while the quit call fails: the quit call is made and SIGTERM
is sent all the same (here by `kill` to pid 1234). -/
theorem stop_registered_lash_app_sends_sigterm :
    sample_lash_app.level = stdHeaders.LADISH_APP_LEVEL_LASH ∧
    sample_lash_app.dbus_name = some ":1.42" ∧
    (ladish_app_stop stdHeaders sample_env sample_lash_app).2 =
      [Event.lash_quit ":1.42", Event.kill 1234 SIGTERM] ∧
    (ladish_app_stop stdHeaders sample_env sample_lash_app).2.any (Event.is_signal SIGTERM)
      = true := by
  decide

/-- C12 (amended): stopping a LASH-level app leaves it in state Stopping in every
case.  With no registered control endpoint name the stop is exactly
`ladish_app_send_signal` with SIGTERM, which delivers SIGTERM when the app runs
with a pid above 1 and its process group is unresolvable or above 1.  With a
registered name the quit call is made; when it succeeds nothing else happens
and no SIGTERM is sent; when it fails the code falls back to
`ladish_app_send_signal` with SIGTERM.  No other signal than SIGTERM is ever
sent. -/
theorem stop_lash_app (h : Headers) (env : Env) (app : App)
    (hlash : app.level = h.LADISH_APP_LEVEL_LASH) :
    (ladish_app_stop h env app).1.state = AppState.STOPPING ∧
    (app.dbus_name = none →
      (ladish_app_stop h env app).2 = (ladish_app_send_signal h env app SIGTERM false).2 ∧
      (1 < app.pid →
        ((resolve_process_groups env app).pgrp = 0 ∨
          1 < (resolve_process_groups env app).pgrp) →
        (ladish_app_stop h env app).2.any (Event.is_signal SIGTERM) = true)) ∧
    (∀ dbus_name, app.dbus_name = some dbus_name →
      env.lash_client_proxy_quit dbus_name = true →
      (ladish_app_stop h env app).2 = [Event.lash_quit dbus_name] ∧
      (ladish_app_stop h env app).2.any (Event.is_signal SIGTERM) = false) ∧
    (∀ dbus_name, app.dbus_name = some dbus_name →
      env.lash_client_proxy_quit dbus_name = false →
      (ladish_app_stop h env app).2 =
        Event.lash_quit dbus_name :: (ladish_app_send_signal h env app SIGTERM false).2) ∧
    (∀ e ∈ (ladish_app_stop h env app).2, ∀ t sig,
      (e = Event.kill t sig ∨ e = Event.killpg t sig) → sig = SIGTERM) := by
  have hstate : (ladish_app_stop h env app).1.state = AppState.STOPPING := by
    obtain ⟨pg, fpg, heq⟩ := initiate_stop_app h env app
    unfold ladish_app_stop
    rw [heq]
  have hnone : app.dbus_name = none →
      (ladish_app_stop h env app).2 = (ladish_app_send_signal h env app SIGTERM false).2 := by
    intro hn
    simp [ladish_app_stop, ladish_app_initiate_stop, hlash, hn]
  have hquit : ∀ dbus_name, app.dbus_name = some dbus_name →
      env.lash_client_proxy_quit dbus_name = true →
      (ladish_app_stop h env app).2 = [Event.lash_quit dbus_name] := by
    intro dbus_name hn hq
    simp [ladish_app_stop, ladish_app_initiate_stop, hlash, hn, hq]
  have hfail : ∀ dbus_name, app.dbus_name = some dbus_name →
      env.lash_client_proxy_quit dbus_name = false →
      (ladish_app_stop h env app).2 =
        Event.lash_quit dbus_name :: (ladish_app_send_signal h env app SIGTERM false).2 := by
    intro dbus_name hn hq
    simp [ladish_app_stop, ladish_app_initiate_stop, hlash, hn, hq]
  refine ⟨hstate, ?_, ?_, hfail, ?_⟩
  · intro hn
    refine ⟨hnone hn, ?_⟩
    intro hpid hgroup
    rw [hnone hn]
    exact send_signal_delivers h env app SIGTERM (Or.inr rfl) hpid hgroup
  · intro dbus_name hn hq
    refine ⟨hquit dbus_name hn hq, ?_⟩
    rw [hquit dbus_name hn hq]
    simp [Event.is_signal]
  · intro e he t sig hsig
    have hsend := send_signal_only_sig h env app SIGTERM false
    have hcase : e = Event.lash_quit (app.dbus_name.getD "") ∨
        e ∈ (ladish_app_send_signal h env app SIGTERM false).2 := by
      cases hn : app.dbus_name with
      | none =>
        rw [hnone hn] at he
        exact Or.inr he
      | some dbus_name =>
        cases hq : env.lash_client_proxy_quit dbus_name with
        | true =>
          rw [hquit dbus_name hn hq] at he
          simp only [List.mem_singleton] at he
          exact Or.inl (by simpa using he)
        | false =>
          rw [hfail dbus_name hn hq] at he
          simp only [List.mem_cons] at he
          rcases he with he | he
          · exact Or.inl (by simpa using he)
          · exact Or.inr he
    rcases hcase with hq | hs
    · rw [hq] at hsig
      rcases hsig with hsig | hsig <;> cases hsig
    · have := hsend e hs
      rcases hsig with hsig | hsig
      · subst hsig
        simpa [Event.is_signal] using this
      · subst hsig
        simpa [Event.is_signal] using this

/-- Witness for C12 (amended): the registered `sample_lash_app`, whose quit call
fails in `sample_env`. -/
theorem stop_lash_app_witness :
    sample_lash_app.level = stdHeaders.LADISH_APP_LEVEL_LASH ∧
    (ladish_app_stop stdHeaders sample_env sample_lash_app).1.state = AppState.STOPPING ∧
    (ladish_app_stop stdHeaders sample_env sample_lash_app).2 =
      Event.lash_quit ":1.42" ::
        (ladish_app_send_signal stdHeaders sample_env sample_lash_app SIGTERM false).2 :=
  ⟨by decide,
   (stop_lash_app stdHeaders sample_env sample_lash_app (by decide)).1,
   (stop_lash_app stdHeaders sample_env sample_lash_app (by decide)).2.2.2.1 ":1.42"
     (by decide) (by decide)⟩

/-! ### Firstborn tracking -/

theorem add_pid_first (app : App) (p : Int) (hrun : app.pid ≠ 0)
    (hnone : app.firstborn_pid = 0) (hp : 1 < p) (hne : p ≠ app.pid) :
    ladish_app_add_pid app p = { app with firstborn_pid := p, firstborn_refcount := 1 } := by
  have h1 : ¬ p ≤ 1 := by omega
  have h2 : ¬ app.pid = p := fun hc => hne hc.symm
  simp [ladish_app_add_pid, hrun, h1, h2, hnone]

theorem add_pid_again (app : App) (p : Int) (c : Int) (hrun : app.pid ≠ 0) (hp : 1 < p)
    (hne : p ≠ app.pid) :
    ladish_app_add_pid { app with firstborn_pid := p, firstborn_refcount := c } p =
      { app with firstborn_pid := p, firstborn_refcount := c + 1 } := by
  have h1 : ¬ p ≤ 1 := by omega
  have h2 : ¬ app.pid = p := fun hc => hne hc.symm
  have h3 : p ≠ 0 := by omega
  simp [ladish_app_add_pid, hrun, h1, h2, h3]

theorem add_pid_iterate (app : App) (p : Int) (hrun : app.pid ≠ 0)
    (hnone : app.firstborn_pid = 0) (hp : 1 < p) (hne : p ≠ app.pid) (n : Nat) :
    Nat.iterate (fun a => ladish_app_add_pid a p) (n + 1) app =
      { app with firstborn_pid := p, firstborn_refcount := (n : Int) + 1 } := by
  induction n with
  | zero =>
    simp only [Function.iterate_succ, Function.iterate_zero, Function.comp_apply, id_eq]
    rw [add_pid_first app p hrun hnone hp hne]
    simp
  | succ n ih =>
    rw [Function.iterate_succ_apply', ih, add_pid_again app p _ hrun hp hne]
    simp

theorem del_pid_more (app : App) (p : Int) (c : Int) (hp : 1 < p) (hc : 1 < c) :
    ladish_app_del_pid { app with firstborn_pid := p, firstborn_refcount := c } p =
      { app with firstborn_pid := p, firstborn_refcount := c - 1 } := by
  have h3 : p ≠ 0 := by omega
  have h4 : c - 1 > 0 := by omega
  simp [ladish_app_del_pid, h3, h4]

theorem del_pid_last (app : App) (p : Int) (hp : 1 < p) :
    ladish_app_del_pid { app with firstborn_pid := p, firstborn_refcount := 1 } p =
      { app with firstborn_pid := 0, firstborn_pgrp := 0, firstborn_refcount := 0 } := by
  have h3 : p ≠ 0 := by omega
  simp [ladish_app_del_pid, h3]

theorem del_pid_iterate (app : App) (p : Int) (hp : 1 < p) (n : Nat) :
    ∀ k, k < n →
      Nat.iterate (fun a => ladish_app_del_pid a p) k
          { app with firstborn_pid := p, firstborn_refcount := (n : Int) } =
        { app with firstborn_pid := p, firstborn_refcount := (n : Int) - (k : Int) } := by
  intro k
  induction k with
  | zero => intro _; simp
  | succ k ih =>
    intro hk
    rw [Function.iterate_succ_apply', ih (by omega), del_pid_more app p _ hp (by omega)]
    congr 1
    push_cast
    omega

/-- C14: for a running app with no tracked firstborn and a pid `p > 1` other than
the pid of the app, `N ≥ 1` registrations of `p` followed by `k` deregistrations
leave `firstborn_pid = p` with reference count `N - k` as long as `k < N` (the
firstborn process group is as before), and clear the firstborn pid, process
group and reference count to 0 at `k = N`. -/
theorem firstborn_reference_counting (app : App) (p : Int) (N k : Nat)
    (hrun : app.pid ≠ 0) (hnone : app.firstborn_pid = 0) (hp : 1 < p) (hne : p ≠ app.pid)
    (hN : 1 ≤ N) :
    Nat.iterate (fun a => ladish_app_add_pid a p) N app =
      { app with firstborn_pid := p, firstborn_refcount := (N : Int) } ∧
    (k < N →
      Nat.iterate (fun a => ladish_app_del_pid a p) k
          (Nat.iterate (fun a => ladish_app_add_pid a p) N app) =
        { app with firstborn_pid := p, firstborn_refcount := (N : Int) - (k : Int) }) ∧
    (k = N →
      Nat.iterate (fun a => ladish_app_del_pid a p) k
          (Nat.iterate (fun a => ladish_app_add_pid a p) N app) =
        { app with firstborn_pid := 0, firstborn_pgrp := 0, firstborn_refcount := 0 }) := by
  obtain ⟨n, rfl⟩ : ∃ n, N = n + 1 := ⟨N - 1, by omega⟩
  have hadd : Nat.iterate (fun a => ladish_app_add_pid a p) (n + 1) app =
      { app with firstborn_pid := p, firstborn_refcount := ((n + 1 : Nat) : Int) } := by
    rw [add_pid_iterate app p hrun hnone hp hne n]
    simp
  refine ⟨hadd, ?_, ?_⟩
  · intro hk
    rw [hadd]
    exact del_pid_iterate app p hp (n + 1) k hk
  · intro hk
    subst hk
    rw [hadd, Function.iterate_succ_apply', del_pid_iterate app p hp (n + 1) n (by omega)]
    have hone : ((n + 1 : Nat) : Int) - (n : Int) = 1 := by
      push_cast
      omega
    rw [hone]
    exact del_pid_last app p hp

/-- Witness for C14: three registrations of pid 2000 with `sample_lash_app`
(pid 1234), then three deregistrations. -/
theorem firstborn_reference_counting_witness :
    sample_lash_app.pid ≠ 0 ∧ sample_lash_app.firstborn_pid = 0 ∧ (1 : Int) < 2000 ∧
    (2000 : Int) ≠ sample_lash_app.pid ∧ 1 ≤ 3 ∧
    Nat.iterate (fun a => ladish_app_del_pid a 2000) 3
        (Nat.iterate (fun a => ladish_app_add_pid a 2000) 3 sample_lash_app) =
      { sample_lash_app with
        firstborn_pid := 0, firstborn_pgrp := 0, firstborn_refcount := 0 } :=
  ⟨by decide, by decide, by decide, by decide, by decide,
   (firstborn_reference_counting sample_lash_app 2000 3 3 (by decide) (by decide)
      (by decide) (by decide) (by decide)).2.2 rfl⟩

/-! ### Exit of a child -/

/-- C15: when some app has the pid given to `ladish_app_supervisor_child_exit`,
the call acts on the first such app in list order and returns true.  The pid and
pgrp of that app are cleared and its firstborn pid, pgrp and reference count are
not written.  If the app is flagged zombie it is removed from the list and
AppRemoved is emitted; otherwise its state becomes Stopped and AppStateChanged
(with its twin) is emitted, after a high-urgency notification when the app was
in state Started.  The version is incremented once (as `uint64_t`, hence by
exactly one below the maximum) and every other app is as before. -/
theorem child_exit_acts_on_first_match (h : Headers) (s : Supervisor) (pid : Int)
    (hsome : ∃ app ∈ s.applist, app.pid = pid) :
    ∃ (i : Nat) (app : App),
      s.applist[i]? = some app ∧ app.pid = pid ∧
      (∀ j, j < i → ∀ other, s.applist[j]? = some other → other.pid ≠ pid) ∧
      (app.zombie = true →
        ladish_app_supervisor_child_exit h s pid =
          (true,
           { s with version := u64_inc s.version, applist := s.applist.eraseIdx i },
           [Event.AppRemoved (u64_inc s.version) app.id])) ∧
      (app.zombie = false →
        ladish_app_supervisor_child_exit h s pid =
          (true,
           { s with
             version := u64_inc s.version
             applist := s.applist.set i
               { app with pid := 0, pgrp := 0, state := AppState.STOPPED } },
           (if app.state = AppState.STARTED then
              [Event.notify_high "App terminated unexpectedly" app.name]
            else []) ++
           [Event.AppStateChanged (u64_inc s.version) app.id app.name false app.terminal
              (ladish_level_string_to_integer h app.level),
            Event.AppStateChanged2 (u64_inc s.version) app.id app.name false app.terminal
              app.level])) ∧
      (s.version + 1 < UINT64_SIZE → u64_inc s.version = s.version + 1) := by
  have hfirst := list_for_each_find_first (fun app => app.pid == pid) s.applist
  cases hfind : list_for_each_find (fun app => app.pid == pid) s.applist with
  | none =>
    exfalso
    rw [hfind] at hfirst
    obtain ⟨app, happ, hpid⟩ := hsome
    have := hfirst app happ
    simp [hpid] at this
  | some i =>
    rw [hfind] at hfirst
    obtain ⟨app, hget, hcond, hbefore⟩ := hfirst
    have hpid : app.pid = pid := by simpa using hcond
    refine ⟨i, app, hget, hpid, ?_, ?_, ?_, u64_inc_of_lt⟩
    · intro j hj other hother
      have := hbefore j hj other hother
      simpa using this
    · intro hz
      simp only [ladish_app_supervisor_child_exit, hfind, hget, hz, if_true]
      simp only [remove_app_internal]
      have hlt : i < s.applist.length := (List.getElem?_eq_some.mp hget).1
      simp [hlt, eraseIdx_set_self]
    · intro hz
      simp [ladish_app_supervisor_child_exit, hfind, hget, hz, emit_app_state_changed]

/-- Witness for C15: the exit of pid 1234 after add and start on the fresh
supervisor. -/
theorem child_exit_acts_on_first_match_witness :
    (∃ app ∈ (run stdHeaders fresh_supervisor add_start).applist, app.pid = 1234) ∧
    (ladish_app_supervisor_child_exit stdHeaders
      (run stdHeaders fresh_supervisor add_start) 1234).1 = true := by
  have hsome : ∃ app ∈ (run stdHeaders fresh_supervisor add_start).applist, app.pid = 1234 :=
    ⟨started_foo, by decide, by decide⟩
  refine ⟨hsome, ?_⟩
  obtain ⟨i, app, _, _, _, hzombie, hplain, _⟩ := child_exit_acts_on_first_match stdHeaders
    (run stdHeaders fresh_supervisor add_start) 1234 hsome
  cases hz : app.zombie with
  | true => rw [hzombie hz]
  | false => rw [hplain hz]

/-! ### Clearing the supervisor -/

theorem iterate_u64_inc_mod (k : Nat) :
    ∀ v, (Nat.iterate u64_inc k v) % UINT64_SIZE = (v + k) % UINT64_SIZE := by
  induction k with
  | zero => intro v; rfl
  | succ k ih =>
    intro v
    rw [Function.iterate_succ_apply, ih (u64_inc v)]
    unfold u64_inc
    rw [Nat.mod_add_mod]
    congr 1
    omega

theorem iterate_u64_inc_of_lt (k : Nat) :
    ∀ v, v + k < UINT64_SIZE → Nat.iterate u64_inc k v = v + k := by
  induction k with
  | zero => intro v _; rfl
  | succ k ih =>
    intro v hv
    rw [Function.iterate_succ_apply, u64_inc_of_lt (by omega), ih (v + 1) (by omega)]
    omega

theorem clear_loop_spec (h : Headers) (env : Env) (l : List App) :
    ∀ version,
      (clear_loop h env l version).1 =
        (l.filter (fun a => a.pid != 0)).map
          (fun a => { (ladish_app_initiate_stop h env a).1 with zombie := true }) ∧
      (clear_loop h env l version).2.1 =
        Nat.iterate u64_inc (l.countP (fun a => a.pid == 0)) version ∧
      (clear_loop h env l version).2.2.2 = l.all (fun a => a.pid == 0) := by
  induction l with
  | nil => intro version; simp [clear_loop]
  | cons app rest ih =>
    intro version
    unfold clear_loop
    by_cases hpid : app.pid = 0
    · obtain ⟨h1, h2, h3⟩ := ih (u64_inc version)
      simp only [hpid, ne_eq, not_true_eq_false, if_false]
      refine ⟨?_, ?_, ?_⟩
      · rw [h1]
        simp [hpid]
      · rw [h2, List.countP_cons]
        simp only [hpid, beq_self_eq_true, if_true]
        rw [Function.iterate_succ_apply]
      · rw [h3]
        simp [hpid]
    · obtain ⟨h1, h2, h3⟩ := ih version
      simp only [hpid, ne_eq, not_false_eq_true, if_true]
      refine ⟨?_, ?_, ?_⟩
      · rw [h1]
        simp [hpid]
      · rw [h2, List.countP_cons]
        simp [hpid]
      · simp [hpid]

/-- C16: `ladish_app_supervisor_clear` removes every app whose pid is 0 and keeps
every running app, in the original relative order, with its stop initiated (the
state is Stopping; only the state, the zombie flag and the resolved process
groups are written) and its zombie flag set.  It returns true exactly when no
app was running before the call, which is exactly when the list is empty
afterwards.  The version is incremented once per removed app (as `uint64_t`,
hence it grows by the number of removed apps below the maximum), and the
directory and the project name are cleared. -/
theorem clear_removes_stopped_keeps_running (h : Headers) (env : Env) (s : Supervisor) :
    (ladish_app_supervisor_clear h env s).2.1.applist =
      (s.applist.filter (fun a => a.pid != 0)).map
        (fun a => { (ladish_app_initiate_stop h env a).1 with zombie := true }) ∧
    (∀ a : App, ∃ pgrp firstborn_pgrp,
      ({ (ladish_app_initiate_stop h env a).1 with zombie := true } : App) =
        { a with state := AppState.STOPPING, zombie := true, pgrp := pgrp,
                 firstborn_pgrp := firstborn_pgrp }) ∧
    (∀ a ∈ (ladish_app_supervisor_clear h env s).2.1.applist,
      a.state = AppState.STOPPING ∧ a.zombie = true ∧ a.pid ≠ 0) ∧
    ((ladish_app_supervisor_clear h env s).1 = true ↔ ∀ a ∈ s.applist, a.pid = 0) ∧
    ((ladish_app_supervisor_clear h env s).1 = true ↔
      (ladish_app_supervisor_clear h env s).2.1.applist = []) ∧
    (ladish_app_supervisor_clear h env s).2.1.version % UINT64_SIZE =
      (s.version + s.applist.countP (fun a => a.pid == 0)) % UINT64_SIZE ∧
    (s.version + s.applist.countP (fun a => a.pid == 0) < UINT64_SIZE →
      (ladish_app_supervisor_clear h env s).2.1.version =
        s.version + s.applist.countP (fun a => a.pid == 0)) ∧
    (ladish_app_supervisor_clear h env s).2.1.dir = none ∧
    (ladish_app_supervisor_clear h env s).2.1.project_name = none := by
  obtain ⟨hlist, hver, hlife⟩ := clear_loop_spec h env s.applist s.version
  have hshape : ∀ a : App, ∃ pgrp firstborn_pgrp,
      ({ (ladish_app_initiate_stop h env a).1 with zombie := true } : App) =
        { a with state := AppState.STOPPING, zombie := true, pgrp := pgrp,
                 firstborn_pgrp := firstborn_pgrp } := by
    intro a
    obtain ⟨pg, fpg, heq⟩ := initiate_stop_app h env a
    exact ⟨pg, fpg, by rw [heq]⟩
  have hall : (ladish_app_supervisor_clear h env s).1 = true ↔ ∀ a ∈ s.applist, a.pid = 0 := by
    show (clear_loop h env s.applist s.version).2.2.2 = true ↔ _
    rw [hlife, List.all_eq_true]
    constructor
    · intro hc a ha
      simpa using hc a ha
    · intro hc a ha
      simpa using hc a ha
  refine ⟨hlist, hshape, ?_, hall, ?_, ?_, ?_, rfl, rfl⟩
  · intro a ha
    have ha' : a ∈ (s.applist.filter (fun a => a.pid != 0)).map
        (fun a => { (ladish_app_initiate_stop h env a).1 with zombie := true }) := by
      rw [← hlist]
      exact ha
    rw [List.mem_map] at ha'
    obtain ⟨b, hb, hba⟩ := ha'
    rw [List.mem_filter] at hb
    obtain ⟨pg, fpg, heq⟩ := hshape b
    rw [heq] at hba
    subst hba
    exact ⟨rfl, rfl, by simpa using hb.2⟩
  · rw [hall]
    show _ ↔ (clear_loop h env s.applist s.version).1 = []
    rw [hlist, List.map_eq_nil_iff, List.filter_eq_nil_iff]
    constructor
    · intro hc a ha
      simp [hc a ha]
    · intro hc a ha
      simpa using hc a ha
  · show (clear_loop h env s.applist s.version).2.1 % UINT64_SIZE = _
    rw [hver]
    exact iterate_u64_inc_mod _ _
  · intro hlt
    show (clear_loop h env s.applist s.version).2.1 = _
    rw [hver]
    exact iterate_u64_inc_of_lt _ _ hlt

/-! ### Property mutation -/

theorem set_properties_rejected_level (h : Headers) (s : Supervisor) (id : Nat)
    (name commandline : String) (terminal : Bool) (level : LevelArg) (okc okn : Bool)
    (hreq : requested_level h level = none) :
    set_app_properties_multiversion h s id name commandline terminal level okc okn =
      (MethodReply.LASH_DBUS_ERROR_INVALID_ARGS, s, []) := by
  unfold set_app_properties_multiversion
  cases level with
  | byte b =>
    simp only [requested_level] at hreq
    simp only [hreq]
  | str l =>
    simp only [requested_level] at hreq
    simp only [hreq]

theorem set_properties_found (h : Headers) (s : Supervisor) (id : Nat)
    (name commandline : String) (terminal : Bool) (level : LevelArg) (okc okn : Bool)
    (level_str : String) (app_handle : Nat) (app : App)
    (hreq : requested_level h level = some level_str)
    (hfind : ladish_app_supervisor_find_app_by_id_internal s id = some app_handle)
    (hget : s.applist[app_handle]? = some app) :
    set_app_properties_multiversion h s id name commandline terminal level okc okn =
      if app.pid ≠ 0 ∧ commandline ≠ app.commandline then
        (MethodReply.LASH_DBUS_ERROR_GENERIC, s, [])
      else if app.pid ≠ 0 ∧
          ((app.terminal = true ∧ terminal = false) ∨
           (app.terminal = false ∧ terminal = true)) then
        (MethodReply.LASH_DBUS_ERROR_GENERIC, s, [])
      else if app.pid ≠ 0 ∧ app.level ≠ level_str then
        (MethodReply.LASH_DBUS_ERROR_GENERIC, s, [])
      else if commandline ≠ app.commandline ∧ okc = false then
        (MethodReply.LASH_DBUS_ERROR_GENERIC, s, [])
      else if name ≠ app.name ∧ okn = false then
        (MethodReply.LASH_DBUS_ERROR_GENERIC, s, [])
      else
        (MethodReply.method_return_void,
         { s with
           version := u64_inc s.version
           applist := s.applist.set app_handle
             (store_properties app name commandline terminal level_str) },
         (if name ≠ app.name then [Event.on_app_renamed app.uuid app.name name] else []) ++
           (emit_app_state_changed h s
             (store_properties app name commandline terminal level_str)).2) := by
  unfold set_app_properties_multiversion
  cases level with
  | byte b =>
    simp only [requested_level] at hreq
    simp only [hreq, hfind, hget]
    rfl
  | str l =>
    simp only [requested_level] at hreq
    simp only [hreq, hfind, hget]
    rfl

/-- C17: on a running app (pid not 0), SetAppProperties that would change the
commandline, the terminal flag or the level is answered with an error and does
nothing else: the supervisor (app record and version included) is as before and
no event is emitted, neither the rename callback nor a notification.  A
name-only change of a running app is accepted (when the `strdup` of the new name
succeeds): the rename callback is invoked exactly once, with the UUID, the old
name and the new name of the app, before the name is stored and before the
notification is emitted. -/
theorem set_properties_on_running_app (h : Headers) (s : Supervisor) (id : Nat)
    (name commandline : String) (terminal : Bool) (level : LevelArg) (okc okn : Bool)
    (app_handle : Nat) (app : App)
    (hfind : ladish_app_supervisor_find_app_by_id_internal s id = some app_handle)
    (hget : s.applist[app_handle]? = some app)
    (hrun : app.pid ≠ 0) :
    ((commandline ≠ app.commandline ∨ terminal ≠ app.terminal ∨
        requested_level h level ≠ some app.level) →
      (set_app_properties_multiversion h s id name commandline terminal level okc okn).1 ≠
        MethodReply.method_return_void ∧
      (set_app_properties_multiversion h s id name commandline terminal level okc okn).2.1
        = s ∧
      (set_app_properties_multiversion h s id name commandline terminal level okc okn).2.2
        = []) ∧
    (commandline = app.commandline → terminal = app.terminal →
      requested_level h level = some app.level → name ≠ app.name → okn = true →
      set_app_properties_multiversion h s id name commandline terminal level okc okn =
        (MethodReply.method_return_void,
         { s with
           version := u64_inc s.version
           applist := s.applist.set app_handle { app with name := name } },
         [Event.on_app_renamed app.uuid app.name name,
          Event.AppStateChanged (u64_inc s.version) app.id name true app.terminal
            (ladish_level_string_to_integer h app.level),
          Event.AppStateChanged2 (u64_inc s.version) app.id name true app.terminal
            app.level])) := by
  constructor
  · intro hchange
    cases hreq : requested_level h level with
    | none =>
      rw [set_properties_rejected_level h s id name commandline terminal level okc okn hreq]
      exact ⟨(fun hne => by cases hne), rfl, rfl⟩
    | some level_str =>
      rw [set_properties_found h s id name commandline terminal level okc okn level_str
        app_handle app hreq hfind hget]
      by_cases hc : commandline = app.commandline
      · by_cases ht : terminal = app.terminal
        · have hl : app.level ≠ level_str := by
            rcases hchange with hchange | hchange | hchange
            · exact absurd hc hchange
            · exact absurd ht hchange
            · intro heq
              apply hchange
              rw [hreq, heq]
          simp only [hrun, hc, ht, hl, ne_eq, not_true_eq_false, not_false_eq_true,
            and_false, and_true, if_false, if_true]
          cases happt : app.terminal <;> simp
        · have hterm : (app.terminal = true ∧ terminal = false) ∨
              (app.terminal = false ∧ terminal = true) := by
            cases happt : app.terminal <;> cases htt : terminal <;> simp_all
          simp only [hrun, hc, hterm, ne_eq, not_true_eq_false, not_false_eq_true,
            and_false, and_true, if_false, if_true]
          exact (fun hne => by cases hne)
      · simp only [hrun, hc, ne_eq, not_false_eq_true, and_true, if_true]
        exact (fun hne => by cases hne)
  · intro hc ht hl hn hok
    subst hc
    subst ht
    rw [set_properties_found h s id name app.commandline app.terminal level okc okn app.level
      app_handle app hl hfind hget]
    have hstore : store_properties app name app.commandline app.terminal app.level =
        { app with name := name } := by
      rw [store_properties_eq]
    have hterm : ¬ ((app.terminal = true ∧ app.terminal = false) ∨
        (app.terminal = false ∧ app.terminal = true)) := by
      cases app.terminal <;> simp
    simp only [hterm, hn, hok, hstore, ne_eq, not_true_eq_false, not_false_eq_true,
      and_false, and_true, if_false, if_true, false_and, emit_app_state_changed]
    simp [hrun]

/-- Witness for C17: `started_foo` (running, level "0") after add and start; a
change of the commandline through the byte interface is rejected. -/
theorem set_properties_on_running_app_witness :
    ladish_app_supervisor_find_app_by_id_internal
      (run stdHeaders fresh_supervisor add_start) 1 = some 0 ∧
    (run stdHeaders fresh_supervisor add_start).applist[0]? = some started_foo ∧
    started_foo.pid ≠ 0 ∧
    (set_app_properties_multiversion stdHeaders (run stdHeaders fresh_supervisor add_start) 1
      "foo" "/bin/bar" false (LevelArg.byte 0) true true).2.2 = [] :=
  ⟨by decide, by decide, by decide,
   ((set_properties_on_running_app stdHeaders (run stdHeaders fresh_supervisor add_start) 1
      "foo" "/bin/bar" false (LevelArg.byte 0) true true 0 started_foo (by decide)
      (by decide) (by decide)).1 (Or.inl (by decide))).2.2⟩

/-! ### The start-studio command -/

/-- C18: run in state Pending while the studio is already started, the
start-studio command moves to Done and returns true without any side effect:
the only external call is the query `studio_is_started`; the count of running
apps is not fetched, the server start is not requested, no environment change is
consumed and the post-start configuration is not run. -/
theorem start_studio_already_started (calls : StudioCalls)
    (hstarted : calls.studio_is_started = true) :
    cmd_start_studio.run calls CommandState.PENDING =
      (true, CommandState.DONE, [StudioCall.studio_is_started]) ∧
    StudioCall.loader_get_app_count ∉ (cmd_start_studio.run calls CommandState.PENDING).2.2 ∧
    StudioCall.jack_proxy_start_server ∉
      (cmd_start_studio.run calls CommandState.PENDING).2.2 ∧
    (∀ consumed, StudioCall.consume_change consumed ∉
      (cmd_start_studio.run calls CommandState.PENDING).2.2) ∧
    StudioCall.on_event_jack_started ∉
      (cmd_start_studio.run calls CommandState.PENDING).2.2 := by
  have hres : cmd_start_studio.run calls CommandState.PENDING =
      (true, CommandState.DONE, [StudioCall.studio_is_started]) := by
    simp [cmd_start_studio.run, hstarted]
  rw [hres]
  simp

/-- Witness for C18: the studio is started while three apps are reported
running and an environment change is pending. -/
theorem start_studio_already_started_witness :
    calls_studio_started.studio_is_started = true ∧
    cmd_start_studio.run calls_studio_started CommandState.PENDING =
      (true, CommandState.DONE, [StudioCall.studio_is_started]) :=
  ⟨rfl, (start_studio_already_started calls_studio_started rfl).1⟩

/-- C19: run in state Pending while the studio is not started and the loader
reports a non-zero count of running apps, the start-studio command returns
false and stays Pending; the server start is not requested, no environment
change is consumed and the post-start configuration is not run. -/
theorem start_studio_stale_apps (calls : StudioCalls)
    (hstopped : calls.studio_is_started = false)
    (hcount : calls.loader_get_app_count ≠ 0) :
    cmd_start_studio.run calls CommandState.PENDING =
      (false, CommandState.PENDING,
       [StudioCall.studio_is_started, StudioCall.loader_get_app_count]) ∧
    (cmd_start_studio.run calls CommandState.PENDING).2.1 ≠ CommandState.WAITING ∧
    (cmd_start_studio.run calls CommandState.PENDING).2.1 ≠ CommandState.DONE ∧
    StudioCall.jack_proxy_start_server ∉
      (cmd_start_studio.run calls CommandState.PENDING).2.2 ∧
    (∀ consumed, StudioCall.consume_change consumed ∉
      (cmd_start_studio.run calls CommandState.PENDING).2.2) ∧
    StudioCall.on_event_jack_started ∉
      (cmd_start_studio.run calls CommandState.PENDING).2.2 := by
  have hres : cmd_start_studio.run calls CommandState.PENDING =
      (false, CommandState.PENDING,
       [StudioCall.studio_is_started, StudioCall.loader_get_app_count]) := by
    simp [cmd_start_studio.run, hstopped, hcount]
  rw [hres]
  simp

/-- Witness for C19: two stale apps while the studio is not started. -/
theorem start_studio_stale_apps_witness :
    calls_stale_apps.studio_is_started = false ∧
    calls_stale_apps.loader_get_app_count ≠ 0 ∧
    cmd_start_studio.run calls_stale_apps CommandState.PENDING =
      (false, CommandState.PENDING,
       [StudioCall.studio_is_started, StudioCall.loader_get_app_count]) :=
  ⟨rfl, by decide, (start_studio_stale_apps calls_stale_apps rfl (by decide)).1⟩

/-- C20: run in state Waiting, the start-studio command returns true in both
cases.  When there is no server-started change to consume it stays Waiting and
does nothing but the unsuccessful attempt to consume: no start request and no
post-start configuration.  When the change is consumed the post-start
configuration runs exactly once and the command moves to Done. -/
theorem start_studio_waiting (calls : StudioCalls) :
    (calls.consume_change = none →
      cmd_start_studio.run calls CommandState.WAITING =
        (true, CommandState.WAITING, [StudioCall.consume_change false])) ∧
    (∀ jack_server_started, calls.consume_change = some jack_server_started →
      cmd_start_studio.run calls CommandState.WAITING =
        (true, CommandState.DONE,
         [StudioCall.consume_change true, StudioCall.on_event_jack_started]) ∧
      (cmd_start_studio.run calls CommandState.WAITING).2.2.count
        StudioCall.on_event_jack_started = 1) := by
  constructor
  · intro hnone
    simp [cmd_start_studio.run, cmd_start_studio.waiting, hnone]
  · intro v hsome
    have hres : cmd_start_studio.run calls CommandState.WAITING =
        (true, CommandState.DONE,
         [StudioCall.consume_change true, StudioCall.on_event_jack_started]) := by
      simp [cmd_start_studio.run, cmd_start_studio.waiting, hsome]
    rw [hres]
    exact ⟨rfl, by decide⟩

/-! ### The scenario of the spec -/

/-- C22: on a freshly created supervisor, adding app "foo" with commandline
"/bin/foo", terminal false and level "0" yields id 1 and version 1; starting
the app with id 1 with a loader that reports pid 1234 yields pid 1234, state
Started and version 2; the exit of the child with pid 1234 then yields version
3, state Stopped and pid 0. -/
theorem scenario_add_start_exit :
    ladish_app_supervisor_create true "/org/ladish/Studio" "studio" = some fresh_supervisor ∧
    (ladish_app_supervisor_add stdHeaders fresh_supervisor true "foo" none 77 false
      "/bin/foo" false "0").1 = some 0 ∧
    (run stdHeaders fresh_supervisor [scenario_add]).applist.map App.id = [1] ∧
    (run stdHeaders fresh_supervisor [scenario_add]).version = 1 ∧
    ladish_app_supervisor_find_app_by_id
      (run stdHeaders fresh_supervisor [scenario_add]) 1 = some 0 ∧
    (ladish_app_supervisor_start_app stdHeaders
      (run stdHeaders fresh_supervisor [scenario_add]) 0 (some 1234)).1 = true ∧
    (run stdHeaders fresh_supervisor [scenario_add, scenario_start]).applist.map App.pid
      = [1234] ∧
    (run stdHeaders fresh_supervisor [scenario_add, scenario_start]).applist.map App.state
      = [AppState.STARTED] ∧
    (run stdHeaders fresh_supervisor [scenario_add, scenario_start]).version = 2 ∧
    (ladish_app_supervisor_child_exit stdHeaders
      (run stdHeaders fresh_supervisor [scenario_add, scenario_start]) 1234).1 = true ∧
    (run stdHeaders fresh_supervisor
      [scenario_add, scenario_start, scenario_exit]).version = 3 ∧
    (run stdHeaders fresh_supervisor
      [scenario_add, scenario_start, scenario_exit]).applist.map App.state
      = [AppState.STOPPED] ∧
    (run stdHeaders fresh_supervisor
      [scenario_add, scenario_start, scenario_exit]).applist.map App.pid = [0] ∧
    (run stdHeaders fresh_supervisor
      [scenario_add, scenario_start, scenario_exit]).applist.map App.id = [1] := by
  decide

/-! ### Exit of a pid that no app has -/

/-- C28 (counterexample): `sample_supervisor` holds the stopped `sample_app`
(pid 0) and no running app; `ladish_app_supervisor_child_exit` with pid 0 finds
that app, returns true, increments the version from 7 to 8 and emits
AppStateChanged. -/
theorem child_exit_zero_matches_stopped_app :
    sample_supervisor.applist.map App.pid = [0] ∧
    sample_supervisor.version = 7 ∧
    (ladish_app_supervisor_child_exit stdHeaders sample_supervisor 0).1 = true ∧
    (ladish_app_supervisor_child_exit stdHeaders sample_supervisor 0).2.1.version = 8 ∧
    (ladish_app_supervisor_child_exit stdHeaders sample_supervisor 0).2.2 =
      [Event.AppStateChanged 8 2 "a" false false 0,
       Event.AppStateChanged2 8 2 "a" false false "0"] := by
  decide

/-- C28 (amended): `ladish_app_supervisor_child_exit` with a pid that differs
from the pid field of every app in the list returns false and leaves the
supervisor as it was, emitting nothing.  For a non-zero pid this is the case
when no running app has that pid; for pid 0 it requires that the list holds no
stopped app, since a stopped app has pid 0 and is matched. -/
theorem child_exit_unknown_pid (h : Headers) (s : Supervisor) (pid : Int)
    (hnone : ∀ app ∈ s.applist, app.pid ≠ pid) :
    ladish_app_supervisor_child_exit h s pid = (false, s, []) := by
  have hfind : list_for_each_find (fun app => app.pid == pid) s.applist = none := by
    apply list_for_each_find_none
    intro app happ
    simpa using hnone app happ
  simp [ladish_app_supervisor_child_exit, hfind]

/-- Witness for C28 (amended): pid 4321 after add and start (pid 1234) on the
fresh supervisor. -/
theorem child_exit_unknown_pid_witness :
    (∀ app ∈ (run stdHeaders fresh_supervisor add_start).applist, app.pid ≠ 4321) ∧
    ladish_app_supervisor_child_exit stdHeaders
      (run stdHeaders fresh_supervisor add_start) 4321 =
      (false, run stdHeaders fresh_supervisor add_start, []) :=
  ⟨by decide,
   child_exit_unknown_pid stdHeaders (run stdHeaders fresh_supervisor add_start) 4321
     (by decide)⟩

/-! ### Reading properties and writing them back -/

/-- C30 (counterexample): for the LASH-level `sample_lash_app` (id 3) the
version-1 GetAppProperties returns the integer level 2; the version-1
SetAppProperties called with the returned values rejects them as invalid
arguments. -/
theorem get_set_roundtrip_rejected_for_lash :
    get_app_properties_multiversion stdHeaders lash_supervisor 1 3 =
      some { name := "l", commandline := "/bin/l", running := true, terminal := false,
             level := LevelArg.byte 2 } ∧
    (set_app_properties_multiversion stdHeaders lash_supervisor 3 "l" "/bin/l" false
      (LevelArg.byte 2) true true).1 = MethodReply.LASH_DBUS_ERROR_INVALID_ARGS ∧
    (set_app_properties_multiversion stdHeaders lash_supervisor 3 "l" "/bin/l" false
      (LevelArg.byte 2) true true).1 ≠ MethodReply.method_return_void := by
  decide

/-- C30 (amended): for the app that the id denotes, the version-1
GetAppProperties returns its name, commandline, terminal flag and the integer of
its level.  If the level of the app is level 0 or level 1, the version-1
SetAppProperties called with these values for the same id is accepted and leaves
the list of apps, hence the name, commandline, terminal flag and level of the
app, as it was (the version is incremented and AppStateChanged is emitted).  If
the level is another one (LASH), the returned integer is above 1 and
SetAppProperties rejects it as an invalid argument, changing nothing. -/
theorem get_set_roundtrip (h : Headers) (s : Supervisor) (id : Nat) (app_handle : Nat)
    (app : App) (okc okn : Bool)
    (hfind : ladish_app_supervisor_find_app_by_id_internal s id = some app_handle)
    (hget : s.applist[app_handle]? = some app) :
    get_app_properties_multiversion h s 1 id =
      some { name := app.name, commandline := app.commandline, running := app.pid != 0,
             terminal := app.terminal,
             level := LevelArg.byte (ladish_level_string_to_integer h app.level) } ∧
    ((app.level = h.LADISH_APP_LEVEL_0 ∨ app.level = h.LADISH_APP_LEVEL_1) →
      set_app_properties_multiversion h s id app.name app.commandline app.terminal
          (LevelArg.byte (ladish_level_string_to_integer h app.level)) okc okn =
        (MethodReply.method_return_void,
         { s with version := u64_inc s.version },
         [Event.AppStateChanged (u64_inc s.version) app.id app.name (app.pid != 0)
            app.terminal (ladish_level_string_to_integer h app.level),
          Event.AppStateChanged2 (u64_inc s.version) app.id app.name (app.pid != 0)
            app.terminal app.level])) ∧
    (app.level ≠ h.LADISH_APP_LEVEL_0 → app.level ≠ h.LADISH_APP_LEVEL_1 →
      set_app_properties_multiversion h s id app.name app.commandline app.terminal
          (LevelArg.byte (ladish_level_string_to_integer h app.level)) okc okn =
        (MethodReply.LASH_DBUS_ERROR_INVALID_ARGS, s, [])) := by
  refine ⟨?_, ?_, ?_⟩
  · simp [get_app_properties_multiversion, hfind, hget]
  · intro hlevel
    have hreq : requested_level h
        (LevelArg.byte (ladish_level_string_to_integer h app.level)) = some app.level := by
      unfold requested_level ladish_level_string_to_integer
      by_cases h0 : app.level = h.LADISH_APP_LEVEL_0
      · simp [h0]
      · have h1 : app.level = h.LADISH_APP_LEVEL_1 := by
          rcases hlevel with hl | hl
          · exact absurd hl h0
          · exact hl
        have hne : h.LADISH_APP_LEVEL_1 ≠ h.LADISH_APP_LEVEL_0 := fun hc => h0 (h1.trans hc)
        rw [h1]
        simp [hne]
    rw [set_properties_found h s id app.name app.commandline app.terminal _ okc okn
      app.level app_handle app hreq hfind hget]
    have hstore : store_properties app app.name app.commandline app.terminal app.level =
        app := by
      rw [store_properties_eq]
    have hterm : ¬ ((app.terminal = true ∧ app.terminal = false) ∨
        (app.terminal = false ∧ app.terminal = true)) := by
      cases app.terminal <;> simp
    simp only [hterm, hstore, ne_eq, not_true_eq_false, and_false, false_and, if_false,
      set_same s.applist app_handle app hget, emit_app_state_changed, List.nil_append]
  · intro h0 h1
    have hreq : requested_level h
        (LevelArg.byte (ladish_level_string_to_integer h app.level)) = none := by
      unfold requested_level ladish_level_string_to_integer
      simp only [h0, h1, if_false]
      split_ifs with ha hb
      all_goals
        first
        | rfl
        | (exfalso; omega)
    exact set_properties_rejected_level h s id app.name app.commandline app.terminal _ okc
      okn hreq

/-- Witness for C30 (amended): `started_foo` (level "0") after add and start on
the fresh supervisor. -/
theorem get_set_roundtrip_witness :
    ladish_app_supervisor_find_app_by_id_internal
      (run stdHeaders fresh_supervisor add_start) 1 = some 0 ∧
    (run stdHeaders fresh_supervisor add_start).applist[0]? = some started_foo ∧
    get_app_properties_multiversion stdHeaders (run stdHeaders fresh_supervisor add_start)
      1 1 =
      some { name := started_foo.name, commandline := started_foo.commandline,
             running := started_foo.pid != 0, terminal := started_foo.terminal,
             level := LevelArg.byte
               (ladish_level_string_to_integer stdHeaders started_foo.level) } :=
  ⟨by decide, by decide,
   (get_set_roundtrip stdHeaders (run stdHeaders fresh_supervisor add_start) 1 0
      started_foo true true (by decide) (by decide)).1⟩

/-! ### Process groups and the fallback to the pid -/

/-- C24 (counterexample): SIGTERM for an app with pid 1234 whose process group
is resolvable (1234) and whose tracked firstborn (pid 2000) has no resolvable
process group: the primary group is signalled with `killpg` and the primary pid
is signalled with `kill` as well, although the primary group is resolvable. -/
theorem kill_fallback_with_resolvable_group :
    env_primary_only.getpgid foo_with_firstborn.pid = 1234 ∧
    (resolve_process_groups env_primary_only foo_with_firstborn).pgrp = 1234 ∧
    (resolve_process_groups env_primary_only foo_with_firstborn).firstborn_pgrp = 0 ∧
    (ladish_app_send_signal stdHeaders env_primary_only foo_with_firstborn SIGTERM false).2
      = [Event.killpg 1234 SIGTERM, Event.kill 1234 SIGTERM] := by
  decide

/-- C24 (amended): for SIGTERM and SIGKILL on an app whose pid is above 1 (with
`prefer_firstborn` false, as stop and kill call it), `ladish_app_send_signal`
acts on the resolved process groups as follows.  If the primary group is not
resolvable (0), the primary pid is signalled with `kill`.  If it is resolvable
but not above 1, nothing is signalled.  Otherwise the primary group is signalled
with `killpg`, and then: nothing more if no firstborn is tracked; the primary
pid is signalled with `kill` if the group of the firstborn is not resolvable;
nothing more if that group is not above 1 or equals the primary group; the group
of the firstborn is signalled with `killpg` if it differs from the primary
group. -/
theorem send_signal_groups_then_pid (h : Headers) (env : Env) (app : App) (sig : Int)
    (hsig : sig = SIGKILL ∨ sig = SIGTERM) (hpid : 1 < app.pid) :
    (ladish_app_send_signal h env app sig false).2 =
      if (resolve_process_groups env app).pgrp = 0 then
        [Event.kill app.pid sig]
      else if (resolve_process_groups env app).pgrp ≤ 1 then
        []
      else
        Event.killpg (resolve_process_groups env app).pgrp sig ::
          (if app.firstborn_pid = 0 then []
           else if (resolve_process_groups env app).firstborn_pgrp = 0 then
             [Event.kill app.pid sig]
           else if (resolve_process_groups env app).firstborn_pgrp ≤ 1 then []
           else if (resolve_process_groups env app).firstborn_pgrp ≠
               (resolve_process_groups env app).pgrp then
             [Event.killpg (resolve_process_groups env app).firstborn_pgrp sig]
           else []) := by
  obtain ⟨st, hst⟩ := assert_state_assignment_fields h app
  have hne : app.pid ≠ 0 := by omega
  have h1 : ¬ app.pid ≤ 1 := by omega
  unfold ladish_app_send_signal
  simp only [hst, hne, hsig, if_true, if_false]
  have hres : (resolve_process_groups env { app with state := st }).pgrp =
      (resolve_process_groups env app).pgrp := rfl
  have hresf : (resolve_process_groups env { app with state := st }).firstborn_pgrp =
      (resolve_process_groups env app).firstborn_pgrp := rfl
  have hrpid : (resolve_process_groups env { app with state := st }).pid = app.pid := rfl
  have hrfp : (resolve_process_groups env { app with state := st }).firstborn_pid =
      app.firstborn_pid := rfl
  unfold signal_process_groups
  rw [send_signal_to_pid_eq, hres, hresf, hrpid, hrfp]
  simp only [Bool.false_and, Bool.false_eq_true, if_false, h1]
  split_ifs <;> simp_all

/-- Witness for C24 (amended): SIGTERM for `foo_with_firstborn` when only the
primary process group is resolvable. -/
theorem send_signal_groups_then_pid_witness :
    (SIGTERM = SIGKILL ∨ SIGTERM = SIGTERM) ∧ 1 < foo_with_firstborn.pid ∧
    (ladish_app_send_signal stdHeaders env_primary_only foo_with_firstborn SIGTERM false).2 =
      if (resolve_process_groups env_primary_only foo_with_firstborn).pgrp = 0 then
        [Event.kill foo_with_firstborn.pid SIGTERM]
      else if (resolve_process_groups env_primary_only foo_with_firstborn).pgrp ≤ 1 then
        []
      else
        Event.killpg (resolve_process_groups env_primary_only foo_with_firstborn).pgrp
            SIGTERM ::
          (if foo_with_firstborn.firstborn_pid = 0 then []
           else if (resolve_process_groups env_primary_only
               foo_with_firstborn).firstborn_pgrp = 0 then
             [Event.kill foo_with_firstborn.pid SIGTERM]
           else if (resolve_process_groups env_primary_only
               foo_with_firstborn).firstborn_pgrp ≤ 1 then []
           else if (resolve_process_groups env_primary_only
               foo_with_firstborn).firstborn_pgrp ≠
               (resolve_process_groups env_primary_only foo_with_firstborn).pgrp then
             [Event.killpg (resolve_process_groups env_primary_only
               foo_with_firstborn).firstborn_pgrp SIGTERM]
           else []) :=
  ⟨Or.inr rfl, by decide,
   send_signal_groups_then_pid stdHeaders env_primary_only foo_with_firstborn SIGTERM
     (Or.inr rfl) (by decide)⟩

/-! ### Requesting the server start -/

/-- C26 (counterexample): the command is Pending, the studio is not started, no
app is running, the server start is requested successfully and a server-started
change is already there: the same run falls through to the Waiting arm,
consumes the change, runs the post-start configuration and ends in Done, not in
Waiting. -/
theorem start_studio_done_in_same_run :
    cmd_start_studio.run calls_change_pending CommandState.PENDING =
      (true, CommandState.DONE,
       [StudioCall.studio_is_started, StudioCall.loader_get_app_count,
        StudioCall.ladish_graph_dump, StudioCall.jack_proxy_start_server,
        StudioCall.consume_change true, StudioCall.on_event_jack_started]) ∧
    StudioCall.jack_proxy_start_server ∈
      (cmd_start_studio.run calls_change_pending CommandState.PENDING).2.2 ∧
    (cmd_start_studio.run calls_change_pending CommandState.PENDING).2.1 ≠
      CommandState.WAITING := by
  decide

/-- C26 (amended): a Pending start-studio command that requests the server start
(studio not started, no app running) stays Pending and fails when the request
fails; when the request succeeds it moves to Waiting and falls through to the
Waiting arm in the same run: it ends the run in Waiting if there is no
server-started change to consume, and in Done, after the post-start
configuration, if the change is already there.  A Waiting command reaches Done
on a later run exactly by consuming the change.  In every case a command that
requested the start or was Waiting is Done after a run only if that run consumed
the change. -/
theorem start_studio_request (calls : StudioCalls)
    (hstopped : calls.studio_is_started = false)
    (hcount : calls.loader_get_app_count = 0) :
    (calls.jack_proxy_start_server = false →
      cmd_start_studio.run calls CommandState.PENDING =
        (false, CommandState.PENDING,
         [StudioCall.studio_is_started, StudioCall.loader_get_app_count,
          StudioCall.ladish_graph_dump, StudioCall.jack_proxy_start_server])) ∧
    (calls.jack_proxy_start_server = true → calls.consume_change = none →
      cmd_start_studio.run calls CommandState.PENDING =
        (true, CommandState.WAITING,
         [StudioCall.studio_is_started, StudioCall.loader_get_app_count,
          StudioCall.ladish_graph_dump, StudioCall.jack_proxy_start_server,
          StudioCall.consume_change false])) ∧
    (calls.jack_proxy_start_server = true →
      ∀ jack_server_started, calls.consume_change = some jack_server_started →
      cmd_start_studio.run calls CommandState.PENDING =
        (true, CommandState.DONE,
         [StudioCall.studio_is_started, StudioCall.loader_get_app_count,
          StudioCall.ladish_graph_dump, StudioCall.jack_proxy_start_server,
          StudioCall.consume_change true, StudioCall.on_event_jack_started])) ∧
    (∀ later : StudioCalls,
      (later.consume_change = none →
        cmd_start_studio.run later CommandState.WAITING =
          (true, CommandState.WAITING, [StudioCall.consume_change false])) ∧
      (∀ jack_server_started, later.consume_change = some jack_server_started →
        cmd_start_studio.run later CommandState.WAITING =
          (true, CommandState.DONE,
           [StudioCall.consume_change true, StudioCall.on_event_jack_started]))) ∧
    (∀ (any : StudioCalls) (state : CommandState),
      (StudioCall.jack_proxy_start_server ∈ (cmd_start_studio.run any state).2.2 ∨
        state = CommandState.WAITING) →
      (cmd_start_studio.run any state).2.1 = CommandState.DONE →
      StudioCall.consume_change true ∈ (cmd_start_studio.run any state).2.2) := by
  refine ⟨?_, ?_, ?_, ?_, ?_⟩
  · intro hfail
    simp [cmd_start_studio.run, hstopped, hcount, hfail]
  · intro hok hnone
    simp [cmd_start_studio.run, cmd_start_studio.waiting, hstopped, hcount, hok, hnone]
  · intro hok v hsome
    simp [cmd_start_studio.run, cmd_start_studio.waiting, hstopped, hcount, hok, hsome]
  · intro later
    constructor
    · intro hnone
      simp [cmd_start_studio.run, cmd_start_studio.waiting, hnone]
    · intro v hsome
      simp [cmd_start_studio.run, cmd_start_studio.waiting, hsome]
  · intro any state hreq hdone
    cases state with
    | PENDING =>
      unfold cmd_start_studio.run at hreq hdone ⊢
      simp only at hreq hdone ⊢
      by_cases h1 : any.studio_is_started = true
      · simp [h1] at hreq
      · by_cases h2 : any.loader_get_app_count = 0
        · by_cases h3 : any.jack_proxy_start_server = true
          · cases h4 : any.consume_change with
            | none =>
              simp [h1, h2, h3, h4, cmd_start_studio.waiting] at hdone
            | some v =>
              simp [h1, h2, h3, h4, cmd_start_studio.waiting]
          · simp [h1, h2, h3] at hdone
        · simp [h1, h2] at hdone
    | WAITING =>
      unfold cmd_start_studio.run at hdone ⊢
      cases h4 : any.consume_change with
      | none => simp [h4, cmd_start_studio.waiting] at hdone
      | some v => simp [h4, cmd_start_studio.waiting]
    | DONE =>
      rcases hreq with hreq | hreq
      · simp [cmd_start_studio.run] at hreq
      · cases hreq
    | FAILED =>
      simp [cmd_start_studio.run] at hdone

/-- Witness for C26 (amended): the start is requested while no change is there
yet; the run ends in Waiting. -/
theorem start_studio_request_witness :
    calls_no_change_yet.studio_is_started = false ∧
    calls_no_change_yet.loader_get_app_count = 0 ∧
    cmd_start_studio.run calls_no_change_yet CommandState.PENDING =
      (true, CommandState.WAITING,
       [StudioCall.studio_is_started, StudioCall.loader_get_app_count,
        StudioCall.ladish_graph_dump, StudioCall.jack_proxy_start_server,
        StudioCall.consume_change false]) :=
  ⟨rfl, rfl, (start_studio_request calls_no_change_yet rfl rfl).2.1 rfl rfl⟩

/-! ### Saving -/

theorem send_signal_usr1_app (h : Headers) (env : Env) (app : App) (pf : Bool) :
    (ladish_app_send_signal h env app SIGUSR1 pf).1 = assert_state_assignment h app := by
  have hsig : ¬ (SIGUSR1 = SIGKILL ∨ SIGUSR1 = SIGTERM) := by decide
  unfold ladish_app_send_signal
  simp only [hsig, if_false]
  split_ifs <;> rfl

theorem initiate_save_app (h : Headers) (env : Env) (senv : SaveEnv)
    (supervisor_dir : Option String) (app : App) :
    (ladish_app_initiate_save h env senv supervisor_dir app).1 = app ∨
    (ladish_app_initiate_save h env senv supervisor_dir app).1 =
      assert_state_assignment h app := by
  unfold ladish_app_initiate_save
  simp only
  split
  · exact Or.inl rfl
  · split_ifs
    · exact Or.inr (send_signal_usr1_app h env app true)
    · exact Or.inl rfl

/-- Saving writes no field of the app other than, through the assignment in the
assertion of `ladish_app_send_signal`, the state: the pid, the zombie flag and
the autorun flag are as before, and so is the state when `ASSERT` does not
evaluate its argument or the app is in state Started. -/
theorem app_save_frame (h : Headers) (env : Env) (senv : SaveEnv)
    (supervisor_dir : Option String) (app : App) :
    (ladish_app_save h env senv supervisor_dir app).1.pid = app.pid ∧
    (ladish_app_save h env senv supervisor_dir app).1.zombie = app.zombie ∧
    (ladish_app_save h env senv supervisor_dir app).1.autorun = app.autorun ∧
    (h.ASSERT_evaluates = false ∨ app.state = AppState.STARTED →
      (ladish_app_save h env senv supervisor_dir app).1 = app) := by
  obtain ⟨st, hst⟩ := assert_state_assignment_fields h app
  unfold ladish_app_save
  rcases initiate_save_app h env senv supervisor_dir app with heq | heq
  · rw [heq]
    exact ⟨rfl, rfl, rfl, fun _ => rfl⟩
  · rw [heq]
    refine ⟨by rw [hst], by rw [hst], by rw [hst], ?_⟩
    intro hcase
    unfold assert_state_assignment
    rcases hcase with hcase | hcase
    · simp [hcase]
    · split_ifs
      · cases app
        simp_all
      · rfl

theorem save_loop_apps (h : Headers) (env : Env) (senv : SaveEnv)
    (supervisor_dir : Option String) (l : List App) :
    (save_loop h env senv supervisor_dir l).1 = l := by
  induction l with
  | nil => rfl
  | cons app rest ih =>
    unfold save_loop
    simp only [ih]
    split_ifs with h1 h2
    · rfl
    · rfl
    · have hstarted : app.state = AppState.STARTED := by
        by_contra hc
        exact h1 hc
      have := (app_save_frame h env senv supervisor_dir app).2.2.2 (Or.inr hstarted)
      unfold ladish_app_save at this
      simp only [this]

/-- `ladish_app_supervisor_save` leaves the supervisor, with every app record
and the version, as it was: it only saves apps that are in state Started. -/
theorem supervisor_save_frame (h : Headers) (env : Env) (senv : SaveEnv) (s : Supervisor) :
    (ladish_app_supervisor_save h env senv s).1 = s := by
  unfold ladish_app_supervisor_save
  have := save_loop_apps h env senv s.dir s.applist
  simp only [this]

/-- C27 (failing input): `ladish_app_save` on a running app of level "1" whose
stop has been initiated (state Stopping).  The save signal SIGUSR1 is sent, and
the assignment in `ASSERT(app_ptr->state = LADISH_APP_STATE_STARTED)` at the
head of `ladish_app_send_signal` puts the app back into state Started. -/
theorem app_save_changes_state :
    stopping_level1_app.state = AppState.STOPPING ∧
    (ladish_app_save stdHeaders sample_env sample_save_env none stopping_level1_app).1.state
      = AppState.STARTED ∧
    (ladish_app_save stdHeaders sample_env sample_save_env none stopping_level1_app).2
      = [Event.kill 1234 SIGUSR1] ∧
    (ladish_app_save stdHeaders sample_env sample_save_env none stopping_level1_app).1.state
      ≠ stopping_level1_app.state := by
  decide

/-! ### The pid and the state of an app -/

theorem clear_loop_running (h : Headers) (env : Env) (l : List App) :
    ∀ version, (∀ app ∈ (clear_loop h env l version).1,
      app.pid ≠ 0 ∧ app.state = AppState.STOPPING) := by
  induction l with
  | nil => intro version a ha; simp [clear_loop] at ha
  | cons app rest ih =>
    intro version
    unfold clear_loop
    split_ifs with hpid
    · intro a ha
      simp only [List.mem_cons] at ha
      rcases ha with ha | ha
      · obtain ⟨pg, fpg, heq⟩ := initiate_stop_app h env app
        rw [ha, heq]
        exact ⟨hpid, rfl⟩
      · exact ih version a ha
    · exact ih (u64_inc version)

theorem step_stopped_has_no_pid (h : Headers) (s : Supervisor) (op : Op)
    (hinv : StoppedHasNoPid s.applist) : StoppedHasNoPid (step h s op).1.applist := by
  cases op with
  | add alloc_ok name uuid generated autorun command terminal level =>
    simp only [step, ladish_app_supervisor_add]
    split
    · exact hinv
    · split
      · exact hinv
      · intro a ha hz
        simp only [List.mem_append, List.mem_singleton] at ha
        rcases ha with ha | ha
        · exact hinv a ha hz
        · subst ha
          rfl
  | remove app_handle =>
    simp only [step, ladish_app_supervisor_remove_app, remove_app_internal]
    split
    · exact hinv
    · intro a ha hz
      exact hinv a (List.mem_of_mem_eraseIdx ha) hz
  | start app_handle loader_execute =>
    simp only [step, ladish_app_supervisor_start_app]
    split
    · exact hinv
    · next app happ =>
      split
      · intro a ha hz
        rcases List.mem_or_eq_of_mem_set ha with ha | ha
        · exact hinv a ha hz
        · subst ha
          exact hinv app (List.getElem?_mem happ) hz
      · intro a ha hz
        rcases List.mem_or_eq_of_mem_set ha with ha | ha
        · exact hinv a ha hz
        · subst ha
          simp at hz
  | stop app_handle env =>
    simp only [step, on_app]
    split
    · exact hinv
    · next app happ =>
      intro a ha hz
      rcases List.mem_or_eq_of_mem_set ha with ha | ha
      · exact hinv a ha hz
      · obtain ⟨pg, fpg, heq⟩ := initiate_stop_app h env app
        simp only [ladish_app_stop, heq] at ha
        subst ha
        simp at hz
  | kill app_handle env =>
    simp only [step, on_app]
    split
    · exact hinv
    · next app happ =>
      intro a ha hz
      rcases List.mem_or_eq_of_mem_set ha with ha | ha
      · exact hinv a ha hz
      · obtain ⟨pg, fpg, heq⟩ := kill_app h env app
        simp only [heq] at ha
        subst ha
        simp at hz
  | child_exit pid =>
    simp only [step, ladish_app_supervisor_child_exit]
    split
    · exact hinv
    · split
      · exact hinv
      · next app_handle _ _ app happ =>
        split
        · intro a ha hz
          rw [remove_internal_applist] at ha
          simp only [eraseIdx_set_self] at ha
          exact hinv a (List.mem_of_mem_eraseIdx ha) hz
        · intro a ha hz
          simp only [emit_fields] at ha
          rcases List.mem_or_eq_of_mem_set ha with ha | ha
          · exact hinv a ha hz
          · subst ha
            rfl
  | clear env =>
    simp only [step, ladish_app_supervisor_clear]
    intro a ha hz
    have hrun := (clear_loop_running h env s.applist s.version a ha).2
    rw [hrun] at hz
    cases hz
  | set_properties id name commandline terminal level ok_commandline ok_name =>
    simp only [step, set_app_properties_multiversion]
    split
    · exact hinv
    · split
      · exact hinv
      · split
        · exact hinv
        · next app happ =>
          have hstore : StoppedHasNoPid (s.applist.set ‹Nat›
              (store_properties app name commandline terminal ‹String›)) := by
            intro a ha hz
            rcases List.mem_or_eq_of_mem_set ha with ha | ha
            · exact hinv a ha hz
            · rw [store_properties_eq] at ha
              subst ha
              exact hinv app (List.getElem?_mem happ) hz
          split_ifs
          all_goals
            first
            | exact hstore
            | exact hinv

theorem step_no_pid_is_stopped (h : Headers) (s : Supervisor) (op : Op)
    (hop : op.on_running s = true)
    (hinv : NoPidIsStopped s.applist) : NoPidIsStopped (step h s op).1.applist := by
  cases op with
  | add alloc_ok name uuid generated autorun command terminal level =>
    simp only [step, ladish_app_supervisor_add]
    split
    · exact hinv
    · split
      · exact hinv
      · intro a ha hz
        simp only [List.mem_append, List.mem_singleton] at ha
        rcases ha with ha | ha
        · exact hinv a ha hz
        · subst ha
          rfl
  | remove app_handle =>
    simp only [step, ladish_app_supervisor_remove_app, remove_app_internal]
    split
    · exact hinv
    · intro a ha hz
      exact hinv a (List.mem_of_mem_eraseIdx ha) hz
  | start app_handle loader_execute =>
    simp only [step, ladish_app_supervisor_start_app]
    split
    · exact hinv
    · next app happ =>
      split
      · intro a ha hz
        rcases List.mem_or_eq_of_mem_set ha with ha | ha
        · exact hinv a ha hz
        · subst ha
          exact hinv app (List.getElem?_mem happ) hz
      · next pid =>
        intro a ha hz
        rcases List.mem_or_eq_of_mem_set ha with ha | ha
        · exact hinv a ha hz
        · subst ha
          simp only [Op.on_running, bne_iff_ne, ne_eq] at hop
          exact absurd hz hop
  | stop app_handle env =>
    simp only [step, on_app]
    split
    · exact hinv
    · next app happ =>
      intro a ha hz
      rcases List.mem_or_eq_of_mem_set ha with ha | ha
      · exact hinv a ha hz
      · obtain ⟨pg, fpg, heq⟩ := initiate_stop_app h env app
        simp only [ladish_app_stop, heq] at ha
        subst ha
        simp only [Op.on_running, happ, bne_iff_ne, ne_eq] at hop
        exact absurd hz hop
  | kill app_handle env =>
    simp only [step, on_app]
    split
    · exact hinv
    · next app happ =>
      intro a ha hz
      rcases List.mem_or_eq_of_mem_set ha with ha | ha
      · exact hinv a ha hz
      · obtain ⟨pg, fpg, heq⟩ := kill_app h env app
        simp only [heq] at ha
        subst ha
        simp only [Op.on_running, happ, bne_iff_ne, ne_eq] at hop
        exact absurd hz hop
  | child_exit pid =>
    simp only [step, ladish_app_supervisor_child_exit]
    split
    · exact hinv
    · split
      · exact hinv
      · next app_handle _ _ app happ =>
        split
        · intro a ha hz
          rw [remove_internal_applist] at ha
          simp only [eraseIdx_set_self] at ha
          exact hinv a (List.mem_of_mem_eraseIdx ha) hz
        · intro a ha hz
          simp only [emit_fields] at ha
          rcases List.mem_or_eq_of_mem_set ha with ha | ha
          · exact hinv a ha hz
          · subst ha
            rfl
  | clear env =>
    simp only [step, ladish_app_supervisor_clear]
    intro a ha hz
    exact absurd hz (clear_loop_running h env s.applist s.version a ha).1
  | set_properties id name commandline terminal level ok_commandline ok_name =>
    simp only [step, set_app_properties_multiversion]
    split
    · exact hinv
    · split
      · exact hinv
      · split
        · exact hinv
        · next app happ =>
          have hstore : NoPidIsStopped (s.applist.set ‹Nat›
              (store_properties app name commandline terminal ‹String›)) := by
            intro a ha hz
            rcases List.mem_or_eq_of_mem_set ha with ha | ha
            · exact hinv a ha hz
            · rw [store_properties_eq] at ha
              subst ha
              exact hinv app (List.getElem?_mem happ) hz
          split_ifs
          all_goals
            first
            | exact hstore
            | exact hinv

theorem run_stopped_has_no_pid (h : Headers) (ops : List Op) :
    ∀ s : Supervisor, StoppedHasNoPid s.applist → StoppedHasNoPid (run h s ops).applist := by
  induction ops with
  | nil => intro s hs; exact hs
  | cons op ops ih =>
    intro s hs
    exact ih _ (step_stopped_has_no_pid h s op hs)

theorem run_no_pid_is_stopped (h : Headers) (ops : List Op) :
    ∀ s : Supervisor, ops_on_running h s ops = true → NoPidIsStopped s.applist →
      NoPidIsStopped (run h s ops).applist := by
  induction ops with
  | nil => intro s _ hs; exact hs
  | cons op ops ih =>
    intro s hops hs
    simp only [ops_on_running, Bool.and_eq_true] at hops
    exact ih _ hops.2 (step_no_pid_is_stopped h s op hops.1 hs)

/-- C29: in every supervisor state reached from creation by a sequence of the
operations add, remove, start, stop, kill, child-exit and clear (and also
property-set) that respects the assertions of the source on the pid (a stop or
kill is applied to an app with a pid other than 0, a successful start stores a
pid other than 0), an app has pid 0 if and only if its state is Stopped. -/
theorem pid_zero_iff_stopped (h : Headers) (opath name : String) (s₀ : Supervisor)
    (hcreate : ladish_app_supervisor_create true opath name = some s₀)
    (ops : List Op) (hops : ops_on_running h s₀ ops = true) :
    ∀ app ∈ (run h s₀ ops).applist, (app.pid = 0 ↔ app.state = AppState.STOPPED) := by
  have hempty := (created_fields hcreate).2.2
  have h1 : StoppedHasNoPid (run h s₀ ops).applist :=
    run_stopped_has_no_pid h ops s₀ (by
      intro a ha
      rw [hempty] at ha
      cases ha)
  have h2 : NoPidIsStopped (run h s₀ ops).applist :=
    run_no_pid_is_stopped h ops s₀ hops (by
      intro a ha
      rw [hempty] at ha
      cases ha)
  intro app happ
  exact ⟨h2 app happ, h1 app happ⟩

/-- Witness for C29: two apps are added, the first is started and then stopped
while it runs (pid 1234, state Stopping), the second stays stopped (pid 0). -/
theorem pid_zero_iff_stopped_witness :
    ladish_app_supervisor_create true "/org/ladish/Studio" "studio" = some fresh_supervisor ∧
    ops_on_running stdHeaders fresh_supervisor two_apps_one_running = true ∧
    (run stdHeaders fresh_supervisor two_apps_one_running).applist.map
        (fun app => (app.pid, app.state))
      = [(1234, AppState.STOPPING), (0, AppState.STOPPED)] ∧
    (∀ app ∈ (run stdHeaders fresh_supervisor two_apps_one_running).applist,
      (app.pid = 0 ↔ app.state = AppState.STOPPED)) :=
  ⟨by decide, by decide, by decide,
   pid_zero_iff_stopped stdHeaders "/org/ladish/Studio" "studio" fresh_supervisor
     (by decide) two_apps_one_running (by decide)⟩

/-! ### Autorun -/

theorem autorun_loop_skip (h : Headers) (loader : Nat → LoaderOutcome) (n i : Nat)
    (s : Supervisor) (app : App) (hget : s.applist[i]? = some app)
    (hflag : app.autorun = false) :
    autorun_loop h loader (n + 1) i s = autorun_loop h loader n (i + 1) s := by
  rw [autorun_loop]
  simp only [hget, hflag, Bool.not_false, if_true]

theorem autorun_loop_fail (h : Headers) (loader : Nat → LoaderOutcome) (n i : Nat)
    (s : Supervisor) (app : App) (hget : s.applist[i]? = some app)
    (hflag : app.autorun = true) (hload : loader i = none) :
    (autorun_loop h loader (n + 1) i s).1.applist =
      s.applist.set i { app with autorun := false, zombie := false } := by
  have hlt : i < s.applist.length := by
    rcases Nat.lt_or_ge i s.applist.length with hlt | hge
    · exact hlt
    · rw [List.getElem?_eq_none_iff.mpr hge] at hget
      cases hget
  rw [autorun_loop]
  simp only [hget, hflag, Bool.not_true, hload, ladish_app_supervisor_start_app,
    List.getElem?_set, hlt, if_true, List.set_set]
  rfl

theorem autorun_loop_success (h : Headers) (loader : Nat → LoaderOutcome) (n i : Nat)
    (s : Supervisor) (app : App) (pid : Int) (hget : s.applist[i]? = some app)
    (hflag : app.autorun = true) (hload : loader i = some pid) :
    (autorun_loop h loader (n + 1) i s).1 =
      (autorun_loop h loader n (i + 1)
        { s with applist := s.applist.set i (autorun_started app pid),
                 version := u64_inc s.version }).1 := by
  have hlt : i < s.applist.length := by
    rcases Nat.lt_or_ge i s.applist.length with hlt | hge
    · exact hlt
    · rw [List.getElem?_eq_none_iff.mpr hge] at hget
      cases hget
  rw [autorun_loop]
  simp only [hget, hflag, Bool.not_true, hload, ladish_app_supervisor_start_app,
    List.getElem?_set, hlt, if_true, List.set_set, emit_app_state_changed]
  rfl

theorem get_set_other (l : List App) (i j : Nat) (a : App) (hne : i ≠ j) :
    (l.set i a)[j]? = l[j]? := by
  simp [List.getElem?_set, hne]

theorem get_set_self (l : List App) (i : Nat) (a b : App) (hget : l[i]? = some b) :
    (l.set i a)[i]? = some a := by
  have hlt : i < l.length := by
    rcases Nat.lt_or_ge i l.length with hlt | hge
    · exact hlt
    · rw [List.getElem?_eq_none_iff.mpr hge] at hget
      cases hget
  simp [List.getElem?_set, hlt]

theorem get_beyond (l : List App) (i j : Nat) (a : App) (hlen : l.length ≤ i) (hij : i ≤ j)
    (hget : l[j]? = some a) : False := by
  rw [List.getElem?_eq_none_iff.mpr (Nat.le_trans hlen hij)] at hget
  cases hget

theorem autorun_loop_spec (h : Headers) (loader : Nat → LoaderOutcome) :
    ∀ (n i : Nat) (s : Supervisor),
      (autorun_loop h loader n i s).1.applist.length = s.applist.length ∧
      (∀ j : Nat, j < i → (autorun_loop h loader n i s).1.applist[j]? = s.applist[j]?) ∧
      (∀ (j : Nat) (app : App), s.applist[j]? = some app → app.autorun = false →
        (autorun_loop h loader n i s).1.applist[j]? = some app) ∧
      (∀ (j : Nat) (app : App), i ≤ j → s.applist[j]? = some app → app.autorun = true → loader j = none →
        ∀ k : Nat, j < k → (autorun_loop h loader n i s).1.applist[k]? = s.applist[k]?) ∧
      (s.applist.length ≤ i + n →
        (∀ (j : Nat) (app : App), i ≤ j → s.applist[j]? = some app → app.autorun = true →
          (loader j).isSome = true) →
        ∀ (j : Nat) (app : App), i ≤ j → s.applist[j]? = some app → app.autorun = true →
          ∃ pid, loader j = some pid ∧
            (autorun_loop h loader n i s).1.applist[j]? = some (autorun_started app pid)) := by
  intro n
  induction n with
  | zero =>
    intro i s
    refine ⟨rfl, fun _ _ => rfl, fun j app hget _ => hget, fun _ _ _ _ _ _ _ _ => rfl, ?_⟩
    intro hlen _ j app hij hget _
    exact (get_beyond s.applist i j app (by omega) hij hget).elim
  | succ n ih =>
    intro i s
    cases hget : s.applist[i]? with
    | none =>
      have hr : autorun_loop h loader (n + 1) i s = (s, []) := by
        rw [autorun_loop]
        simp only [hget]
      rw [hr]
      refine ⟨rfl, fun _ _ => rfl, fun j app hj _ => hj, fun _ _ _ _ _ _ _ _ => rfl, ?_⟩
      intro _ _ j app hij hj _
      exact (get_beyond s.applist i j app (List.getElem?_eq_none_iff.mp hget) hij hj).elim
    | some app =>
      cases hflag : app.autorun with
      | false =>
        rw [autorun_loop_skip h loader n i s app hget hflag]
        obtain ⟨ih1, ih2, ih3, ih4, ih5⟩ := ih (i + 1) s
        refine ⟨ih1, fun j hj => ih2 j (by omega), ih3, ?_, ?_⟩
        · intro j a hij hj ha hl k hk
          have hne : i ≠ j := by
            intro hc
            subst hc
            rw [hget] at hj
            cases hj
            rw [hflag] at ha
            cases ha
          exact ih4 j a (by omega) hj ha hl k hk
        · intro hlen hall j a hij hj ha
          have hne : i ≠ j := by
            intro hc
            subst hc
            rw [hget] at hj
            cases hj
            rw [hflag] at ha
            cases ha
          exact ih5 (by omega) (fun j' a' hij' => hall j' a' (by omega)) j a (by omega) hj ha
      | true =>
        cases hload : loader i with
        | none =>
          have hr := autorun_loop_fail h loader n i s app hget hflag hload
          rw [hr]
          refine ⟨List.length_set _ _ _, ?_, ?_, ?_, ?_⟩
          · intro j hj
            exact get_set_other _ i j _ (by omega)
          · intro j a hj ha
            have hne : i ≠ j := by
              intro hc
              subst hc
              rw [hget] at hj
              cases hj
              rw [hflag] at ha
              cases ha
            rw [get_set_other _ i j _ hne]
            exact hj
          · intro j a hij _ _ _ k hk
            exact get_set_other _ i k _ (by omega)
          · intro _ hall j a _ _ _
            have := hall i app (Nat.le_refl i) hget hflag
            rw [hload] at this
            cases this
        | some pid =>
          have hr := autorun_loop_success h loader n i s app pid hget hflag hload
          rw [hr]
          obtain ⟨ih1, ih2, ih3, ih4, ih5⟩ := ih (i + 1)
            { s with applist := s.applist.set i (autorun_started app pid),
                     version := u64_inc s.version }
          simp only at ih1 ih2 ih3 ih4 ih5
          refine ⟨?_, ?_, ?_, ?_, ?_⟩
          · rw [ih1]
            exact List.length_set _ _ _
          · intro j hj
            rw [ih2 j (by omega)]
            exact get_set_other _ i j _ (by omega)
          · intro j a hj ha
            have hne : i ≠ j := by
              intro hc
              subst hc
              rw [hget] at hj
              cases hj
              rw [hflag] at ha
              cases ha
            exact ih3 j a (by rw [get_set_other _ i j _ hne]; exact hj) ha
          · intro j a hij hj ha hl k hk
            have hne : i ≠ j := by
              intro hc
              subst hc
              rw [hload] at hl
              cases hl
            rw [ih4 j a (by omega) (by rw [get_set_other _ i j _ hne]; exact hj) ha hl k hk]
            exact get_set_other _ i k _ (by omega)
          · intro hlen hall j a hij hj ha
            by_cases hc : i = j
            · subst hc
              rw [hget] at hj
              cases hj
              refine ⟨pid, hload, ?_⟩
              rw [ih2 i (by omega)]
              exact get_set_self _ i _ app hget
            · refine ih5 (by rw [List.length_set]; omega) ?_ j a (by omega)
                (by rw [get_set_other _ i j _ hc]; exact hj) ha
              intro j' a' hij' hj' ha'
              rw [get_set_other _ i j' _ (by omega)] at hj'
              exact hall j' a' (by omega) hj' ha'

/-- C25 (counterexample): two stopped apps "a" and "b", both flagged autorun, and
a loader whose spawn fails.  The start of "a" fails and the function returns:
"b" is still flagged autorun, and no start was attempted for it. -/
theorem autorun_returns_at_first_failure :
    autorun_supervisor.applist.map (fun app => (app.id, app.autorun))
      = [(1, true), (2, true)] ∧
    (ladish_app_supervisor_autorun stdHeaders autorun_supervisor loader_fails).1.applist.map
        (fun app => (app.id, app.autorun, app.pid, app.state))
      = [(1, false, 0, AppState.STOPPED), (2, true, 0, AppState.STOPPED)] ∧
    (ladish_app_supervisor_autorun stdHeaders autorun_supervisor loader_fails).1.applist[1]?
      = some autorun_app_b ∧
    (ladish_app_supervisor_autorun stdHeaders autorun_supervisor loader_fails).2 = [] := by
  decide

/-- C25 (amended): `ladish_app_supervisor_autorun` walks the list in order,
clears the flag of each app flagged autorun before it starts it, and returns at
the first start that fails.  Apps that were not flagged are unchanged; the apps
behind a flagged app whose start fails are unchanged too, flag included; and if
the loader succeeds for every flagged app, each of them is started (flag and
zombie flag cleared, pid stored, state Started) and no app of the list is
flagged autorun afterwards. -/
theorem autorun_starts_until_first_failure (h : Headers) (s : Supervisor)
    (loader : Nat → LoaderOutcome) :
    (ladish_app_supervisor_autorun h s loader).1.applist.length = s.applist.length ∧
    (∀ (j : Nat) (app : App), s.applist[j]? = some app → app.autorun = false →
      (ladish_app_supervisor_autorun h s loader).1.applist[j]? = some app) ∧
    (∀ (j : Nat) (app : App), s.applist[j]? = some app → app.autorun = true →
      loader j = none →
      ∀ k : Nat, j < k →
        (ladish_app_supervisor_autorun h s loader).1.applist[k]? = s.applist[k]?) ∧
    ((∀ (j : Nat) (app : App), s.applist[j]? = some app → app.autorun = true →
        (loader j).isSome = true) →
      (∀ (j : Nat) (app : App), s.applist[j]? = some app → app.autorun = true →
        ∃ pid, loader j = some pid ∧
          (ladish_app_supervisor_autorun h s loader).1.applist[j]?
            = some (autorun_started app pid)) ∧
      (∀ app ∈ (ladish_app_supervisor_autorun h s loader).1.applist,
        app.autorun = false)) := by
  obtain ⟨h1, _, h3, h4, h5⟩ := autorun_loop_spec h loader s.applist.length 0 s
  unfold ladish_app_supervisor_autorun
  refine ⟨h1, h3, ?_, ?_⟩
  · intro j app hj ha hl k hk
    exact h4 j app (Nat.zero_le j) hj ha hl k hk
  · intro hall
    have hstarted := h5 (by omega) (fun j app _ => hall j app)
    refine ⟨fun j app hj ha => hstarted j app (Nat.zero_le j) hj ha, ?_⟩
    intro app happ
    obtain ⟨j, hjlt, hj⟩ := List.getElem_of_mem happ
    have hj' : (autorun_loop h loader s.applist.length 0 s).1.applist[j]? = some app := by
      rw [List.getElem?_eq_getElem hjlt, hj]
    rw [h1] at hjlt
    have hold : s.applist[j]? = some (s.applist[j]) := List.getElem?_eq_getElem hjlt
    cases hflag : (s.applist[j]).autorun with
    | false =>
      rw [h3 j _ hold hflag] at hj'
      cases hj'
      exact hflag
    | true =>
      obtain ⟨pid, _, hres⟩ := hstarted j _ (Nat.zero_le j) hold hflag
      rw [hres] at hj'
      cases hj'
      rfl

/-- Witness for C25 (amended): the two flagged apps with a loader that succeeds;
both are started and none is flagged afterwards. -/
theorem autorun_starts_until_first_failure_witness :
    (∀ (j : Nat) (app : App), autorun_supervisor.applist[j]? = some app →
      app.autorun = true → (loader_succeeds j).isSome = true) ∧
    (∀ app ∈ (ladish_app_supervisor_autorun stdHeaders autorun_supervisor
        loader_succeeds).1.applist, app.autorun = false) :=
  ⟨fun _ _ _ _ => rfl,
   ((autorun_starts_until_first_failure stdHeaders autorun_supervisor
      loader_succeeds).2.2.2 (fun _ _ _ _ => rfl)).2⟩

/-! ### The JACK dispatcher -/

theorem or_and_left_self (a b : Nat) (hab : a &&& b = 0) : (a ||| b) &&& a = a := by
  rw [Nat.and_comm, Nat.and_or_distrib_left, Nat.and_self, hab, Nat.or_zero]

theorem or_and_right_self (a b : Nat) (hab : a &&& b = 0) : (a ||| b) &&& b = b := by
  rw [Nat.and_comm, Nat.and_or_distrib_left, Nat.and_self, Nat.and_comm, hab, Nat.zero_or]

theorem or_and_disjoint (a b x : Nat) (hax : a &&& x = 0) (hbx : b &&& x = 0) :
    (a ||| b) &&& x = 0 := by
  rw [Nat.and_comm, Nat.and_or_distrib_left, Nat.and_comm, hax, Nat.and_comm, hbx]
  rfl

theorem port_flags_contain (c : JackConstants) (hc : c.flags_disjoint)
    (is_input is_terminal : Bool) :
    flags_contain (port_flags c is_input is_terminal) c.JACKDBUS_PORT_FLAG_INPUT = is_input ∧
    flags_contain (port_flags c is_input is_terminal) c.JACKDBUS_PORT_FLAG_OUTPUT
      = !is_input ∧
    flags_contain (port_flags c is_input is_terminal) c.JACKDBUS_PORT_FLAG_TERMINAL
      = is_terminal := by
  obtain ⟨hi, ho, ht, hio, hit, hot⟩ := hc
  have hoi : c.JACKDBUS_PORT_FLAG_OUTPUT &&& c.JACKDBUS_PORT_FLAG_INPUT = 0 := by
    rw [Nat.and_comm]; exact hio
  have hti : c.JACKDBUS_PORT_FLAG_TERMINAL &&& c.JACKDBUS_PORT_FLAG_INPUT = 0 := by
    rw [Nat.and_comm]; exact hit
  have hto : c.JACKDBUS_PORT_FLAG_TERMINAL &&& c.JACKDBUS_PORT_FLAG_OUTPUT = 0 := by
    rw [Nat.and_comm]; exact hot
  cases is_input <;> cases is_terminal <;>
    simp only [flags_contain, port_flags, if_true, if_false, Bool.false_eq_true,
      Bool.not_true, Bool.not_false, Nat.and_self, beq_self_eq_true, hio, hit, hot, hoi,
      or_and_left_self _ _ hit, or_and_left_self _ _ hot, or_and_right_self _ _ hit,
      or_and_right_self _ _ hot, or_and_disjoint _ _ _ hoi hti, or_and_disjoint _ _ _ hio hto,
      beq_eq_false_iff_ne, ne_eq, and_true, true_and] <;>
    first
    | exact ⟨fun hz => hi hz.symm, fun hz => ht hz.symm⟩
    | exact ⟨fun hz => ho hz.symm, fun hz => ht hz.symm⟩
    | exact fun hz => hi hz.symm
    | exact fun hz => ho hz.symm

theorem guids_differ : g_system_capture_guid ≠ g_system_playback_guid := by
  decide

theorem add_port_calls (c : JackConstants) (o : GraphCalls) (client : Nat)
    (port_name : String) (is_input is_terminal is_midi : Bool) :
    (∀ call ∈ port_appeared_add_port c o client port_name is_input is_terminal is_midi,
      ∀ uuid, call.creates uuid = false) ∧
    (∀ cl port name type flags result,
      JackCall.ladish_graph_add_port cl port name type flags result ∈
        port_appeared_add_port c o client port_name is_input is_terminal is_midi →
      cl = client ∧ name = port_name ∧ type = port_type c is_midi ∧
        flags = port_flags c is_input is_terminal) ∧
    (∀ port, o.ladish_port_create = some port →
      (port_appeared_add_port c o client port_name is_input is_terminal is_midi).countP
        JackCall.adds_port = 1) := by
  unfold port_appeared_add_port
  refine ⟨?_, ?_, ?_⟩
  · intro call hcall uuid
    cases hp : o.ladish_port_create with
    | none =>
      simp only [hp, List.mem_singleton] at hcall
      subst hcall
      rfl
    | some port =>
      simp only [hp, List.mem_cons, List.mem_singleton, List.not_mem_nil, or_false] at hcall
      rcases hcall with hcall | hcall <;> subst hcall <;> rfl
  · intro cl port name type flags result hmem
    cases hp : o.ladish_port_create with
    | none =>
      simp only [hp, List.mem_singleton] at hmem
      cases hmem
    | some port' =>
      simp only [hp, List.mem_cons, List.mem_singleton, List.not_mem_nil, or_false] at hmem
      rcases hmem with hmem | hmem
      · cases hmem
      · cases hmem
        exact ⟨rfl, rfl, rfl, rfl⟩
  · intro port hp
    simp only [hp]
    rfl

theorem port_appeared_cases (c : JackConstants) (o : GraphCalls) (d : jack_dispatcher)
    (port_id : Nat) (port_name : String) (is_input is_terminal is_midi : Bool) :
    (∃ client, d.pseudo_client is_input = some client ∧
      port_appeared c o d d.system_client_id port_id port_name is_input is_terminal is_midi =
        (d, port_appeared_add_port c o client port_name is_input is_terminal is_midi)) ∨
    (d.pseudo_client is_input = none ∧ o.ladish_client_create = none ∧
      port_appeared c o d d.system_client_id port_id port_name is_input is_terminal is_midi =
        (d, [JackCall.ladish_client_create (pseudo_client_guid is_input) none])) ∨
    (∃ client name, d.pseudo_client is_input = none ∧ o.ladish_client_create = some client ∧
      o.ladish_graph_add_client = false ∧
      port_appeared c o d d.system_client_id port_id port_name is_input is_terminal is_midi =
        (d, [JackCall.ladish_client_create (pseudo_client_guid is_input) (some client),
             JackCall.ladish_graph_add_client client name false,
             JackCall.ladish_graph_remove_client client])) ∨
    (∃ client name d', d.pseudo_client is_input = none ∧ o.ladish_client_create = some client ∧
      o.ladish_graph_add_client = true ∧
      d'.pseudo_client is_input = some client ∧
      d'.pseudo_client (!is_input) = d.pseudo_client (!is_input) ∧
      port_appeared c o d d.system_client_id port_id port_name is_input is_terminal is_midi =
        (d', [JackCall.ladish_client_create (pseudo_client_guid is_input) (some client),
              JackCall.ladish_graph_add_client client name true] ++
             port_appeared_add_port c o client port_name is_input is_terminal is_midi)) := by
  cases is_input
  · cases hcap : d.system_capture_client with
    | some client =>
      left
      refine ⟨client, hcap, ?_⟩
      simp only [port_appeared, if_true, Bool.not_false, hcap]
    | none =>
      right
      cases hcc : o.ladish_client_create with
      | none =>
        left
        refine ⟨hcap, rfl, ?_⟩
        simp only [port_appeared, if_true, Bool.not_false, hcap, hcc]
        rfl
      | some client =>
        right
        cases hac : o.ladish_graph_add_client with
        | false =>
          left
          refine ⟨client, "Hardware Capture", hcap, rfl, rfl, ?_⟩
          simp only [port_appeared, if_true, Bool.not_false, hcap, hcc, hac]
          cases d
          simp only at hcap
          subst hcap
          rfl
        | true =>
          right
          refine ⟨client, "Hardware Capture", { d with system_capture_client := some client },
            hcap, rfl, rfl, rfl, rfl, ?_⟩
          simp only [port_appeared, if_true, Bool.not_false, hcap, hcc, hac]
          rfl
  · cases hplay : d.system_playback_client with
    | some client =>
      left
      refine ⟨client, hplay, ?_⟩
      simp only [port_appeared, if_true, Bool.not_true, hplay]
      rfl
    | none =>
      right
      cases hcc : o.ladish_client_create with
      | none =>
        left
        refine ⟨hplay, rfl, ?_⟩
        simp only [port_appeared, if_true, Bool.not_true, hplay, hcc]
        rfl
      | some client =>
        right
        cases hac : o.ladish_graph_add_client with
        | false =>
          left
          refine ⟨client, "Hardware Playback", hplay, rfl, rfl, ?_⟩
          simp only [port_appeared, if_true, Bool.not_true, hplay, hcc, hac]
          cases d
          simp only at hplay
          subst hplay
          rfl
        | true =>
          right
          refine ⟨client, "Hardware Playback", { d with system_playback_client := some client },
            hplay, rfl, rfl, rfl, rfl, ?_⟩
          simp only [port_appeared, if_true, Bool.not_true, hplay, hcc, hac]
          rfl

theorem creates_other_guid (a b : Bool) (hne : a ≠ b) (result : Option Nat) :
    (JackCall.ladish_client_create (pseudo_client_guid a) result).creates
      (pseudo_client_guid b) = false := by
  cases a <;> cases b <;>
    first
    | exact absurd rfl hne
    | (simp only [JackCall.creates, pseudo_client_guid, if_true, if_false,
        Bool.false_eq_true, beq_eq_false_iff_ne, ne_eq]
       first
       | exact guids_differ
       | exact fun hc => guids_differ hc.symm)

theorem port_appeared_keeps (c : JackConstants) (o : GraphCalls) (d : jack_dispatcher)
    (client_id port_id : Nat) (port_name : String) (is_input is_terminal is_midi : Bool)
    (side : Bool) (client : Nat) (hside : d.pseudo_client side = some client) :
    (port_appeared c o d client_id port_id port_name is_input is_terminal
        is_midi).1.pseudo_client side = some client ∧
    ∀ call ∈ (port_appeared c o d client_id port_id port_name is_input is_terminal is_midi).2,
      call.creates (pseudo_client_guid side) = false := by
  by_cases hsys : client_id = d.system_client_id
  · subst hsys
    have hne : d.pseudo_client is_input = none → is_input ≠ side := by
      intro hnone hc
      rw [hc, hside] at hnone
      cases hnone
    have hflip : is_input ≠ side → side = !is_input := by
      cases is_input <;> cases side <;> simp
    rcases port_appeared_cases c o d port_id port_name is_input is_terminal is_midi with
      ⟨cl, _, heq⟩ | ⟨hnone, _, heq⟩ | ⟨cl, name, hnone, _, _, heq⟩ |
      ⟨cl, name, d', hnone, _, _, _, hother, heq⟩
    · rw [heq]
      exact ⟨hside, fun call hcall =>
        (add_port_calls c o cl port_name is_input is_terminal is_midi).1 call hcall _⟩
    · rw [heq]
      refine ⟨hside, ?_⟩
      intro call hcall
      simp only [List.mem_singleton] at hcall
      subst hcall
      exact creates_other_guid _ _ (hne hnone) _
    · rw [heq]
      refine ⟨hside, ?_⟩
      intro call hcall
      simp only [List.mem_cons, List.mem_singleton, List.not_mem_nil, or_false] at hcall
      rcases hcall with hcall | hcall | hcall
      · subst hcall
        exact creates_other_guid _ _ (hne hnone) _
      · subst hcall
        rfl
      · subst hcall
        rfl
    · rw [heq]
      have hs := hflip (hne hnone)
      refine ⟨?_, ?_⟩
      · simp only
        rw [hs, hother, ← hs]
        exact hside
      · intro call hcall
        simp only [List.cons_append, List.nil_append, List.mem_cons] at hcall
        rcases hcall with hcall | hcall | hcall
        · subst hcall
          exact creates_other_guid _ _ (hne hnone) _
        · subst hcall
          rfl
        · exact (add_port_calls c o cl port_name is_input is_terminal is_midi).1 call hcall _
  · unfold port_appeared
    rw [if_neg hsys]
    exact ⟨hside, fun call hcall => by cases hcall⟩

theorem ports_appeared_keeps (c : JackConstants) (ps : List PortAppeared) :
    ∀ (d : jack_dispatcher) (side : Bool) (client : Nat),
      d.pseudo_client side = some client →
      (ports_appeared c d ps).1.pseudo_client side = some client ∧
      ∀ call ∈ (ports_appeared c d ps).2,
        call.creates (pseudo_client_guid side) = false := by
  induction ps with
  | nil =>
    intro d side client hside
    exact ⟨hside, fun call hcall => by cases hcall⟩
  | cons p ps ih =>
    intro d side client hside
    obtain ⟨h1, h2⟩ := port_appeared_keeps c p.calls d p.client_id p.port_id p.port_name
      p.is_input p.is_terminal p.is_midi side client hside
    obtain ⟨h3, h4⟩ := ih _ side client h1
    simp only [ports_appeared]
    refine ⟨h3, ?_⟩
    intro call hcall
    rw [List.mem_append] at hcall
    rcases hcall with hcall | hcall
    · exact h2 call hcall
    · exact h4 call hcall

/-- C21: for a port of the system client, every port that `port_appeared` adds
to the studio graph carries the given name, the type MIDI if `is_midi` and audio
otherwise, and flags that contain INPUT exactly if `is_input`, OUTPUT exactly if
not, and TERMINAL exactly if `is_terminal` (the three flags being non-empty bit
sets without a common bit); it is added to the playback pseudo-client if
`is_input` and to the capture pseudo-client otherwise.  The port is added when
the pseudo-client exists or can be created and registered, and the port can be
created.  A pseudo-client that exists is used as it is and never created again,
in this call and in any later sequence of calls; a call makes at most one
creation, of the pseudo-client it needs, and leaves the other one alone. -/
theorem port_appeared_translates_flags (c : JackConstants) (hc : c.flags_disjoint)
    (o : GraphCalls) (d : jack_dispatcher) (client_id port_id : Nat) (port_name : String)
    (is_input is_terminal is_midi : Bool) (hsys : client_id = d.system_client_id) :
    (∀ client port name type flags result,
      JackCall.ladish_graph_add_port client port name type flags result ∈
        (port_appeared c o d client_id port_id port_name is_input is_terminal is_midi).2 →
      name = port_name ∧
      type = (if is_midi then c.JACKDBUS_PORT_TYPE_MIDI else c.JACKDBUS_PORT_TYPE_AUDIO) ∧
      flags_contain flags c.JACKDBUS_PORT_FLAG_INPUT = is_input ∧
      flags_contain flags c.JACKDBUS_PORT_FLAG_OUTPUT = (!is_input) ∧
      flags_contain flags c.JACKDBUS_PORT_FLAG_TERMINAL = is_terminal ∧
      (if is_input then
        (port_appeared c o d client_id port_id port_name is_input is_terminal
          is_midi).1.system_playback_client
       else
        (port_appeared c o d client_id port_id port_name is_input is_terminal
          is_midi).1.system_capture_client) = some client) ∧
    (∀ port, o.ladish_port_create = some port →
      (d.pseudo_client is_input ≠ none ∨
        (o.ladish_client_create ≠ none ∧ o.ladish_graph_add_client = true)) →
      (port_appeared c o d client_id port_id port_name is_input is_terminal
        is_midi).2.countP JackCall.adds_port = 1) ∧
    (∀ client, d.pseudo_client is_input = some client →
      port_appeared c o d client_id port_id port_name is_input is_terminal is_midi =
        (d, port_appeared_add_port c o client port_name is_input is_terminal is_midi) ∧
      ∀ call ∈ (port_appeared c o d client_id port_id port_name is_input is_terminal
          is_midi).2, ∀ uuid, call.creates uuid = false) ∧
    ((port_appeared c o d client_id port_id port_name is_input is_terminal
        is_midi).2.countP (JackCall.creates (pseudo_client_guid is_input)) ≤ 1 ∧
     (port_appeared c o d client_id port_id port_name is_input is_terminal
        is_midi).2.countP (JackCall.creates (pseudo_client_guid (!is_input))) = 0 ∧
     (port_appeared c o d client_id port_id port_name is_input is_terminal
        is_midi).1.pseudo_client (!is_input) = d.pseudo_client (!is_input)) ∧
    (∀ (ps : List PortAppeared) (side : Bool) (client : Nat),
      d.pseudo_client side = some client →
      (ports_appeared c d ps).1.pseudo_client side = some client ∧
      ∀ call ∈ (ports_appeared c d ps).2,
        call.creates (pseudo_client_guid side) = false) := by
  subst hsys
  obtain ⟨hfi, hfo, hft⟩ := port_flags_contain c hc is_input is_terminal
  have hflip : is_input ≠ (!is_input) := by cases is_input <;> simp
  have hcount0 : ∀ (cl : Nat) (uuid : uuid_t),
      (port_appeared_add_port c o cl port_name is_input is_terminal is_midi).countP
        (JackCall.creates uuid) = 0 := by
    intro cl uuid
    rw [List.countP_eq_zero]
    intro call hcall
    rw [(add_port_calls c o cl port_name is_input is_terminal is_midi).1 call hcall uuid]
    exact Bool.false_ne_true
  refine ⟨?_, ?_, ?_, ?_, fun ps side client hside => ports_appeared_keeps c ps d side client hside⟩
  · intro client port name type flags result hmem
    have hpseudo : ∀ d' : jack_dispatcher,
        (if is_input then d'.system_playback_client else d'.system_capture_client)
          = d'.pseudo_client is_input := fun _ => rfl
    rw [hpseudo]
    rcases port_appeared_cases c o d port_id port_name is_input is_terminal is_midi with
      ⟨cl, hcl, heq⟩ | ⟨_, _, heq⟩ | ⟨cl, nm, _, _, _, heq⟩ |
      ⟨cl, nm, d', _, _, _, hd', _, heq⟩
    · rw [heq] at hmem ⊢
      obtain ⟨h1, h2, h3, h4⟩ :=
        (add_port_calls c o cl port_name is_input is_terminal is_midi).2.1 _ _ _ _ _ _ hmem
      subst h1 h2 h3 h4
      exact ⟨rfl, rfl, hfi, hfo, hft, hcl⟩
    · rw [heq] at hmem
      simp only [List.mem_singleton] at hmem
      cases hmem
    · rw [heq] at hmem
      simp only [List.mem_cons, List.mem_singleton, List.not_mem_nil, or_false] at hmem
      rcases hmem with hmem | hmem | hmem <;> cases hmem
    · rw [heq] at hmem ⊢
      simp only [List.cons_append, List.nil_append, List.mem_cons] at hmem
      rcases hmem with hmem | hmem | hmem
      · cases hmem
      · cases hmem
      · obtain ⟨h1, h2, h3, h4⟩ :=
          (add_port_calls c o cl port_name is_input is_terminal is_midi).2.1 _ _ _ _ _ _ hmem
        subst h1 h2 h3 h4
        exact ⟨rfl, rfl, hfi, hfo, hft, hd'⟩
  · intro port hport havail
    rcases port_appeared_cases c o d port_id port_name is_input is_terminal is_midi with
      ⟨cl, hcl, heq⟩ | ⟨hnone, hcc, heq⟩ | ⟨cl, nm, hnone, _, hac, heq⟩ |
      ⟨cl, nm, d', _, _, _, _, _, heq⟩
    · rw [heq]
      exact (add_port_calls c o cl port_name is_input is_terminal is_midi).2.2 port hport
    · rcases havail with havail | havail
      · exact absurd hnone havail
      · exact absurd hcc havail.1
    · rcases havail with havail | havail
      · exact absurd hnone havail
      · rw [hac] at havail
        cases havail.2
    · rw [heq]
      simp only [List.cons_append, List.nil_append]
      rw [List.countP_cons_of_neg, List.countP_cons_of_neg]
      · exact (add_port_calls c o cl port_name is_input is_terminal is_midi).2.2 port hport
      · simp only [JackCall.adds_port, Bool.false_eq_true, not_false_eq_true]
      · simp only [JackCall.adds_port, Bool.false_eq_true, not_false_eq_true]
  · intro client hclient
    rcases port_appeared_cases c o d port_id port_name is_input is_terminal is_midi with
      ⟨cl, hcl, heq⟩ | ⟨hnone, _, _⟩ | ⟨cl, nm, hnone, _, _, _⟩ |
      ⟨cl, nm, d', hnone, _, _, _, _, _⟩
    · rw [hclient] at hcl
      cases hcl
      rw [heq]
      exact ⟨rfl, fun call hcall uuid =>
        (add_port_calls c o client port_name is_input is_terminal is_midi).1 call hcall uuid⟩
    · rw [hclient] at hnone
      cases hnone
    · rw [hclient] at hnone
      cases hnone
    · rw [hclient] at hnone
      cases hnone
  · rcases port_appeared_cases c o d port_id port_name is_input is_terminal is_midi with
      ⟨cl, hcl, heq⟩ | ⟨_, _, heq⟩ | ⟨cl, nm, _, _, _, heq⟩ |
      ⟨cl, nm, d', _, _, _, _, hother, heq⟩
    · rw [heq]
      exact ⟨by rw [hcount0]; exact Nat.zero_le 1, hcount0 _ _, rfl⟩
    · rw [heq]
      refine ⟨?_, ?_, rfl⟩
      · exact List.countP_le_length _
      · rw [List.countP_eq_zero]
        intro call hcall
        simp only [List.mem_singleton] at hcall
        subst hcall
        rw [creates_other_guid _ _ hflip]
        exact Bool.false_ne_true
    · rw [heq]
      refine ⟨?_, ?_, rfl⟩
      · rw [List.countP_cons, List.countP_cons_of_neg, List.countP_cons_of_neg]
        · simp only [List.countP_nil, Nat.zero_add]
          split_ifs <;> omega
        · simp only [JackCall.creates, Bool.false_eq_true, not_false_eq_true]
        · simp only [JackCall.creates, Bool.false_eq_true, not_false_eq_true]
      · rw [List.countP_eq_zero]
        intro call hcall
        simp only [List.mem_cons, List.mem_singleton, List.not_mem_nil, or_false] at hcall
        rcases hcall with hcall | hcall | hcall <;> subst hcall
        · rw [creates_other_guid _ _ hflip]
          exact Bool.false_ne_true
        · simp only [JackCall.creates, Bool.false_eq_true, not_false_eq_true]
        · simp only [JackCall.creates, Bool.false_eq_true, not_false_eq_true]
    · rw [heq]
      refine ⟨?_, ?_, hother⟩
      · simp only [List.cons_append, List.nil_append]
        rw [List.countP_cons, List.countP_cons_of_neg, hcount0]
        · split_ifs <;> omega
        · simp only [JackCall.creates, Bool.false_eq_true, not_false_eq_true]
      · rw [List.countP_eq_zero]
        intro call hcall
        simp only [List.cons_append, List.nil_append, List.mem_cons] at hcall
        rcases hcall with hcall | hcall | hcall
        · subst hcall
          rw [creates_other_guid _ _ hflip]
          exact Bool.false_ne_true
        · subst hcall
          simp only [JackCall.creates, Bool.false_eq_true, not_false_eq_true]
        · rw [(add_port_calls c o cl port_name is_input is_terminal is_midi).1 call hcall _]
          exact Bool.false_ne_true

/-- Witness for C21: a terminal audio output port of the system client appears
at the dispatcher without pseudo-clients, all calls succeeding: the capture
pseudo-client 100 is created and the port 200 is added to it with type audio
and the flags OUTPUT and TERMINAL. -/
theorem port_appeared_translates_flags_witness :
    stdJackConstants.flags_disjoint ∧
    (port_appeared stdJackConstants graph_calls_succeed sample_dispatcher 1 7 "capture_1"
        false true false).2 =
      [JackCall.ladish_client_create g_system_capture_guid (some 100),
       JackCall.ladish_graph_add_client 100 "Hardware Capture" true,
       JackCall.ladish_port_create (some 200),
       JackCall.ladish_graph_add_port 100 200 "capture_1" 0 0x12 true] ∧
    (port_appeared stdJackConstants graph_calls_succeed sample_dispatcher 1 7 "capture_1"
        false true false).2.countP JackCall.adds_port = 1 :=
  ⟨by decide, by decide,
   (port_appeared_translates_flags stdJackConstants (by decide) graph_calls_succeed
      sample_dispatcher 1 7 "capture_1" false true false rfl).2.1 200 rfl
      (Or.inr ⟨by decide, rfl⟩)⟩

/-! ### The graph -/

theorem port_registered_iff (g : Graph) (port : Nat) :
    g.port_registered port = true ↔ ∃ c ∈ g.clients, ∃ q ∈ c.ports, q.id = port := by
  simp only [Graph.port_registered, List.any_eq_true, beq_iff_eq]

theorem client_owns_iff (g : Graph) (client port : Nat) :
    g.client_owns client port = true ↔
      ∃ c ∈ g.clients, c.id = client ∧ ∃ q ∈ c.ports, q.id = port := by
  simp only [Graph.client_owns, List.any_eq_true, Bool.and_eq_true, beq_iff_eq]

theorem references_false_iff (conn : GraphConnection) (port : Nat) :
    conn.references port = false ↔ conn.port1 ≠ port ∧ conn.port2 ≠ port := by
  simp only [GraphConnection.references, Bool.or_eq_false_iff, beq_eq_false_iff_ne, ne_eq]

theorem remove_port_registered (g : Graph) (port p : Nat) :
    (ladish_graph_remove_port g port).2.port_registered p = true ↔
      (g.port_registered p = true ∧ p ≠ port) := by
  rw [port_registered_iff, port_registered_iff]
  simp only [ladish_graph_remove_port, List.mem_map]
  constructor
  · rintro ⟨c', ⟨c, hc, rfl⟩, q, hq, hqp⟩
    simp only [List.mem_filter, bne_iff_ne, ne_eq] at hq
    exact ⟨⟨c, hc, q, hq.1, hqp⟩, by rw [← hqp]; exact hq.2⟩
  · rintro ⟨⟨c, hc, q, hq, hqp⟩, hne⟩
    refine ⟨_, ⟨c, hc, rfl⟩, q, ?_, hqp⟩
    simp only [List.mem_filter, bne_iff_ne, ne_eq]
    exact ⟨hq, by rw [hqp]; exact hne⟩

theorem remove_client_registered (g : Graph) (client p : Nat) :
    (ladish_graph_remove_client g client).port_registered p = true ↔
      ∃ c ∈ g.clients, c.id ≠ client ∧ ∃ q ∈ c.ports, q.id = p := by
  rw [port_registered_iff]
  simp only [ladish_graph_remove_client, List.mem_filter, bne_iff_ne, ne_eq]
  constructor
  · rintro ⟨c, ⟨hc, hne⟩, q, hq, hqp⟩
    exact ⟨c, hc, hne, q, hq, hqp⟩
  · rintro ⟨c, hc, hne, q, hq, hqp⟩
    exact ⟨c, ⟨hc, hne⟩, q, hq, hqp⟩

/-- C23: in a graph in which every connection has both endpoints registered,
removing a port removes exactly the connections that reference it, and the port
is no longer registered; removing a client removes the client, with its ports,
and exactly the connections on a port of that client; after either operation
every remaining connection has both endpoints registered in the graph. -/
theorem graph_removal_cascades (g : Graph) (hinv : g.ConnectionsRegistered) :
    (∀ port : Nat,
      (ladish_graph_remove_port g port).2.connections
        = g.connections.filter (fun conn => !conn.references port) ∧
      (∀ conn ∈ (ladish_graph_remove_port g port).2.connections,
        conn.port1 ≠ port ∧ conn.port2 ≠ port) ∧
      (ladish_graph_remove_port g port).2.port_registered port = false ∧
      (ladish_graph_remove_port g port).2.ConnectionsRegistered) ∧
    (∀ client : Nat,
      (∀ c ∈ (ladish_graph_remove_client g client).clients, c.id ≠ client ∧ c ∈ g.clients) ∧
      (∀ c ∈ g.clients, c.id ≠ client → c ∈ (ladish_graph_remove_client g client).clients) ∧
      (ladish_graph_remove_client g client).connections
        = g.connections.filter (fun conn =>
            !(g.client_owns client conn.port1 || g.client_owns client conn.port2)) ∧
      (∀ conn ∈ (ladish_graph_remove_client g client).connections,
        ∀ c ∈ g.clients, c.id = client → ∀ q ∈ c.ports,
          conn.port1 ≠ q.id ∧ conn.port2 ≠ q.id) ∧
      (ladish_graph_remove_client g client).ConnectionsRegistered) := by
  refine ⟨fun port => ⟨rfl, ?_, ?_, ?_⟩, fun client => ⟨?_, ?_, rfl, ?_, ?_⟩⟩
  · intro conn hconn
    simp only [ladish_graph_remove_port, List.mem_filter, Bool.not_eq_true_eq_eq_false,
      Bool.not_eq_eq_eq_not, Bool.not_true] at hconn
    exact (references_false_iff conn port).mp hconn.2
  · cases hreg : (ladish_graph_remove_port g port).2.port_registered port with
    | false => rfl
    | true => exact absurd rfl ((remove_port_registered g port port).mp hreg).2
  · intro conn hconn
    have hmem : conn ∈ g.connections ∧ conn.references port = false := by
      simpa only [ladish_graph_remove_port, List.mem_filter, Bool.not_eq_true_eq_eq_false,
        Bool.not_eq_eq_eq_not, Bool.not_true] using hconn
    have hne := (references_false_iff conn port).mp hmem.2
    exact ⟨(remove_port_registered g port _).mpr ⟨(hinv conn hmem.1).1, hne.1⟩,
      (remove_port_registered g port _).mpr ⟨(hinv conn hmem.1).2, hne.2⟩⟩
  · intro c hc
    simp only [ladish_graph_remove_client, List.mem_filter, bne_iff_ne, ne_eq] at hc
    exact ⟨hc.2, hc.1⟩
  · intro c hc hne
    simp only [ladish_graph_remove_client, List.mem_filter, bne_iff_ne, ne_eq]
    exact ⟨hc, hne⟩
  · intro conn hconn c hc hid q hq
    have hmem : conn ∈ g.connections ∧
        (g.client_owns client conn.port1 || g.client_owns client conn.port2) = false := by
      simpa only [ladish_graph_remove_client, List.mem_filter, Bool.not_eq_true_eq_eq_false,
        Bool.not_eq_eq_eq_not, Bool.not_true] using hconn
    rw [Bool.or_eq_false_iff] at hmem
    constructor
    · intro heq
      have : g.client_owns client conn.port1 = true :=
        (client_owns_iff g client _).mpr ⟨c, hc, hid, q, hq, heq.symm⟩
      rw [hmem.2.1] at this
      cases this
    · intro heq
      have : g.client_owns client conn.port2 = true :=
        (client_owns_iff g client _).mpr ⟨c, hc, hid, q, hq, heq.symm⟩
      rw [hmem.2.2] at this
      cases this
  · intro conn hconn
    have hmem : conn ∈ g.connections ∧
        (g.client_owns client conn.port1 || g.client_owns client conn.port2) = false := by
      simpa only [ladish_graph_remove_client, List.mem_filter, Bool.not_eq_true_eq_eq_false,
        Bool.not_eq_eq_eq_not, Bool.not_true] using hconn
    rw [Bool.or_eq_false_iff] at hmem
    have hkeep : ∀ p : Nat, g.port_registered p = true → g.client_owns client p = false →
        (ladish_graph_remove_client g client).port_registered p = true := by
      intro p hreg hown
      obtain ⟨c, hc, q, hq, hqp⟩ := (port_registered_iff g p).mp hreg
      refine (remove_client_registered g client p).mpr ⟨c, hc, ?_, q, hq, hqp⟩
      intro hid
      have : g.client_owns client p = true :=
        (client_owns_iff g client p).mpr ⟨c, hc, hid, q, hq, hqp⟩
      rw [hown] at this
      cases this
    exact ⟨hkeep _ (hinv conn hmem.1).1 hmem.2.1, hkeep _ (hinv conn hmem.1).2 hmem.2.2⟩

/-- Witness for C23: the sample graph; removing port 10 leaves the connection
11-20, removing client 1 leaves no connection. -/
theorem graph_removal_cascades_witness :
    sample_graph.ConnectionsRegistered ∧
    (ladish_graph_remove_port sample_graph 10).2.connections.map GraphConnection.id = [2] ∧
    (ladish_graph_remove_port sample_graph 10).2.ConnectionsRegistered ∧
    (ladish_graph_remove_client sample_graph 1).connections = [] ∧
    (ladish_graph_remove_client sample_graph 1).ConnectionsRegistered :=
  ⟨by decide, by decide,
   ((graph_removal_cascades sample_graph (by decide)).1 10).2.2.2,
   by decide,
   ((graph_removal_cascades sample_graph (by decide)).2 1).2.2.2.2⟩

end Ladish
